import Mathlib

/-!
# agile-stats: the sprint-key parser, the region locator and the upsert dispatcher

A shallow embedding of `src/google_apps_script.js` (Google Apps Script, i.e. JavaScript on V8)
and theorems about it.

Conventions of the embedding.
* A JavaScript string is a `List Char` (`JSString`).  Every string operation used by the
  program inspects single characters of the Basic Multilingual Plane, so the difference between
  UTF-16 code units and code points plays no role.
* A JavaScript Number that arises from `parseInt` of a digit run is a non-negative integer-valued
  IEEE-754 double or `+Infinity`; it is modelled exactly (`JSNumber`, `roundToDouble`).
* A Number stored in a cell or carried by the record is a finite double, given by its exact
  rational value; arithmetic on Numbers rounds to the nearest double (`roundRatio`).
* The spreadsheet is explicit state: a `Store` maps sheet names to sheets, a `Sheet` maps
  1-based (row, column) coordinates to a value and a background colour.
-/

namespace AgileStats

/-! ## JavaScript strings and the values the program handles -/

/-- A JavaScript string, as the list of its characters. -/
abbrev JSString := List Char

/-- The JavaScript values that reach the program: what `JSON.parse` can put in a field and what
`Range.getValues` returns for a cell.  Arrays and plain objects are one constructor, given by the
string that ToPrimitive yields for them: the program only ever tries to call a method on them
or compares them. -/
inductive JSValue where
  | undefined
  | null
  | boolean (b : Bool)
  | number (q : ℚ)
  | string (s : JSString)
  | object (primitive : JSString)
  deriving DecidableEq

/-- The exception raised by the runtime when a method is called on a value that has none. -/
inductive JSError where
  | typeError
  deriving DecidableEq

/-! ## Regular expressions of `getSprintKey` -/

/-- Canonicalisation of a character under the `i` flag (no `u` flag): the character is
upper-cased, except that a non-ASCII character is never mapped to an ASCII one.  The two
patterns of the program consist of ASCII letters only, so only the ASCII part of the mapping is
observable; it is the identity elsewhere here. -/
def canonicalize (c : Char) : Char :=
  if 97 ≤ c.toNat ∧ c.toNat ≤ 122 then Char.ofNat (c.toNat - 32) else c

/-- Class `\d`: the ten ASCII digits. -/
def isDigit (c : Char) : Bool :=
  decide (48 ≤ c.toNat ∧ c.toNat ≤ 57)

/-- Class `\s`: the ECMAScript WhiteSpace and LineTerminator code points. -/
def isWhiteSpace (c : Char) : Bool :=
  let n := c.toNat
  decide (n = 9 ∨ n = 10 ∨ n = 11 ∨ n = 12 ∨ n = 13 ∨ n = 32 ∨ n = 160 ∨ n = 5760 ∨
    (8192 ≤ n ∧ n ≤ 8202) ∨ n = 8232 ∨ n = 8233 ∨ n = 8239 ∨ n = 8287 ∨ n = 12288 ∨ n = 65279)

/-- Matches a literal pattern case-insensitively at the start of the input; the remaining input
is returned on success. -/
def matchLiteral : List Char → JSString → Option JSString
  | [], s => some s
  | _ :: _, [] => none
  | p :: ps, c :: cs => if canonicalize c = canonicalize p then matchLiteral ps cs else none

/-- The pattern `/Iteration\s+(\d+)/i` tried at the start of the input: on success the text of
capture group 1.  `\s+` and `\d+` are greedy and their classes are disjoint, so the only way
the pattern can match at a position is with the whole whitespace run followed by the whole digit
run: giving back a whitespace character would leave `\d+` facing a whitespace character. -/
def matchIterationAt (s : JSString) : Option JSString :=
  match matchLiteral "Iteration".toList s with
  | none => none
  | some afterWord =>
    let spaces := afterWord.takeWhile isWhiteSpace
    let afterSpaces := afterWord.dropWhile isWhiteSpace
    let digits := afterSpaces.takeWhile isDigit
    if spaces.isEmpty then none
    else if digits.isEmpty then none
    else some digits

/-- The call `sprintName.match(/Iteration\s+(\d+)/i)` on a string: the start positions are
tried from left to right and the first match wins; the result is `match[1]`, or `none` when
`match` is `null`. -/
def matchIteration : JSString → Option JSString
  | [] => matchIterationAt []
  | c :: cs =>
    match matchIterationAt (c :: cs) with
    | some digits => some digits
    | none => matchIteration cs

/-- The test `/^IR\d+$/i.test(sprintName)` on a string: the whole input is `IR` in either case
followed by one or more digits (no `m` flag, so `$` is the end of the input). -/
def testStrictIR (s : JSString) : Bool :=
  match matchLiteral "IR".toList s with
  | none => false
  | some rest => !rest.isEmpty && rest.all isDigit

/-- The method `toUpperCase` on ASCII text.  Its single call site is guarded by `/^IR\d+$/i`,
so it only ever receives the letters `i`, `r`, `I`, `R` and digits. -/
def toUpperCase (s : JSString) : JSString :=
  s.map canonicalize

/-! ## Numbers produced by `parseInt` -/

/-- A Number obtained from a digit run: `NaN`, a non-negative integer-valued double (given by
its exact value), or `+Infinity`. -/
inductive JSNumber where
  | nan
  | finite (value : Nat)
  | infinity
  deriving DecidableEq

/-- Number of binary digits of `n` (0 for 0). -/
def bitLength (n : Nat) : Nat :=
  go n n
where
  go : Nat → Nat → Nat
    | 0, _ => 0
    | fuel + 1, m => if m = 0 then 0 else go fuel (m / 2) + 1

/-- Rounding of a natural number to the nearest double (53-bit significand, ties to even);
`none` is `+Infinity`, the result when the rounded value needs more than 1024 binary digits,
i.e. is `2^1024` or more.  Integers below `2^53` are represented exactly. -/
def roundToDouble (n : Nat) : Option Nat :=
  if n < 2 ^ 53 then some n
  else
    let e := bitLength n - 53
    let q := n / 2 ^ e
    let r := n % 2 ^ e
    let half := 2 ^ (e - 1)
    let q1 := if r < half then q else if half < r then q + 1 else if q % 2 = 0 then q else q + 1
    let v := q1 * 2 ^ e
    if bitLength v ≤ 1024 then some v else none

/-- Value of a decimal digit character. -/
def digitValue (c : Char) : Nat :=
  c.toNat - 48

/-- The mathematical integer denoted by a run of decimal digits. -/
def digitsValue (ds : JSString) : Nat :=
  ds.foldl (fun acc c => 10 * acc + digitValue c) 0

/-- The call `parseInt(text, 10)` on text that starts with its digits (the capture of `(\d+)`
always does, and has no sign or leading blank): the longest digit prefix is read as an integer
and rounded to a double, correctly rounded as V8 does; no digit gives `NaN`. -/
def parseInt (text : JSString) : JSNumber :=
  let ds := text.takeWhile isDigit
  if ds.isEmpty then JSNumber.nan
  else
    match roundToDouble (digitsValue ds) with
    | some v => JSNumber.finite v
    | none => JSNumber.infinity

/-- The comparison `num < k` for a natural `k`: false for `NaN` and for `+Infinity`. -/
def JSNumber.lt (x : JSNumber) (k : Nat) : Bool :=
  match x with
  | JSNumber.finite v => decide (v < k)
  | _ => false

/-- Number of decimal digits of `n` (1 for 0). -/
def decimalLength (n : Nat) : Nat :=
  (Nat.toDigits 10 n).length

/-- Search of the shortest significand: for `k = 1, 2, ...` (at most `fuel` values) the `k`-digit
integers `s` next to `x / 10^(n-k)` are tried, and the first `k` for which `s * 10^(n-k)` rounds
to `x` is returned with the `s` nearest to `x` (the even one on a tie). -/
def shortestSignificand (x n : Nat) : Nat → Nat → Nat × Nat
  | 0, k => (k, x / 10 ^ (n - k))
  | fuel + 1, k =>
    let p := 10 ^ (n - k)
    let lo := x / p
    let hi := lo + 1
    let okLo := decide (roundToDouble (lo * p) = some x)
    let okHi := decide (hi < 10 ^ k) && decide (roundToDouble (hi * p) = some x)
    if okLo && okHi then
      if x - lo * p < hi * p - x then (k, lo)
      else if hi * p - x < x - lo * p then (k, hi)
      else if lo % 2 = 0 then (k, lo) else (k, hi)
    else if okLo then (k, lo)
    else if okHi then (k, hi)
    else if n ≤ k then (k, x)
    else shortestSignificand x n fuel (k + 1)

/-- The integers `n`, `k`, `s` of Number::toString for a positive integer-valued double `x`:
`k` is the least number of digits such that some `k`-digit `s` has `s * 10^(n-k)` round to `x`. -/
def shortestDecimal (x : Nat) : Nat × Nat × Nat :=
  let n := decimalLength x
  if roundToDouble (10 ^ n) = some x then (n + 1, 1, 1)
  else
    let ks := shortestSignificand x n n 1
    (n, ks.1, ks.2)

/-- Number::toString (radix 10) on the Numbers of this model.  A safe integer prints as its
decimal digits.  Above, the shortest significand `s` (of `k` digits, decimal exponent `n`) that
still rounds to the double is printed: padded with zeros while `n ≤ 21`, in exponent form from
`10^21` on. -/
def numberToString (x : JSNumber) : JSString :=
  match x with
  | JSNumber.nan => "NaN".toList
  | JSNumber.infinity => "Infinity".toList
  | JSNumber.finite v =>
    if v < 2 ^ 53 then Nat.toDigits 10 v
    else
      let nks := shortestDecimal v
      let n := nks.1
      let k := nks.2.1
      let digits := Nat.toDigits 10 nks.2.2
      if n ≤ 21 then digits ++ List.replicate (n - k) '0'
      else if k = 1 then digits ++ "e+".toList ++ Nat.toDigits 10 (n - 1)
      else digits.take 1 ++ ['.'] ++ digits.drop 1 ++ "e+".toList ++ Nat.toDigits 10 (n - 1)

/-! ## `getSprintKey` -/

/-- The body of the `try` block of `getSprintKey`.  Calling `.match` on anything but a string
raises a TypeError: `undefined` and `null` have no properties, and a number, a boolean, an array
or an object decoded from JSON has no callable `match`. -/
def getSprintKeyBody (sprintName : JSValue) : Except JSError (Option JSString) :=
  match sprintName with
  | JSValue.string s =>
    match matchIteration s with
    | some m1 =>
      if !m1.isEmpty then
        let num := parseInt m1
        let padded := if num.lt 10 then '0' :: numberToString num else numberToString num
        Except.ok (some ("IR".toList ++ padded))
      else if testStrictIR s then Except.ok (some (toUpperCase s))
      else Except.ok none
    | none =>
      if testStrictIR s then Except.ok (some (toUpperCase s))
      else Except.ok none
  | _ => Except.error JSError.typeError

/-- The function `getSprintKey`: the `try` body, with every exception turned into `null`. -/
def getSprintKey (sprintName : JSValue) : Option JSString :=
  match getSprintKeyBody sprintName with
  | Except.ok result => result
  | Except.error _ => none

/-! ## Loose equality -/

/-- Strips leading and trailing white space (StrWhiteSpace). -/
def trimWhiteSpace (s : JSString) : JSString :=
  ((s.dropWhile isWhiteSpace).reverse.dropWhile isWhiteSpace).reverse

/-- Value of a digit of radix up to 16, `none` for any other character. -/
def hexDigitValue (c : Char) : Option Nat :=
  let n := c.toNat
  if 48 ≤ n ∧ n ≤ 57 then some (n - 48)
  else if 97 ≤ n ∧ n ≤ 102 then some (n - 87)
  else if 65 ≤ n ∧ n ≤ 70 then some (n - 55)
  else none

/-- Reads a non-empty run of digits of the given radix that makes up the whole text. -/
def radixValue (radix : Nat) (s : JSString) : Option Nat :=
  if s.isEmpty then none
  else s.foldl (fun acc c =>
    match acc, hexDigitValue c with
    | some a, some d => if d < radix then some (radix * a + d) else none
    | _, _ => none) (some 0)

/-- NonDecimalIntegerLiteral: `0x`, `0o` or `0b` (either case) and digits of that radix. -/
def nonDecimalLiteral (s : JSString) : Option Nat :=
  match s with
  | '0' :: m :: ds =>
    if m = 'x' ∨ m = 'X' then radixValue 16 ds
    else if m = 'o' ∨ m = 'O' then radixValue 8 ds
    else if m = 'b' ∨ m = 'B' then radixValue 2 ds
    else none
  | _ => none

/-- Rounding of the ratio `a / b` of two naturals (`b` positive) to the nearest double, ties to
even.  The result `(m, e)` stands for `m * 2^e`: `e` is the exponent of the unit in the last
place, `floor (log2 (a / b)) - 52` and at least `-1074` (subnormal range), and `m`, at most
`2^53`, is `a / b / 2^e` rounded to an integer.  `none` is an overflow to Infinity (a result of
`2^1024` or more). -/
def roundRatio (a b : Nat) : Option (Nat × Int) :=
  let t : Int := (bitLength a : Int) - (bitLength b : Int)
  let atLeast : Bool :=
    if 0 ≤ t then decide (b * 2 ^ t.toNat ≤ a) else decide (b ≤ a * 2 ^ (-t).toNat)
  let lg : Int := if atLeast then t else t - 1
  let e : Int := max (lg - 52) (-1074)
  let num : Nat := if e < 0 then a * 2 ^ (-e).toNat else a
  let den : Nat := if e < 0 then b else b * 2 ^ e.toNat
  let m := num / den
  let r := num % den
  let m1 :=
    if 2 * r < den then m else if den < 2 * r then m + 1 else if m % 2 = 0 then m else m + 1
  if 971 < e ∨ (e = 971 ∧ m1 = 2 ^ 53) then none else some (m1, e)

/-- The rational `m * 2^e`. -/
def doubleValue (m : Nat) (e : Int) : ℚ :=
  (m : ℚ) * (2 : ℚ) ^ e

/-- The finite Number nearest to the ratio `a / b`, by its exact value; `none` is Infinity. -/
def nearestNumber (a b : Nat) : Option ℚ :=
  (roundRatio a b).map (fun p => doubleValue p.1 p.2)

/-- ExponentPart, possibly absent: the exponent of ten it denotes, `none` when the text is neither
empty nor a well-formed exponent. -/
def exponentPart (s : JSString) : Option Int :=
  match s with
  | [] => some 0
  | m :: rest =>
    if m = 'e' ∨ m = 'E' then
      match rest with
      | '-' :: ds => if !ds.isEmpty && ds.all isDigit then some (-(digitsValue ds : Int)) else none
      | '+' :: ds => if !ds.isEmpty && ds.all isDigit then some (digitsValue ds : Int) else none
      | ds => if !ds.isEmpty && ds.all isDigit then some (digitsValue ds : Int) else none
    else none

/-- The ratio of naturals that is `digits * 10^exponent`. -/
def scaleByTen (digits : Nat) (exponent : Int) : Nat × Nat :=
  if 0 ≤ exponent then (digits * 10 ^ exponent.toNat, 1) else (digits, 10 ^ (-exponent).toNat)

/-- StrUnsignedDecimalLiteral other than `Infinity`: digits, an optional fraction and an
optional exponent, with a digit on at least one side of the point.  The result is the exact
mathematical value, as a ratio of naturals. -/
def unsignedDecimalLiteral (s : JSString) : Option (Nat × Nat) :=
  let intDigits := s.takeWhile isDigit
  let afterInt := s.dropWhile isDigit
  match afterInt with
  | '.' :: afterPoint =>
    let fracDigits := afterPoint.takeWhile isDigit
    let afterFrac := afterPoint.dropWhile isDigit
    if intDigits.isEmpty && fracDigits.isEmpty then none
    else
      match exponentPart afterFrac with
      | some exponent =>
        some (scaleByTen (digitsValue (intDigits ++ fracDigits))
          (exponent - (fracDigits.length : Int)))
      | none => none
  | _ =>
    if intDigits.isEmpty then none
    else
      match exponentPart afterInt with
      | some exponent => some (scaleByTen (digitsValue intDigits) exponent)
      | none => none

/-- ToNumber on a string (StringToNumber): the mathematical value of the literal rounded to the
nearest double.  `none` stands for a result that no finite number equals, that is `NaN`,
`Infinity` or `-Infinity`.  The sign of a zero is not recorded: `==` does not see it. -/
def stringToNumber (s : JSString) : Option ℚ :=
  let t := trimWhiteSpace s
  if t.isEmpty then some 0
  else
    match nonDecimalLiteral t with
    | some n => nearestNumber n 1
    | none =>
      match t with
      | '-' :: u =>
        match unsignedDecimalLiteral u with
        | some ratio => (nearestNumber ratio.1 ratio.2).map (fun q => -q)
        | none => none
      | '+' :: u =>
        match unsignedDecimalLiteral u with
        | some ratio => nearestNumber ratio.1 ratio.2
        | none => none
      | u =>
        match unsignedDecimalLiteral u with
        | some ratio => nearestNumber ratio.1 ratio.2
        | none => none

/-- The operator `/` of the program, which divides a finite Number `x` by a positive integer
constant `d`: the exact quotient rounded to the nearest double, ties to even.  The quotient of a
Number by 100 never leaves the double range; for a rational beyond the Numbers, where the
rounding would overflow, the exact quotient stands. -/
def divideBy (x : ℚ) (d : Nat) : ℚ :=
  match roundRatio x.num.natAbs (x.den * d) with
  | some (m, e) => if x.num < 0 then -doubleValue m e else doubleValue m e
  | none => x / d

/-- Equality of a finite number with the result of ToNumber. -/
def numberEq (q : ℚ) (r : Option ℚ) : Bool :=
  match r with
  | some q1 => decide (q = q1)
  | none => false

/-- The operator `==` (IsLooselyEqual).  Values of one type are compared strictly, `null` and
`undefined` equal each other and nothing else, a string facing a number is converted with
ToNumber, a boolean is converted to 0 or 1 first, and an object facing a primitive is replaced by
its primitive string.  Two objects are equal only as the same reference, which a value read from
a cell and a value decoded from the request never are. -/
def looseEq : JSValue → JSValue → Bool
  | JSValue.undefined, JSValue.undefined => true
  | JSValue.undefined, JSValue.null => true
  | JSValue.null, JSValue.undefined => true
  | JSValue.null, JSValue.null => true
  | JSValue.undefined, _ => false
  | JSValue.null, _ => false
  | _, JSValue.undefined => false
  | _, JSValue.null => false
  | JSValue.object _, JSValue.object _ => false
  | JSValue.number a, JSValue.number b => decide (a = b)
  | JSValue.string a, JSValue.string b => decide (a = b)
  | JSValue.boolean a, JSValue.boolean b => decide (a = b)
  | JSValue.number a, JSValue.string b => numberEq a (stringToNumber b)
  | JSValue.string a, JSValue.number b => numberEq b (stringToNumber a)
  | JSValue.boolean a, JSValue.number b => decide ((if a then (1 : ℚ) else 0) = b)
  | JSValue.number a, JSValue.boolean b => decide (a = (if b then (1 : ℚ) else 0))
  | JSValue.boolean a, JSValue.string b => numberEq (if a then 1 else 0) (stringToNumber b)
  | JSValue.string a, JSValue.boolean b => numberEq (if b then 1 else 0) (stringToNumber a)
  | JSValue.object p, JSValue.string b => decide (p = b)
  | JSValue.string a, JSValue.object p => decide (a = p)
  | JSValue.object p, JSValue.number b => numberEq b (stringToNumber p)
  | JSValue.number a, JSValue.object p => numberEq a (stringToNumber p)
  | JSValue.object p, JSValue.boolean b => numberEq (if b then 1 else 0) (stringToNumber p)
  | JSValue.boolean a, JSValue.object p => numberEq (if a then 1 else 0) (stringToNumber p)

/-! ## The tabular store -/

/-- Content of a cell: empty, text or a number. -/
inductive CellValue where
  | empty
  | text (s : JSString)
  | number (q : ℚ)
  deriving DecidableEq

/-- A sheet: the value and the background colour of every cell, by 1-based row and column. -/
structure Sheet where
  value : Nat → Nat → CellValue
  background : Nat → Nat → JSString

/-- A rectangular range of a sheet: top-left cell and extent. -/
structure Range where
  row : Nat
  col : Nat
  numRows : Nat
  numCols : Nat
  deriving DecidableEq

/-- Whether the cell (r, c) belongs to the range. -/
def Range.contains (rg : Range) (r c : Nat) : Bool :=
  decide (rg.row ≤ r ∧ r < rg.row + rg.numRows ∧ rg.col ≤ c ∧ c < rg.col + rg.numCols)

/-- Column number of a column name in A1 notation (`A` = 1, `Z` = 26, `AA` = 27). -/
def columnNumber (letters : JSString) : Nat :=
  letters.foldl (fun acc c => 26 * acc + (c.toNat - 64)) 0

/-- Row and column of a cell reference in A1 notation, such as `AC3`. -/
def cellReference (ref : JSString) : Nat × Nat :=
  (digitsValue (ref.dropWhile Char.isUpper), columnNumber (ref.takeWhile Char.isUpper))

/-- The call `sheet.getRange(a1Notation)` for a cell (`B62`) or a rectangle (`A4:A26`).  The
two corners may come in either order, so a range has at least one row and one column.  The
program passes well-formed constants only. -/
def getRangeA1 (a1 : JSString) : Range :=
  let first := cellReference (a1.takeWhile (fun c => c != ':'))
  match a1.dropWhile (fun c => c != ':') with
  | [] => { row := first.1, col := first.2, numRows := 1, numCols := 1 }
  | _ :: rest =>
    let last := cellReference rest
    { row := min first.1 last.1, col := min first.2 last.2,
      numRows := max first.1 last.1 - min first.1 last.1 + 1,
      numCols := max first.2 last.2 - min first.2 last.2 + 1 }

/-- The call `sheet.getRange(row, column)`: a single cell. -/
def getRange (row col : Nat) : Range :=
  { row := row, col := col, numRows := 1, numCols := 1 }

/-- The call `sheet.getRange(row, column, numRows, numColumns)`. -/
def getRangeRect (row col numRows numCols : Nat) : Range :=
  { row := row, col := col, numRows := numRows, numCols := numCols }

/-- The JavaScript value `getValues` reports for a cell: an empty cell reads as the empty
string. -/
def CellValue.toJS (v : CellValue) : JSValue :=
  match v with
  | CellValue.empty => JSValue.string []
  | CellValue.text s => JSValue.string s
  | CellValue.number q => JSValue.number q

/-- The call `range.getValues()`: the rows of the range, each the list of its cells. -/
def getValues (sheet : Sheet) (rg : Range) : List (List JSValue) :=
  (List.range rg.numRows).map (fun i =>
    (List.range rg.numCols).map (fun j => (sheet.value (rg.row + i) (rg.col + j)).toJS))

/-- The call `range.setValue(v)`: every cell of the range receives the value. -/
def setValue (sheet : Sheet) (rg : Range) (v : CellValue) : Sheet :=
  { sheet with value := fun r c => if rg.contains r c then v else sheet.value r c }

/-- The call `range.setBackground(colour)`: every cell of the range receives the colour. -/
def setBackground (sheet : Sheet) (rg : Range) (colour : JSString) : Sheet :=
  { sheet with background := fun r c => if rg.contains r c then colour else sheet.background r c }

/-- The spreadsheet: its sheets by name. -/
abbrev Store := String → Option Sheet

/-- The call `getSheetByName(name)`. -/
def Store.getSheetByName (store : Store) (name : String) : Option Sheet :=
  store name

/-- The store after the sheet of the given name has taken a new state. -/
def Store.withSheet (store : Store) (name : String) (sheet : Sheet) : Store :=
  fun n => if n = name then some sheet else store n

/-! ## The region locator -/

/-- The loop of `updateVerticalRange`, from index `i` on: `rows` are the rows not yet visited.
The callback acts on a state of type `σ`; the first row whose first cell equals the key triggers
it and ends the function. -/
def updateVerticalRange.loop {σ : Type} (key : JSValue) (startRow : Nat)
    (callback : Nat → σ → σ) : List (List JSValue) → Nat → σ → σ
  | [], _, st => st
  | row :: rest, i, st =>
    if looseEq (row.headD JSValue.undefined) key then callback (startRow + i) st
    else updateVerticalRange.loop key startRow callback rest (i + 1) st

/-- The function `updateVerticalRange(sheet, rangeAddress, key, startRow, callback)`: the values
of the range are read from the sheet, then scanned from the top. -/
def updateVerticalRange {σ : Type} (sheet : Sheet) (rangeAddress : JSString) (key : JSValue)
    (startRow : Nat) (callback : Nat → σ → σ) (st : σ) : σ :=
  let values := getValues sheet (getRangeA1 rangeAddress)
  updateVerticalRange.loop key startRow callback values 0 st

/-- The loop of `updateHorizontalRange`, from index `i` on: `cells` are the cells not yet
visited. -/
def updateHorizontalRange.loop {σ : Type} (key : JSValue) (startCol : Nat)
    (callback : Nat → σ → σ) : List JSValue → Nat → σ → σ
  | [], _, st => st
  | cell :: rest, i, st =>
    if looseEq cell key then callback (startCol + i) st
    else updateHorizontalRange.loop key startCol callback rest (i + 1) st

/-- The function `updateHorizontalRange(sheet, rangeAddress, key, startCol, callback)`: the first
row of the range is read from the sheet, then scanned from the left. -/
def updateHorizontalRange {σ : Type} (sheet : Sheet) (rangeAddress : JSString) (key : JSValue)
    (startCol : Nat) (callback : Nat → σ → σ) (st : σ) : σ :=
  let values := (getValues sheet (getRangeA1 rangeAddress)).headD []
  updateHorizontalRange.loop key startCol callback values 0 st

/-! ## The upsert dispatcher -/

/-- The decoded request.  `sprintName` is a string, or absent (it then reads as `undefined`);
the other fields are numbers. -/
structure SprintRecord where
  sprintName : Option JSString
  completedUnplanned : ℚ
  completedPlanned : ℚ
  velocity : ℚ
  completedTasks : ℚ
  incompleteTasks : ℚ
  carryover : ℚ
  plannedPct : ℚ
  plannedCompletionPct : ℚ
  unplannedCompletionPct : ℚ
  totalCompletionPct : ℚ
  taskCompletionPct : ℚ
  bugsIn : ℚ
  bugsOut : ℚ
  plannedSP : ℚ
  unplannedSP : ℚ

/-- The value of `data.sprintName`. -/
def SprintRecord.sprintNameValue (data : SprintRecord) : JSValue :=
  match data.sprintName with
  | some s => JSValue.string s
  | none => JSValue.undefined

/-- The text of `data.sprintName` when it is appended to a string. -/
def SprintRecord.sprintNameText (data : SprintRecord) : JSString :=
  match data.sprintName with
  | some s => s
  | none => "undefined".toList

/-- The object handed to `createResponse`: `{ status: status, updated: message }`. -/
structure Response where
  status : String
  updated : JSString
  deriving DecidableEq

/-- The function `createResponse(status, message)`. -/
def createResponse (status : String) (message : JSString) : Response :=
  { status := status, updated := message }

/-- The test `!sprintKey`: `null` and the empty string are falsy. -/
def isFalsy (sprintKey : Option JSString) : Bool :=
  match sprintKey with
  | none => true
  | some k => k.isEmpty

/-- The highlight colour. -/
def highlight : JSString := "#fff2cc".toList

/-- Rule 1, velocity stats: lookup in `A4:A26`, update of columns B, C, D of the found row. -/
def rule1 (data : SprintRecord) (sprintKey : JSValue) (sheet : Sheet) : Sheet :=
  updateVerticalRange sheet "A4:A26".toList sprintKey 4 (fun row sh =>
    let sh := setValue sh (getRange row 2) (CellValue.number data.completedUnplanned)
    let sh := setValue sh (getRange row 3) (CellValue.number data.completedPlanned)
    let sh := setValue sh (getRange row 4) (CellValue.number data.velocity)
    setBackground sh (getRangeRect row 2 1 3) highlight) sheet

/-- Rule 2, task completion stats: lookup in `A34:A56`, update of columns B, C, D. -/
def rule2 (data : SprintRecord) (sprintKey : JSValue) (sheet : Sheet) : Sheet :=
  updateVerticalRange sheet "A34:A56".toList sprintKey 34 (fun row sh =>
    let sh := setValue sh (getRange row 2) (CellValue.number data.completedTasks)
    let sh := setValue sh (getRange row 3) (CellValue.number data.incompleteTasks)
    let sh := setValue sh (getRange row 4) (CellValue.number (divideBy data.carryover 100))
    setBackground sh (getRangeRect row 2 1 3) highlight) sheet

/-- Rule 3, completion percentages: lookup in `G3:AC3`, update of rows 6 to 9 of the found
column. -/
def rule3 (data : SprintRecord) (sprintKey : JSValue) (sheet : Sheet) : Sheet :=
  updateHorizontalRange sheet "G3:AC3".toList sprintKey 7 (fun col sh =>
    let sh := setValue sh (getRange 6 col) (CellValue.number (divideBy data.plannedPct 100))
    let sh := setValue sh (getRange 7 col) (CellValue.number (divideBy data.plannedCompletionPct 100))
    let sh := setValue sh (getRange 8 col) (CellValue.number (divideBy data.unplannedCompletionPct 100))
    let sh := setValue sh (getRange 9 col) (CellValue.number (divideBy data.totalCompletionPct 100))
    setBackground sh (getRangeRect 6 col 4 1) highlight) sheet

/-- Rule 4, task versus story-point completion: lookup in `G24:AC24`, update of rows 25, 26. -/
def rule4 (data : SprintRecord) (sprintKey : JSValue) (sheet : Sheet) : Sheet :=
  updateHorizontalRange sheet "G24:AC24".toList sprintKey 7 (fun col sh =>
    let sh := setValue sh (getRange 25 col) (CellValue.number (divideBy data.taskCompletionPct 100))
    let sh := setValue sh (getRange 26 col) (CellValue.number (divideBy data.totalCompletionPct 100))
    setBackground sh (getRangeRect 25 col 2 1) highlight) sheet

/-- Rule 5, bugs in versus bugs out: lookup in `G39:AC39`, update of rows 40, 41. -/
def rule5 (data : SprintRecord) (sprintKey : JSValue) (sheet : Sheet) : Sheet :=
  updateHorizontalRange sheet "G39:AC39".toList sprintKey 7 (fun col sh =>
    let sh := setValue sh (getRange 40 col) (CellValue.number data.bugsIn)
    let sh := setValue sh (getRange 41 col) (CellValue.number data.bugsOut)
    setBackground sh (getRangeRect 40 col 2 1) highlight) sheet

/-- Part 6, latest data: the static writes to row 62. -/
def staticWrites (data : SprintRecord) (sheet : Sheet) : Sheet :=
  let sh := setValue sheet (getRangeA1 "B62".toList) (CellValue.number data.plannedSP)
  let sh := setValue sh (getRangeA1 "C62".toList) (CellValue.number data.completedPlanned)
  let sh := setValue sh (getRangeA1 "E62".toList) (CellValue.number data.unplannedSP)
  let sh := setValue sh (getRangeA1 "F62".toList) (CellValue.number data.completedUnplanned)
  let sh := setValue sh (getRangeA1 "L62".toList) (CellValue.number data.bugsIn)
  setValue sh (getRangeA1 "M62".toList) (CellValue.number data.bugsOut)

/-- The function `processData(data)`, with the spreadsheet as explicit state: the response and
the store after the call.  `SpreadsheetApp.flush()` makes the writes durable and changes no
cell. -/
def processData (store : Store) (data : SprintRecord) : Response × Store :=
  let sprintKey := getSprintKey data.sprintNameValue
  if isFalsy sprintKey then
    (createResponse "error"
      ("Could not parse sprint key (e.g. IR21) from name: ".toList ++ data.sprintNameText), store)
  else
    match store.getSheetByName "Team Stats" with
    | none => (createResponse "error" "Sheet 'Team Stats' not found.".toList, store)
    | some sheet =>
      let key := JSValue.string (sprintKey.getD [])
      let sheet := rule1 data key sheet
      let sheet := rule2 data key sheet
      let sheet := rule3 data key sheet
      let sheet := rule4 data key sheet
      let sheet := rule5 data key sheet
      let sheet := staticWrites data sheet
      (createResponse "success" ("Updated stats for ".toList ++ sprintKey.getD []),
        store.withSheet "Team Stats" sheet)

/-! ## Vocabulary of the specification -/

/-- The text has, at offset `j`, the word `Iteration` in any mix of cases, followed by one or
more white-space characters and a digit. -/
def IterationOccursAt (s : JSString) (j : Nat) : Prop :=
  ∃ w ws d rest, s.drop j = w ++ ws ++ d :: rest ∧ w.map canonicalize = "ITERATION".toList ∧
    ws ≠ [] ∧ (∀ c ∈ ws, isWhiteSpace c = true) ∧ isDigit d = true

/-- The whole text is `IR`, in any mix of cases, followed by the non-empty digit run `ds`. -/
def StrictIR (s ds : JSString) : Prop :=
  ∃ a b, s = a :: b :: ds ∧ canonicalize a = 'I' ∧ canonicalize b = 'R' ∧
    ds ≠ [] ∧ ∀ c ∈ ds, isDigit c = true

/-- The key that `getSprintKey` builds from the text of capture group 1: `'IR' + padded`. -/
def keyOfDigits (m1 : JSString) : JSString :=
  "IR".toList ++
    (if (parseInt m1).lt 10 then '0' :: numberToString (parseInt m1)
     else numberToString (parseInt m1))

/-- Zero-based index of the first cell of a window that loosely equals the key, if any. -/
def firstMatch (key : JSValue) : List JSValue → Option Nat
  | [] => none
  | c :: cs => if looseEq c key then some 0 else (firstMatch key cs).map (fun i => i + 1)

/-- The window of a vertical lookup as a list of cell values: the cells of the first column of
the range, from the top. -/
def columnWindow (sheet : Sheet) (rg : Range) : List JSValue :=
  (List.range rg.numRows).map (fun i => (sheet.value (rg.row + i) rg.col).toJS)

/-- The window of a horizontal lookup as a list of cell values: the cells of the first row of
the range, from the left. -/
def rowWindow (sheet : Sheet) (rg : Range) : List JSValue :=
  (List.range rg.numCols).map (fun j => (sheet.value rg.row (rg.col + j)).toJS)

/-- A callback that records the argument it is invoked with. -/
def recordCall (arg : Nat) (log : List Nat) : List Nat :=
  log ++ [arg]

/-- A sheet for worked examples: `IR07` in column A at rows 10 and 12 and in row 3 at column I,
every other cell empty, every background white. -/
def exampleSheet : Sheet :=
  { value := fun r c =>
      if (c = 1 ∧ (r = 10 ∨ r = 12)) ∨ (r = 3 ∧ c = 9) then CellValue.text "IR07".toList
      else CellValue.empty
    background := fun _ _ => "#ffffff".toList }

/-- A record for worked examples: sprint `Iteration 7` with 3 unplanned and 5 planned points
completed, velocity 8. -/
def exampleRecord : SprintRecord :=
  { sprintName := some "Iteration 7".toList
    completedUnplanned := 3, completedPlanned := 5, velocity := 8
    completedTasks := 20, incompleteTasks := 4, carryover := 50
    plannedPct := 60, plannedCompletionPct := 80, unplannedCompletionPct := 75
    totalCompletionPct := 78, taskCompletionPct := 83
    bugsIn := 2, bugsOut := 1, plannedSP := 10, unplannedSP := 4 }

/-! ## Batches of writes and the table layout -/

/-- A batch of cell writes: for each cell the value it receives, if any, and the background
colour it receives, if any. -/
structure Overwrite where
  cells : Nat → Nat → Option CellValue
  colours : Nat → Nat → Option JSString

/-- The sheet after a batch of writes. -/
def Overwrite.apply (w : Overwrite) (sheet : Sheet) : Sheet :=
  { value := fun r c =>
      match w.cells r c with
      | some v => v
      | none => sheet.value r c
    background := fun r c =>
      match w.colours r c with
      | some colour => colour
      | none => sheet.background r c }

/-- The batch that writes nothing. -/
def Overwrite.empty : Overwrite :=
  { cells := fun _ _ => none, colours := fun _ _ => none }

/-- The batch `w1` followed by the batch `w2`: the later write wins. -/
def Overwrite.andThen (w1 w2 : Overwrite) : Overwrite :=
  { cells := fun r c =>
      match w2.cells r c with
      | some v => some v
      | none => w1.cells r c
    colours := fun r c =>
      match w2.colours r c with
      | some colour => some colour
      | none => w1.colours r c }

/-- The batch of one `setValue` call. -/
def Overwrite.ofValue (rg : Range) (v : CellValue) : Overwrite :=
  { cells := fun r c => if rg.contains r c then some v else none
    colours := fun _ _ => none }

/-- The batch of one `setBackground` call. -/
def Overwrite.ofBackground (rg : Range) (colour : JSString) : Overwrite :=
  { cells := fun _ _ => none
    colours := fun r c => if rg.contains r c then some colour else none }

/-- The batch writes, values and colours, only to cells that satisfy `P`. -/
def Overwrite.within (w : Overwrite) (P : Nat → Nat → Prop) : Prop :=
  ∀ r c, ¬ P r c → w.cells r c = none ∧ w.colours r c = none

/-- The writes of the callback of rule 1 at the found row. -/
def rule1Writes (data : SprintRecord) (row : Nat) : Overwrite :=
  (((Overwrite.ofValue (getRange row 2) (CellValue.number data.completedUnplanned)).andThen
    (Overwrite.ofValue (getRange row 3) (CellValue.number data.completedPlanned))).andThen
    (Overwrite.ofValue (getRange row 4) (CellValue.number data.velocity))).andThen
    (Overwrite.ofBackground (getRangeRect row 2 1 3) highlight)

/-- The writes of the callback of rule 2 at the found row. -/
def rule2Writes (data : SprintRecord) (row : Nat) : Overwrite :=
  (((Overwrite.ofValue (getRange row 2) (CellValue.number data.completedTasks)).andThen
    (Overwrite.ofValue (getRange row 3) (CellValue.number data.incompleteTasks))).andThen
    (Overwrite.ofValue (getRange row 4) (CellValue.number (divideBy data.carryover 100)))).andThen
    (Overwrite.ofBackground (getRangeRect row 2 1 3) highlight)

/-- The writes of the callback of rule 3 at the found column. -/
def rule3Writes (data : SprintRecord) (col : Nat) : Overwrite :=
  ((((Overwrite.ofValue (getRange 6 col) (CellValue.number (divideBy data.plannedPct 100))).andThen
    (Overwrite.ofValue (getRange 7 col)
      (CellValue.number (divideBy data.plannedCompletionPct 100)))).andThen
    (Overwrite.ofValue (getRange 8 col)
      (CellValue.number (divideBy data.unplannedCompletionPct 100)))).andThen
    (Overwrite.ofValue (getRange 9 col)
      (CellValue.number (divideBy data.totalCompletionPct 100)))).andThen
    (Overwrite.ofBackground (getRangeRect 6 col 4 1) highlight)

/-- The writes of the callback of rule 4 at the found column. -/
def rule4Writes (data : SprintRecord) (col : Nat) : Overwrite :=
  ((Overwrite.ofValue (getRange 25 col) (CellValue.number (divideBy data.taskCompletionPct 100))).andThen
    (Overwrite.ofValue (getRange 26 col)
      (CellValue.number (divideBy data.totalCompletionPct 100)))).andThen
    (Overwrite.ofBackground (getRangeRect 25 col 2 1) highlight)

/-- The writes of the callback of rule 5 at the found column. -/
def rule5Writes (data : SprintRecord) (col : Nat) : Overwrite :=
  ((Overwrite.ofValue (getRange 40 col) (CellValue.number data.bugsIn)).andThen
    (Overwrite.ofValue (getRange 41 col) (CellValue.number data.bugsOut))).andThen
    (Overwrite.ofBackground (getRangeRect 40 col 2 1) highlight)

/-- The static writes as one batch. -/
def staticOverwrite (data : SprintRecord) : Overwrite :=
  (((((Overwrite.ofValue (getRangeA1 "B62".toList) (CellValue.number data.plannedSP)).andThen
    (Overwrite.ofValue (getRangeA1 "C62".toList) (CellValue.number data.completedPlanned))).andThen
    (Overwrite.ofValue (getRangeA1 "E62".toList) (CellValue.number data.unplannedSP))).andThen
    (Overwrite.ofValue (getRangeA1 "F62".toList)
      (CellValue.number data.completedUnplanned))).andThen
    (Overwrite.ofValue (getRangeA1 "L62".toList) (CellValue.number data.bugsIn))).andThen
    (Overwrite.ofValue (getRangeA1 "M62".toList) (CellValue.number data.bugsOut))

/-- The batch a vertical rule performs on a sheet: the writes at the row of the first match of
the window, nothing on a miss. -/
def locatedInColumn (sheet : Sheet) (addr : JSString) (key : JSValue) (base : Nat)
    (writes : Nat → Overwrite) : Overwrite :=
  match firstMatch key (columnWindow sheet (getRangeA1 addr)) with
  | some k => writes (base + k)
  | none => Overwrite.empty

/-- The batch a horizontal rule performs on a sheet: the writes at the column of the first match
of the window, nothing on a miss. -/
def locatedInRow (sheet : Sheet) (addr : JSString) (key : JSValue) (base : Nat)
    (writes : Nat → Overwrite) : Overwrite :=
  match firstMatch key (rowWindow sheet (getRangeA1 addr)) with
  | some k => writes (base + k)
  | none => Overwrite.empty

/-- All the writes of the five keyed rules on a sheet, as one batch: each rule is located in the
sheet as it is before the first rule runs. -/
def rulesPlan (data : SprintRecord) (key : JSValue) (sheet : Sheet) : Overwrite :=
  ((((locatedInColumn sheet "A4:A26".toList key 4 (rule1Writes data)).andThen
    (locatedInColumn sheet "A34:A56".toList key 34 (rule2Writes data))).andThen
    (locatedInRow sheet "G3:AC3".toList key 7 (rule3Writes data))).andThen
    (locatedInRow sheet "G24:AC24".toList key 7 (rule4Writes data))).andThen
    (locatedInRow sheet "G39:AC39".toList key 7 (rule5Writes data))

/-- All the writes of a successful `processData` on a sheet, as one batch: the five rules, then
the static writes. -/
def plan (data : SprintRecord) (key : JSValue) (sheet : Sheet) : Overwrite :=
  (rulesPlan data key sheet).andThen (staticOverwrite data)

/-- The five keyed rules of `processData`, in declaration order. -/
def keyedRules (data : SprintRecord) (key : JSValue) : List (Sheet → Sheet) :=
  [rule1 data key, rule2 data key, rule3 data key, rule4 data key, rule5 data key]

/-- Runs rules one after the other on a sheet. -/
def runRules (rules : List (Sheet → Sheet)) (sheet : Sheet) : Sheet :=
  rules.foldl (fun sh rule => rule sh) sheet

/-- The cell belongs to the range given in A1 notation. -/
def inA1 (a1 : String) (r c : Nat) : Prop :=
  (getRangeA1 a1.toList).contains r c = true

/-- The cells the five keyed rules may write: `B4:D26`, `B34:D56`, `G6:AC9`, `G25:AC26` and
`G40:AC41`. -/
def RuleRegion (r c : Nat) : Prop :=
  inA1 "B4:D26" r c ∨ inA1 "B34:D56" r c ∨ inA1 "G6:AC9" r c ∨ inA1 "G25:AC26" r c ∨
    inA1 "G40:AC41" r c

/-- The six cells of the static writes. -/
def StaticCell (r c : Nat) : Prop :=
  inA1 "B62" r c ∨ inA1 "C62" r c ∨ inA1 "E62" r c ∨ inA1 "F62" r c ∨ inA1 "L62" r c ∨
    inA1 "M62" r c

/-- The cells that `processData` may write: the five rule regions and the six static cells. -/
def Writable (r c : Nat) : Prop :=
  RuleRegion r c ∨ StaticCell r c

/-- The cells of the five key lookup windows. -/
def InWindow (r c : Nat) : Prop :=
  inA1 "A4:A26" r c ∨ inA1 "A34:A56" r c ∨ inA1 "G3:AC3" r c ∨ inA1 "G24:AC24" r c ∨
    inA1 "G39:AC39" r c

/-- A sheet for worked examples with the key `IR07` in each of the five lookup windows: rows 10
and 40 of column A, column I (9) of rows 3, 24 and 39.  Every other cell is empty and every
background white. -/
def layoutSheet : Sheet :=
  { value := fun r c =>
      if (c = 1 ∧ (r = 10 ∨ r = 40)) ∨ (c = 9 ∧ (r = 3 ∨ r = 24 ∨ r = 39)) then
        CellValue.text "IR07".toList
      else CellValue.empty
    background := fun _ _ => "#ffffff".toList }

/-- The write regions of the five keyed rules, in declaration order, in A1 notation. -/
def ruleRegions : List String :=
  ["B4:D26", "B34:D56", "G6:AC9", "G25:AC26", "G40:AC41"]

/-- The lookup windows of the five keyed rules, in declaration order, in A1 notation. -/
def lookupWindows : List String :=
  ["A4:A26", "A34:A56", "G3:AC3", "G24:AC24", "G39:AC39"]

/-- In column A, among the rows `lo` to `hi`, row `r` is the first whose cell loosely equals the
key. -/
def FirstInColumn (sheet : Sheet) (key : JSValue) (lo hi r : Nat) : Prop :=
  lo ≤ r ∧ r ≤ hi ∧ looseEq (sheet.value r 1).toJS key = true ∧
    ∀ r1, lo ≤ r1 → r1 < r → looseEq (sheet.value r1 1).toJS key = false

/-- In the given row, among the columns G (7) to AC (29), column `c` is the first whose cell
loosely equals the key. -/
def FirstInRow (sheet : Sheet) (key : JSValue) (row c : Nat) : Prop :=
  7 ≤ c ∧ c ≤ 29 ∧ looseEq (sheet.value row c).toJS key = true ∧
    ∀ c1, 7 ≤ c1 → c1 < c → looseEq (sheet.value row c1).toJS key = false

/-- The function `doGet(e)`, with the spreadsheet as explicit state.  `lockAcquired` is what
`lock.tryLock(10000)` returns: the program calls it as a statement and never reads the result.
`jsonString` is `e.parameter.data`, absent when the request has no such parameter.  `decode`
stands for `JSON.parse` followed by the reading of the fields: the decoded record, or the text of
the exception.  `lock.releaseLock()` in the `finally` block touches no cell. -/
def doGet (lockAcquired : Bool) (jsonString : Option JSString)
    (decode : JSString → Except JSString SprintRecord) (store : Store) : Response × Store :=
  let _ignored := lockAcquired
  match jsonString with
  | none => (createResponse "error" "No data parameter found.".toList, store)
  | some text =>
    if text.isEmpty then (createResponse "error" "No data parameter found.".toList, store)
    else
      match decode text with
      | Except.ok data => processData store data
      | Except.error message => (createResponse "error" message, store)

/-- The sheet `after` is `before` with the batch `w` applied, and the batch writes a value and the
highlight colour to every cell that satisfies `P` and nothing to any other cell: the highlighted
cells are exactly the written cells, and they are the cells of `P`. -/
def HighlightsExactly (before after : Sheet) (w : Overwrite) (P : Nat → Nat → Prop) : Prop :=
  after = w.apply before ∧
    (∀ r c, P r c → (w.cells r c).isSome = true ∧ w.colours r c = some highlight ∧
      after.background r c = highlight) ∧
    (∀ r c, ¬ P r c → w.cells r c = none ∧ w.colours r c = none ∧
      after.value r c = before.value r c ∧ after.background r c = before.background r c)

/-- A request payload for worked examples: the JSON text of the example record, sprint name
`Iteration 7` and the fifteen numeric fields. -/
def examplePayload : JSString :=
  "\x7b\"sprintName\":\"Iteration 7\",\"completedUnplanned\":3,".toList ++
    "\"completedPlanned\":5,\"velocity\":8,\"completedTasks\":20,".toList ++
    "\"incompleteTasks\":4,\"carryover\":50,\"plannedPct\":60,".toList ++
    "\"plannedCompletionPct\":80,\"unplannedCompletionPct\":75,".toList ++
    "\"totalCompletionPct\":78,\"taskCompletionPct\":83,\"bugsIn\":2,".toList ++
    "\"bugsOut\":1,\"plannedSP\":10,\"unplannedSP\":4\x7d".toList

/-- A spreadsheet for worked examples: its only sheet is `Team Stats`, the layout sheet. -/
def exampleStore : Store :=
  fun n => if n = "Team Stats" then some layoutSheet else none

/-- A record for worked examples whose `carryover` is the Number 33.3, that is the double
`2343279181116211 / 2^46`; its other fields are those of the example record. -/
def fractionalRecord : SprintRecord :=
  { exampleRecord with carryover := 2343279181116211 / 70368744177664 }

/-- A sheet for worked examples whose cell A5 holds the number 9007199254740992 (`2^53`); every
other cell is empty and every background white. -/
def numericSheet : Sheet :=
  { value := fun r c =>
      if r = 5 ∧ c = 1 then CellValue.number 9007199254740992 else CellValue.empty
    background := fun _ _ => "#ffffff".toList }

/-! ## Characters and digit runs -/

theorem isWhiteSpace_of_isDigit (c : Char) (h : isDigit c = true) : isWhiteSpace c = false := by
  simp only [isDigit, isWhiteSpace, decide_eq_true_eq, decide_eq_false_iff_not] at *
  omega

theorem canonicalize_of_isDigit (c : Char) (h : isDigit c = true) : canonicalize c = c := by
  simp only [isDigit, canonicalize, decide_eq_true_eq] at *
  rw [if_neg]; omega

theorem isDigit_digitChar (d : Nat) (h : d < 10) : isDigit (Nat.digitChar d) = true := by
  interval_cases d <;> decide

theorem isDigit_toDigitsCore (fuel : Nat) : ∀ (n : Nat) (ds : List Char),
    (∀ c ∈ ds, isDigit c = true) → ∀ c ∈ Nat.toDigitsCore 10 fuel n ds, isDigit c = true := by
  induction fuel with
  | zero => intro n ds h; simpa [Nat.toDigitsCore] using h
  | succ f ih =>
    intro n ds h
    have hd : isDigit (Nat.digitChar (n % 10)) = true :=
      isDigit_digitChar _ (Nat.mod_lt _ (by decide))
    have hcons : ∀ c ∈ Nat.digitChar (n % 10) :: ds, isDigit c = true := by
      intro c hc
      rcases List.mem_cons.1 hc with rfl | hc
      · exact hd
      · exact h c hc
    simp only [Nat.toDigitsCore]
    split
    · exact hcons
    · exact ih _ _ hcons

theorem isDigit_toDigits (n : Nat) : ∀ c ∈ Nat.toDigits 10 n, isDigit c = true :=
  isDigit_toDigitsCore _ _ _ (by simp)

theorem length_toDigitsCore_ge (fuel : Nat) : ∀ (n : Nat) (ds : List Char),
    ds.length ≤ (Nat.toDigitsCore 10 fuel n ds).length := by
  induction fuel with
  | zero => intro n ds; simp [Nat.toDigitsCore]
  | succ f ih =>
    intro n ds
    simp only [Nat.toDigitsCore]
    split
    · simp
    · exact Nat.le_trans (by simp) (ih _ _)

theorem length_toDigitsCore_pos (fuel n : Nat) (ds : List Char) :
    ds.length + 1 ≤ (Nat.toDigitsCore 10 (fuel + 1) n ds).length := by
  simp only [Nat.toDigitsCore]
  split
  · simp
  · exact Nat.le_trans (by simp) (length_toDigitsCore_ge _ _ _)

theorem toDigits_ne_nil (n : Nat) : Nat.toDigits 10 n ≠ [] := by
  intro h
  have := length_toDigitsCore_pos n n []
  rw [Nat.toDigits] at h
  rw [h] at this
  simp at this

theorem two_le_length_toDigits (n : Nat) (h : 10 ≤ n) : 2 ≤ (Nat.toDigits 10 n).length := by
  rw [Nat.toDigits]
  obtain ⟨m, rfl⟩ : ∃ m, n = m + 1 := ⟨n - 1, by omega⟩
  simp only [Nat.toDigitsCore]
  rw [if_neg (by omega)]
  have := length_toDigitsCore_pos m ((m + 1) / 10) [Nat.digitChar ((m + 1) % 10)]
  simpa using this

theorem digitsValue_append_singleton (ds : JSString) (c : Char) :
    digitsValue (ds ++ [c]) = 10 * digitsValue ds + digitValue c := by
  simp [digitsValue, List.foldl_append]

theorem digitsValue_eq_ofDigits (ds : JSString) :
    digitsValue ds = Nat.ofDigits 10 ((ds.map digitValue).reverse) := by
  induction ds using List.reverseRecOn with
  | nil => simp [digitsValue]
  | append_singleton ds c ih =>
    rw [digitsValue_append_singleton, ih]
    simp [Nat.ofDigits_cons, Nat.add_comm]

/-! ## The two patterns -/

theorem takeWhile_append_of_forall {p : Char → Bool} (xs ys : List Char)
    (hx : ∀ c ∈ xs, p c = true) (hy : ∀ c ∈ ys.head?, p c = false) :
    (xs ++ ys).takeWhile p = xs ∧ (xs ++ ys).dropWhile p = ys := by
  induction xs with
  | nil =>
    cases ys with
    | nil => simp
    | cons y ys =>
      have : p y = false := hy y (by simp)
      simp [List.takeWhile_cons, List.dropWhile_cons, this]
  | cons x xs ih =>
    have hx1 : p x = true := hx x (by simp)
    have ih1 := ih (fun c hc => hx c (List.mem_cons_of_mem _ hc))
    simp [List.takeWhile_cons, List.dropWhile_cons, hx1, ih1.1, ih1.2]

theorem head?_dropWhile_false {p : Char → Bool} (l : List Char) :
    ∀ c ∈ (l.dropWhile p).head?, p c = false := by
  induction l with
  | nil => simp
  | cons x xs ih =>
    by_cases hx : p x = true
    · simpa [List.dropWhile_cons, hx] using ih
    · simp [List.dropWhile_cons, hx]

theorem forall_takeWhile {p : Char → Bool} (l : List Char) :
    ∀ c ∈ l.takeWhile p, p c = true := by
  intro c hc
  exact List.mem_takeWhile_imp hc

theorem matchLiteral_append (pat : List Char) : ∀ (w rest : JSString),
    w.map canonicalize = pat.map canonicalize → matchLiteral pat (w ++ rest) = some rest := by
  induction pat with
  | nil =>
    intro w rest h
    have : w = [] := by simpa using h
    subst this
    cases rest <;> rfl
  | cons p ps ih =>
    intro w rest h
    cases w with
    | nil => simp at h
    | cons c cs =>
      simp only [List.map_cons, List.cons.injEq] at h
      simp only [List.cons_append, matchLiteral, h.1, if_true]
      exact ih cs rest h.2

theorem matchLiteral_eq_some (pat : List Char) : ∀ (s r : JSString),
    matchLiteral pat s = some r →
    ∃ w, s = w ++ r ∧ w.map canonicalize = pat.map canonicalize := by
  induction pat with
  | nil =>
    intro s r h
    have : s = r := by cases s <;> simpa [matchLiteral] using h
    exact ⟨[], by simp [this], rfl⟩
  | cons p ps ih =>
    intro s r h
    cases s with
    | nil => simp [matchLiteral] at h
    | cons c cs =>
      simp only [matchLiteral] at h
      split at h
      · rename_i hc
        obtain ⟨w, hw, hm⟩ := ih cs r h
        exact ⟨c :: w, by simp [hw], by simp [hc, hm]⟩
      · cases h

theorem map_canonicalize_iteration :
    ("Iteration".toList).map canonicalize = "ITERATION".toList := by decide

/-- The pattern matches at the start of a text made of the word, a white-space run, a digit run
and a remainder that does not start with a digit; the capture is the digit run. -/
theorem matchIterationAt_decomposed (w ws ds rest : JSString)
    (hw : w.map canonicalize = "ITERATION".toList)
    (hws : ws ≠ []) (hws1 : ∀ c ∈ ws, isWhiteSpace c = true)
    (hds : ds ≠ []) (hds1 : ∀ c ∈ ds, isDigit c = true)
    (hrest : ∀ c ∈ rest.head?, isDigit c = false) :
    matchIterationAt (w ++ ws ++ ds ++ rest) = some ds := by
  have h1 : matchLiteral "Iteration".toList (w ++ (ws ++ (ds ++ rest))) = some (ws ++ (ds ++ rest)) :=
    matchLiteral_append _ _ _ (by rw [hw, map_canonicalize_iteration])
  have h2 := takeWhile_append_of_forall (p := isWhiteSpace) ws (ds ++ rest) hws1 (by
    cases ds with
    | nil => exact absurd rfl hds
    | cons d ds1 =>
      intro c hc
      have : c = d := by simpa using hc.symm
      subst this
      exact isWhiteSpace_of_isDigit c (hds1 c (by simp)))
  have h3 := takeWhile_append_of_forall (p := isDigit) ds rest hds1 hrest
  unfold matchIterationAt
  simp only [List.append_assoc, h1, h2.1, h2.2, h3.1]
  cases ws with
  | nil => exact absurd rfl hws
  | cons a as =>
    cases ds with
    | nil => exact absurd rfl hds
    | cons d ds1 => simp

/-- What a match at the start of the text says about the text. -/
theorem matchIterationAt_eq_some (s ds : JSString) (h : matchIterationAt s = some ds) :
    ∃ w ws rest, s = w ++ ws ++ ds ++ rest ∧ w.map canonicalize = "ITERATION".toList ∧
      ws ≠ [] ∧ (∀ c ∈ ws, isWhiteSpace c = true) ∧
      ds ≠ [] ∧ (∀ c ∈ ds, isDigit c = true) ∧ (∀ c ∈ rest.head?, isDigit c = false) := by
  unfold matchIterationAt at h
  split at h
  · cases h
  · rename_i afterWord hlit
    obtain ⟨w, hs, hw⟩ := matchLiteral_eq_some _ _ _ hlit
    simp only at h
    split at h
    · cases h
    · rename_i hsp
      split at h
      · cases h
      · rename_i hdg
        have hds : (afterWord.dropWhile isWhiteSpace).takeWhile isDigit = ds := by
          simpa using h
        refine ⟨w, afterWord.takeWhile isWhiteSpace,
          (afterWord.dropWhile isWhiteSpace).dropWhile isDigit, ?_, ?_, ?_, ?_, ?_, ?_, ?_⟩
        · rw [hs, ← hds, List.append_assoc, List.append_assoc, List.takeWhile_append_dropWhile,
            List.takeWhile_append_dropWhile]
        · rw [hw, map_canonicalize_iteration]
        · intro hnil; rw [hnil] at hsp; simp at hsp
        · exact forall_takeWhile _
        · intro hnil; rw [← hds] at hnil; rw [hnil] at hdg; simp at hdg
        · rw [← hds]; exact forall_takeWhile _
        · exact head?_dropWhile_false _

theorem matchIterationAt_of_occurs (s : JSString) (j : Nat) (h : IterationOccursAt s j) :
    ∃ ds, matchIterationAt (s.drop j) = some ds := by
  obtain ⟨w, ws, d, rest, hs, hw, hws, hws1, hd⟩ := h
  refine ⟨d :: rest.takeWhile isDigit, ?_⟩
  have := matchIterationAt_decomposed w ws (d :: rest.takeWhile isDigit) (rest.dropWhile isDigit)
    hw hws hws1 (by simp) (by
      intro c hc
      rcases List.mem_cons.1 hc with rfl | hc
      · exact hd
      · exact forall_takeWhile _ c hc) (head?_dropWhile_false _)
  rw [hs]
  simpa [List.append_assoc, List.takeWhile_append_dropWhile] using this

theorem occurs_of_matchIterationAt (s : JSString) (j : Nat) (ds : JSString)
    (h : matchIterationAt (s.drop j) = some ds) : IterationOccursAt s j := by
  obtain ⟨w, ws, rest, hs, hw, hws, hws1, hds, hds1, _⟩ := matchIterationAt_eq_some _ _ h
  cases ds with
  | nil => exact absurd rfl hds
  | cons d ds1 =>
    exact ⟨w, ws, d, ds1 ++ rest, by rw [hs]; simp, hw, hws, hws1, hds1 d (by simp)⟩

theorem matchIterationAt_nil : matchIterationAt [] = none := by decide

/-- The search returns the capture of the first position at which the pattern matches. -/
theorem matchIteration_append (pre : JSString) : ∀ (t : JSString),
    (∀ j, j < pre.length → matchIterationAt ((pre ++ t).drop j) = none) →
    matchIteration (pre ++ t) = matchIteration t := by
  induction pre with
  | nil => intro t _; rfl
  | cons c cs ih =>
    intro t h
    have h0 := h 0 (by simp)
    simp only [List.drop_zero] at h0
    simp only [List.cons_append] at h0 ⊢
    rw [matchIteration, h0]
    apply ih
    intro j hj
    have := h (j + 1) (by simpa using hj)
    simpa using this

theorem matchIteration_of_matchIterationAt (t ds : JSString) (h : matchIterationAt t = some ds) :
    matchIteration t = some ds := by
  cases t with
  | nil => simpa [matchIteration] using h
  | cons c cs => rw [matchIteration, h]

theorem matchIteration_eq_none_iff (s : JSString) :
    matchIteration s = none ↔ ∀ j, ¬ IterationOccursAt s j := by
  induction s with
  | nil =>
    constructor
    · intro _ j hj
      obtain ⟨ds, hds⟩ := matchIterationAt_of_occurs _ _ hj
      simp [matchIterationAt_nil] at hds
    · intro _; exact matchIterationAt_nil
  | cons c cs ih =>
    rw [matchIteration]
    constructor
    · intro h j hj
      cases hat : matchIterationAt (c :: cs) with
      | some ds => rw [hat] at h; cases h
      | none =>
        rw [hat] at h
        simp only at h
        cases j with
        | zero =>
          obtain ⟨ds, hds⟩ := matchIterationAt_of_occurs _ _ hj
          rw [List.drop_zero, hat] at hds
          cases hds
        | succ k =>
          apply (ih.1 h) k
          obtain ⟨w, ws, d, rest, hs, hrest⟩ := hj
          exact ⟨w, ws, d, rest, by simpa using hs, hrest⟩
    · intro h
      cases hat : matchIterationAt (c :: cs) with
      | some ds => exact absurd (occurs_of_matchIterationAt (c :: cs) 0 ds (by simpa using hat)) (h 0)
      | none =>
        simp only
        apply ih.2
        intro j hj
        apply h (j + 1)
        obtain ⟨w, ws, d, rest, hs, hrest⟩ := hj
        exact ⟨w, ws, d, rest, by simpa using hs, hrest⟩

theorem matchIteration_eq_some (s ds : JSString) (h : matchIteration s = some ds) :
    ds ≠ [] ∧ (∀ c ∈ ds, isDigit c = true) ∧ ∃ j, IterationOccursAt s j := by
  induction s with
  | nil => rw [matchIteration, matchIterationAt_nil] at h; cases h
  | cons c cs ih =>
    rw [matchIteration] at h
    cases hat : matchIterationAt (c :: cs) with
    | some d1 =>
      rw [hat] at h
      simp only [Option.some.injEq] at h
      subst h
      obtain ⟨w, ws, rest, hs, hw, hws, hws1, hds, hds1, _⟩ := matchIterationAt_eq_some _ _ hat
      exact ⟨hds, hds1, 0, occurs_of_matchIterationAt _ 0 _ (by simpa using hat)⟩
    | none =>
      rw [hat] at h
      obtain ⟨h1, h2, j, w, ws, d, rest, hs, hrest⟩ := ih h
      exact ⟨h1, h2, j + 1, w, ws, d, rest, by simpa using hs, hrest⟩

theorem testStrictIR_iff (s : JSString) :
    testStrictIR s = true ↔ ∃ ds, StrictIR s ds := by
  constructor
  · intro h
    unfold testStrictIR at h
    split at h
    · cases h
    · rename_i rest hlit
      obtain ⟨w, hs, hw⟩ := matchLiteral_eq_some _ _ _ hlit
      simp only [Bool.and_eq_true, Bool.not_eq_true', List.all_eq_true] at h
      have hlen : w.length = 2 := by
        have := congrArg List.length hw
        simpa using this
      obtain ⟨a, b, rfl⟩ := List.length_eq_two.1 hlen
      simp only [String.toList, List.map_cons, List.map_nil, List.cons.injEq, and_true] at hw
      refine ⟨rest, a, b, by simp [hs], ?_, ?_, ?_, h.2⟩
      · rw [hw.1]; decide
      · rw [hw.2]; decide
      · intro hnil; rw [hnil] at h; simp at h
  · rintro ⟨ds, a, b, hs, ha, hb, hds, hds1⟩
    subst hs
    have : matchLiteral "IR".toList ([a, b] ++ ds) = some ds :=
      matchLiteral_append _ _ _ (by
        simp only [String.toList, List.map_cons, List.map_nil, ha, hb]; decide)
    unfold testStrictIR
    simp only [List.cons_append, List.nil_append] at this
    rw [this]
    cases ds with
    | nil => exact absurd rfl hds
    | cons d ds1 => simpa using hds1

/-! ## `getSprintKey` -/

theorem not_occurs_of_matchIterationAt (s : JSString) (j : Nat)
    (h : matchIterationAt (s.drop j) = none) : ¬ IterationOccursAt s j := by
  intro hocc
  obtain ⟨ds, hds⟩ := matchIterationAt_of_occurs s j hocc
  rw [h] at hds
  cases hds

theorem getSprintKey_of_match (s m1 : JSString) (h : matchIteration s = some m1) :
    getSprintKey (JSValue.string s) = some (keyOfDigits m1) := by
  have hne : m1 ≠ [] := (matchIteration_eq_some s m1 h).1
  have hemp : m1.isEmpty = false := by
    cases m1 with
    | nil => exact absurd rfl hne
    | cons a as => rfl
  simp [getSprintKey, getSprintKeyBody, h, hemp, keyOfDigits]

theorem getSprintKey_of_no_match (s : JSString) (h : matchIteration s = none) :
    getSprintKey (JSValue.string s) = if testStrictIR s then some (toUpperCase s) else none := by
  simp only [getSprintKey, getSprintKeyBody, h]
  cases testStrictIR s <;> rfl

theorem parseInt_of_digits (ds : JSString) (hds : ds ≠ []) (hds1 : ∀ c ∈ ds, isDigit c = true) :
    parseInt ds = match roundToDouble (digitsValue ds) with
      | some v => JSNumber.finite v
      | none => JSNumber.infinity := by
  have h := (takeWhile_append_of_forall (p := isDigit) ds [] hds1 (by simp)).1
  rw [List.append_nil] at h
  unfold parseInt
  simp only [h]
  cases ds with
  | nil => exact absurd rfl hds
  | cons a as => simp

theorem roundToDouble_of_lt (n : Nat) (h : n < 2 ^ 53) : roundToDouble n = some n := by
  unfold roundToDouble
  rw [if_pos h]

theorem numberToString_of_lt (n : Nat) (h : n < 2 ^ 53) :
    numberToString (JSNumber.finite n) = Nat.toDigits 10 n := by
  unfold numberToString
  simp only
  rw [if_pos h]

theorem roundToDouble_two_pow_53 : roundToDouble (2 ^ 53) = some (2 ^ 53) := by decide

set_option maxRecDepth 100000 in
theorem numberToString_two_pow_53 :
    numberToString (JSNumber.finite (2 ^ 53)) = Nat.toDigits 10 (2 ^ 53) := by decide

/-- The key of a digit run whose value is at most `2^53`: the decimal digits of the value, with
one leading zero below ten. -/
theorem keyOfDigits_of_le (ds : JSString) (hds : ds ≠ []) (hds1 : ∀ c ∈ ds, isDigit c = true)
    (hbound : digitsValue ds ≤ 2 ^ 53) :
    keyOfDigits ds = "IR".toList ++
      (if digitsValue ds < 10 then '0' :: Nat.toDigits 10 (digitsValue ds)
       else Nat.toDigits 10 (digitsValue ds)) := by
  unfold keyOfDigits
  rw [parseInt_of_digits ds hds hds1]
  rcases Nat.lt_or_ge (digitsValue ds) (2 ^ 53) with hlt | hge
  · rw [roundToDouble_of_lt _ hlt]
    simp only [JSNumber.lt, numberToString_of_lt _ hlt, decide_eq_true_eq]
  · have heq : digitsValue ds = 2 ^ 53 := Nat.le_antisymm hbound hge
    rw [heq, roundToDouble_two_pow_53]
    simp only [JSNumber.lt, numberToString_two_pow_53]
    rw [if_neg (by decide), if_neg (by decide)]

/-- C1 (counterexample): the digit run of `Iteration 9007199254740993` denotes `2^53 + 1`, which
no double represents; `parseInt` rounds it to `2^53` and the key is `IR9007199254740992`, not `IR`
followed by the decimal rendering of the digit run's value. -/
theorem getSprintKey_iteration_rounds :
    getSprintKey (JSValue.string "Iteration 9007199254740993".toList)
        = some "IR9007199254740992".toList ∧
      Nat.ofDigits 10 (("9007199254740993".toList.map digitValue).reverse) = 9007199254740993 ∧
      getSprintKey (JSValue.string "Iteration 9007199254740993".toList)
        ≠ some ("IR".toList ++ Nat.toDigits 10 9007199254740993) := by
  refine ⟨by rfl, by decide, ?_⟩
  have h : getSprintKey (JSValue.string "Iteration 9007199254740993".toList)
      = some "IR9007199254740992".toList := by rfl
  rw [h]
  decide

/-- C1 (amended): when the text is `pre ++ w ++ ws ++ ds ++ rest` with `w` the word `Iteration`
in any mix of cases, `ws` a non-empty white-space run, `ds` a non-empty digit run that `rest` does
not continue, no occurrence starting inside `pre`, and the value `n` of `ds` at most `2^53`, then
`getSprintKey` returns `IR` followed by the decimal digits of `n`, with exactly one leading `0`
when `n < 10`. -/
theorem getSprintKey_iteration (pre w ws ds rest : JSString) (n : Nat)
    (hw : w.map canonicalize = "ITERATION".toList)
    (hws : ws ≠ []) (hws1 : ∀ c ∈ ws, isWhiteSpace c = true)
    (hds : ds ≠ []) (hds1 : ∀ c ∈ ds, isDigit c = true)
    (hrest : ∀ c ∈ rest.head?, isDigit c = false)
    (hleft : ∀ j, j < pre.length → ¬ IterationOccursAt (pre ++ (w ++ ws ++ ds ++ rest)) j)
    (hn : n = Nat.ofDigits 10 ((ds.map digitValue).reverse))
    (hbound : n ≤ 2 ^ 53) :
    getSprintKey (JSValue.string (pre ++ (w ++ ws ++ ds ++ rest))) =
      some ("IR".toList ++ (if n < 10 then '0' :: Nat.toDigits 10 n else Nat.toDigits 10 n)) := by
  have hat := matchIterationAt_decomposed w ws ds rest hw hws hws1 hds hds1 hrest
  have hm : matchIteration (pre ++ (w ++ ws ++ ds ++ rest)) = some ds := by
    rw [matchIteration_append pre _ (fun j hj => by
      cases hj1 : matchIterationAt ((pre ++ (w ++ ws ++ ds ++ rest)).drop j) with
      | none => rfl
      | some d1 => exact absurd (occurs_of_matchIterationAt _ j d1 hj1) (hleft j hj))]
    exact matchIteration_of_matchIterationAt _ _ hat
  have hv : digitsValue ds = n := by rw [hn, digitsValue_eq_ofDigits]
  rw [getSprintKey_of_match _ _ hm, keyOfDigits_of_le ds hds hds1 (by rw [hv]; exact hbound), hv]

/-- C1 (witness): `Q3 iTERation`, a blank and a tab, `07`, then `x`. -/
theorem getSprintKey_iteration_witness :
    getSprintKey (JSValue.string ("Q3 ".toList ++ ("iTERation".toList ++ [' ', '\t'] ++
      "07".toList ++ "x".toList))) = some ("IR".toList ++ (if 7 < 10 then '0' :: Nat.toDigits 10 7
        else Nat.toDigits 10 7)) :=
  getSprintKey_iteration "Q3 ".toList "iTERation".toList [' ', '\t'] "07".toList "x".toList 7
    (by decide) (by decide) (by decide) (by decide) (by decide) (by decide)
    (fun j hj => not_occurs_of_matchIterationAt _ j (by
      have hj3 : j < 3 := hj
      interval_cases j <;> decide))
    (by decide) (by decide)

/-! ## Keys of digit runs up to the exponent form -/

theorem bitLength_go_le (fuel : Nat) : ∀ (m k : Nat), m < 2 ^ k → bitLength.go fuel m ≤ k := by
  induction fuel with
  | zero => intro m k _; simp [bitLength.go]
  | succ f ih =>
    intro m k h
    rw [bitLength.go]
    split
    · exact Nat.zero_le _
    · rename_i hm
      cases k with
      | zero => simp at h; exact absurd h hm
      | succ j =>
        have : m / 2 < 2 ^ j := by
          rw [Nat.div_lt_iff_lt_mul (by decide)]
          rw [Nat.pow_succ] at h
          exact h
        exact Nat.succ_le_succ (ih _ _ this)

theorem bitLength_le (m k : Nat) (h : m < 2 ^ k) : bitLength m ≤ k :=
  bitLength_go_le m m k h

/-- Below `10^21 - 65536` a digit run is read as a Number below `10^21`, which is the integer
itself below `2^53` and at least 10 from `2^53` on. -/
theorem roundToDouble_below (n : Nat) (h : n < 999999999999999934464) :
    ∃ v, roundToDouble n = some v ∧ v < 10 ^ 21 ∧ (n < 2 ^ 53 → v = n) ∧
      (2 ^ 53 ≤ n → 10 ≤ v) := by
  by_cases hlt : n < 2 ^ 53
  · exact ⟨n, roundToDouble_of_lt n hlt, by omega, fun _ => rfl, fun h2 => by omega⟩
  · have hL : bitLength n ≤ 70 := bitLength_le n 70 (by norm_num; omega)
    obtain ⟨e, he⟩ : ∃ e, e = bitLength n - 53 := ⟨_, rfl⟩
    have he17 : e ≤ 17 := by omega
    obtain ⟨P, hP⟩ : ∃ P, P = 2 ^ e := ⟨_, rfl⟩
    have hPpos : 0 < P := by rw [hP]; exact Nat.pow_pos (by decide)
    have hPle : P ≤ 2 ^ 17 := by rw [hP]; exact Nat.pow_le_pow_right (by decide) he17
    have hdm : P * (n / P) + n % P = n := Nat.div_add_mod n P
    have hmod : n % P < P := Nat.mod_lt n hPpos
    have hhalf : 2 * 2 ^ (e - 1) = P ∨ (e = 0 ∧ P = 1 ∧ 2 ^ (e - 1) = 1) := by
      cases e with
      | zero => right; simp [hP]
      | succ j => left; rw [hP]; simp [Nat.pow_succ, Nat.mul_comm]
    have key : ∀ q1, (q1 = n / P ∨ (q1 = n / P + 1 ∧ 2 ^ (e - 1) ≤ n % P)) →
        q1 * P < 10 ^ 21 ∧ 10 ≤ q1 * P := by
      intro q1 hq1
      rcases hq1 with rfl | ⟨rfl, hr⟩
      · rw [Nat.mul_comm]
        constructor
        · norm_num; omega
        · norm_num at hlt hPle; omega
      · rw [Nat.add_mul, Nat.one_mul, Nat.mul_comm]
        rcases hhalf with h2 | ⟨_, h1, h3⟩
        · constructor
          · norm_num; norm_num at hPle; omega
          · norm_num at hlt hPle; omega
        · omega
    have hv : ∀ v, v < 10 ^ 21 → bitLength v ≤ 1024 := by
      intro v hv
      exact Nat.le_trans (bitLength_le v 70 (by norm_num at hv ⊢; omega)) (by decide)
    unfold roundToDouble
    rw [if_neg hlt]
    simp only [← he, ← hP]
    split
    · obtain ⟨h1, h2⟩ := key (n / P) (Or.inl rfl)
      rw [if_pos (hv _ h1)]
      exact ⟨_, rfl, h1, fun h3 => absurd h3 hlt, fun _ => h2⟩
    · rename_i hr
      split
      · obtain ⟨h1, h2⟩ := key (n / P + 1) (Or.inr ⟨rfl, by omega⟩)
        rw [if_pos (hv _ h1)]
        exact ⟨_, rfl, h1, fun h3 => absurd h3 hlt, fun _ => h2⟩
      · split
        · obtain ⟨h1, h2⟩ := key (n / P) (Or.inl rfl)
          rw [if_pos (hv _ h1)]
          exact ⟨_, rfl, h1, fun h3 => absurd h3 hlt, fun _ => h2⟩
        · obtain ⟨h1, h2⟩ := key (n / P + 1) (Or.inr ⟨rfl, by omega⟩)
          rw [if_pos (hv _ h1)]
          exact ⟨_, rfl, h1, fun h3 => absurd h3 hlt, fun _ => h2⟩

theorem length_toDigitsCore_le (fuel : Nat) : ∀ (n k : Nat) (ds : List Char),
    n < 10 ^ k → 1 ≤ k → (Nat.toDigitsCore 10 fuel n ds).length ≤ ds.length + k := by
  induction fuel with
  | zero => intro n k ds _ _; simp [Nat.toDigitsCore]
  | succ f ih =>
    intro n k ds h hk
    simp only [Nat.toDigitsCore]
    split
    · simp; omega
    · rename_i hn
      obtain ⟨j, rfl⟩ : ∃ j, k = j + 1 := ⟨k - 1, by omega⟩
      have hj : 1 ≤ j := by
        cases j with
        | zero => simp at h; omega
        | succ i => omega
      have hdiv : n / 10 < 10 ^ j := by
        rw [Nat.div_lt_iff_lt_mul (by decide)]
        rw [Nat.pow_succ] at h
        exact h
      have := ih (n / 10) j (Nat.digitChar (n % 10) :: ds) hdiv hj
      simp only [List.length_cons] at this
      omega

theorem decimalLength_le (n k : Nat) (h : n < 10 ^ k) (hk : 1 ≤ k) : decimalLength n ≤ k := by
  have := length_toDigitsCore_le (n + 1) n k [] h hk
  simpa [decimalLength, Nat.toDigits] using this

theorem decimalLength_pos (n : Nat) : 1 ≤ decimalLength n := by
  have := toDigits_ne_nil n
  unfold decimalLength
  cases h : Nat.toDigits 10 n with
  | nil => exact absurd h this
  | cons a as => simp

theorem shortestSignificand_spec (x n : Nat) : ∀ (fuel k : Nat),
    (shortestSignificand x n fuel k).1 < n ∨ x ≤ (shortestSignificand x n fuel k).2 := by
  intro fuel
  induction fuel with
  | zero =>
    intro k
    simp only [shortestSignificand]
    by_cases hk : k < n
    · exact Or.inl hk
    · right
      have : n - k = 0 := by omega
      simp [this]
  | succ f ih =>
    intro k
    by_cases hk : k < n
    · rw [shortestSignificand]
      split
      · split
        · exact Or.inl hk
        · split
          · exact Or.inl hk
          · split <;> exact Or.inl hk
      · split
        · exact Or.inl hk
        · split
          · exact Or.inl hk
          · rw [if_neg (by omega)]
            exact ih (k + 1)
    · have h0 : n - k = 0 := by omega
      rw [shortestSignificand]
      simp only [h0, Nat.pow_zero, Nat.div_one, Nat.mul_one]
      split
      · split
        · exact Or.inr (Nat.le_refl _)
        · split
          · exact Or.inr (by omega)
          · split
            · exact Or.inr (Nat.le_refl _)
            · exact Or.inr (by omega)
      · split
        · exact Or.inr (Nat.le_refl _)
        · split
          · exact Or.inr (by omega)
          · rw [if_pos (by omega)]
            exact Or.inr (Nat.le_refl _)

theorem roundToDouble_ten_pow_21 : roundToDouble (10 ^ 21) = some (10 ^ 21) := by decide

theorem isDigit_replicate_zero (k : Nat) : ∀ c ∈ List.replicate k '0', isDigit c = true := by
  intro c hc
  rw [List.eq_of_mem_replicate hc]
  decide

/-- A Number below `10^21` prints as a non-empty run of decimal digits, of two digits or more
from 10 on. -/
theorem numberToString_digits (v : Nat) (h : v < 10 ^ 21) :
    (∀ c ∈ numberToString (JSNumber.finite v), isDigit c = true) ∧
      numberToString (JSNumber.finite v) ≠ [] ∧
      (10 ≤ v → 2 ≤ (numberToString (JSNumber.finite v)).length) := by
  by_cases hlt : v < 2 ^ 53
  · rw [numberToString_of_lt v hlt]
    exact ⟨isDigit_toDigits v, toDigits_ne_nil v, two_le_length_toDigits v⟩
  · have hv10 : 10 ≤ v := by norm_num at hlt; omega
    have hnd : decimalLength v ≤ 21 := decimalLength_le v 21 h (by decide)
    have hnd1 := decimalLength_pos v
    have hshape : ∃ (s zeros : Nat), numberToString (JSNumber.finite v) =
        Nat.toDigits 10 s ++ List.replicate zeros '0' ∧ (1 ≤ zeros ∨ 10 ≤ s) := by
      unfold numberToString
      simp only
      rw [if_neg hlt]
      unfold shortestDecimal
      simp only
      split
      · rename_i hround
        have hne : decimalLength v ≠ 21 := by
          intro h21
          rw [h21, roundToDouble_ten_pow_21] at hround
          injection hround with hround
          omega
        simp only
        rw [if_pos (by omega)]
        exact ⟨1, decimalLength v + 1 - 1, rfl, Or.inl (by omega)⟩
      · simp only
        try rw [if_pos hnd]
        refine ⟨_, _, rfl, ?_⟩
        rcases shortestSignificand_spec v (decimalLength v) (decimalLength v) 1 with hk | hs
        · exact Or.inl (by omega)
        · exact Or.inr (by omega)
    obtain ⟨s, zeros, hstr, hlen⟩ := hshape
    rw [hstr]
    refine ⟨?_, ?_, fun _ => ?_⟩
    · intro c hc
      rcases List.mem_append.1 hc with hc | hc
      · exact isDigit_toDigits s c hc
      · exact isDigit_replicate_zero zeros c hc
    · intro hnil
      exact toDigits_ne_nil s (List.append_eq_nil.1 hnil).1
    · rw [List.length_append, List.length_replicate]
      rcases hlen with hz | hs
      · have := toDigits_ne_nil s
        cases hd : Nat.toDigits 10 s with
        | nil => exact absurd hd this
        | cons a as => simp; omega
      · have := two_le_length_toDigits s hs
        omega

/-- The key of a digit run whose value is below `10^21 - 65536`: `IR` followed by two or more
decimal digits. -/
theorem keyOfDigits_digits (ds : JSString) (hds : ds ≠ []) (hds1 : ∀ c ∈ ds, isDigit c = true)
    (hbound : digitsValue ds < 999999999999999934464) :
    ∃ body, keyOfDigits ds = 'I' :: 'R' :: body ∧ (∀ c ∈ body, isDigit c = true) ∧
      2 ≤ body.length := by
  obtain ⟨v, hv, hv21, _, _⟩ := roundToDouble_below (digitsValue ds) hbound
  obtain ⟨hdig, hne, hlen⟩ := numberToString_digits v hv21
  unfold keyOfDigits
  rw [parseInt_of_digits ds hds hds1, hv]
  simp only [JSNumber.lt, decide_eq_true_eq]
  by_cases h10 : v < 10
  · rw [if_pos h10]
    refine ⟨'0' :: numberToString (JSNumber.finite v), rfl, ?_, ?_⟩
    · intro c hc
      rcases List.mem_cons.1 hc with rfl | hc
      · decide
      · exact hdig c hc
    · cases hs : numberToString (JSNumber.finite v) with
      | nil => exact absurd hs hne
      | cons a as => simp
  · rw [if_neg h10]
    exact ⟨numberToString (JSNumber.finite v), rfl, hdig, hlen (by omega)⟩

set_option maxRecDepth 100000 in
/-- The bound `10^21 - 65536` cannot be raised: the digit run `999999999999999934464` is read
as `10^21` and gives the key `IR1e+21`, while `999999999999999934463` gives a key of digits. -/
theorem keyOfDigits_at_bound :
    keyOfDigits "999999999999999934464".toList = "IR1e+21".toList ∧
      keyOfDigits "999999999999999934463".toList = "IR999999999999999900000".toList := by
  constructor <;> decide

/-- C2 (counterexample): `Iteration 1000000000000000000000` gives `IR1e+21`, a key that is not
`IR` followed only by decimal digits. -/
theorem getSprintKey_exponent_form :
    getSprintKey (JSValue.string "Iteration 1000000000000000000000".toList)
        = some ('I' :: 'R' :: "1e+21".toList) ∧
      ¬ (∀ c ∈ "1e+21".toList, isDigit c = true) := by
  refine ⟨by rfl, by decide⟩

/-- C2 (amended): for every input whose `Iteration` digit run, if there is one, has a value
below `10^21 - 65536` (so that `parseInt` reads it as a Number below `10^21`), the result is
`null` or `IR` followed by a non-empty run of decimal digits; the input is then a string, and
either it has an `Iteration` occurrence and the key has two or more digits, or it has none, it
is itself `IR` plus these digits in some mix of cases, and the key is the input upper-cased. -/
theorem getSprintKey_canonical (v : JSValue)
    (hbound : ∀ s ds, v = JSValue.string s → matchIteration s = some ds →
      Nat.ofDigits 10 ((ds.map digitValue).reverse) < 999999999999999934464) :
    getSprintKey v = none ∨
      ∃ ds, getSprintKey v = some ('I' :: 'R' :: ds) ∧ ds ≠ [] ∧ (∀ c ∈ ds, isDigit c = true) ∧
        ∃ s, v = JSValue.string s ∧
          (((∃ j, IterationOccursAt s j) ∧ 2 ≤ ds.length) ∨
           ((∀ j, ¬ IterationOccursAt s j) ∧ StrictIR s ds ∧ 'I' :: 'R' :: ds = toUpperCase s)) := by
  cases v with
  | string s =>
    cases hm : matchIteration s with
    | some m1 =>
      right
      obtain ⟨hne, hdig, hocc⟩ := matchIteration_eq_some s m1 hm
      have hb : digitsValue m1 < 999999999999999934464 := by
        rw [digitsValue_eq_ofDigits]; exact hbound s m1 rfl hm
      obtain ⟨body, hkey, hbody, hlen⟩ := keyOfDigits_digits m1 hne hdig hb
      rw [getSprintKey_of_match _ _ hm, hkey]
      refine ⟨body, rfl, ?_, hbody, s, rfl, Or.inl ⟨hocc, hlen⟩⟩
      intro hnil
      rw [hnil] at hlen
      simp at hlen
    | none =>
      rw [getSprintKey_of_no_match _ hm]
      cases ht : testStrictIR s with
      | false => left; rfl
      | true =>
        right
        obtain ⟨ds, a, b, hs, ha, hb, hds, hds1⟩ := (testStrictIR_iff s).1 ht
        have hup : toUpperCase s = 'I' :: 'R' :: ds := by
          subst hs
          simp only [toUpperCase, List.map_cons, ha, hb, List.cons.injEq, true_and]
          exact List.map_congr_left (fun c hc => canonicalize_of_isDigit c (hds1 c hc)) |>.trans
            (List.map_id _)
        refine ⟨ds, by simp [hup], hds, hds1, s, rfl,
          Or.inr ⟨(matchIteration_eq_none_iff s).1 hm, ⟨a, b, hs, ha, hb, hds, hds1⟩, hup.symm⟩⟩
  | undefined => left; rfl
  | null => left; rfl
  | boolean b => left; rfl
  | number q => left; rfl
  | object p => left; rfl

/-- C2 (witness): the input `Iteration 9007199254740993`, whose digit run is above `2^53`; the
key is `IR9007199254740992`. -/
theorem getSprintKey_canonical_witness :
    getSprintKey (JSValue.string "Iteration 9007199254740993".toList) = none ∨
      ∃ ds, getSprintKey (JSValue.string "Iteration 9007199254740993".toList)
          = some ('I' :: 'R' :: ds) ∧
        ds ≠ [] ∧ (∀ c ∈ ds, isDigit c = true) ∧
        ∃ s, JSValue.string "Iteration 9007199254740993".toList = JSValue.string s ∧
          (((∃ j, IterationOccursAt s j) ∧ 2 ≤ ds.length) ∨
           ((∀ j, ¬ IterationOccursAt s j) ∧ StrictIR s ds ∧ 'I' :: 'R' :: ds = toUpperCase s)) :=
  getSprintKey_canonical (JSValue.string "Iteration 9007199254740993".toList) (by
    intro s ds hs hm
    have hs1 : s = "Iteration 9007199254740993".toList := by
      injection hs with h1
      exact h1.symm
    subst hs1
    have h12 : matchIteration "Iteration 9007199254740993".toList
        = some "9007199254740993".toList := by decide
    rw [h12] at hm
    injection hm with h2
    subst h2
    decide)

theorem matchIterationAt_of_head (c : Char) (cs : JSString) (h : canonicalize c ≠ 'I') :
    matchIterationAt (c :: cs) = none := by
  have hc : canonicalize 'I' = 'I' := by decide
  simp [matchIterationAt, String.toList, matchLiteral, hc, h]

theorem canonicalize_ne_of_isDigit (c : Char) (h : isDigit c = true) : canonicalize c ≠ 'I' := by
  rw [canonicalize_of_isDigit c h]
  intro hc
  rw [hc] at h
  exact absurd h (by decide)

theorem matchIteration_of_digits (ds : JSString) (h : ∀ c ∈ ds, isDigit c = true) :
    matchIteration ds = none := by
  induction ds with
  | nil => exact matchIterationAt_nil
  | cons d ds ih =>
    rw [matchIteration,
      matchIterationAt_of_head d ds (canonicalize_ne_of_isDigit d (h d (by simp)))]
    exact ih (fun c hc => h c (List.mem_cons_of_mem _ hc))

theorem matchIteration_of_strictIR (s ds : JSString) (h : StrictIR s ds) :
    matchIteration s = none := by
  obtain ⟨a, b, hs, ha, hb, hds, hds1⟩ := h
  subst hs
  have hI : canonicalize 'I' = 'I' := by decide
  have ht : canonicalize 't' = 'T' := by decide
  have h0 : matchIterationAt (a :: b :: ds) = none := by
    simp [matchIterationAt, String.toList, matchLiteral, hI, ht, ha, hb]
  have h1 : matchIterationAt (b :: ds) = none :=
    matchIterationAt_of_head b ds (by rw [hb]; decide)
  rw [matchIteration, h0]
  simp only
  rw [matchIteration, h1]
  exact matchIteration_of_digits ds hds1

theorem toUpperCase_of_strictIR (s ds : JSString) (h : StrictIR s ds) :
    toUpperCase s = 'I' :: 'R' :: ds := by
  obtain ⟨a, b, hs, ha, hb, hds, hds1⟩ := h
  subst hs
  simp only [toUpperCase, List.map_cons, ha, hb, List.cons.injEq, true_and]
  exact (List.map_congr_left (fun c hc => canonicalize_of_isDigit c (hds1 c hc))).trans
    (List.map_id _)

/-- C3: a text that is, as a whole, `IR` in any mix of cases followed by the non-empty digit run
`ds` has no `Iteration` occurrence, and `getSprintKey` returns it upper-cased, which is `IR`
followed by `ds` unchanged: the digit width is kept. -/
theorem getSprintKey_strict (s ds : JSString) (h : StrictIR s ds) :
    (∀ j, ¬ IterationOccursAt s j) ∧
      getSprintKey (JSValue.string s) = some (toUpperCase s) ∧
      toUpperCase s = 'I' :: 'R' :: ds := by
  have hm := matchIteration_of_strictIR s ds h
  refine ⟨(matchIteration_eq_none_iff s).1 hm, ?_, toUpperCase_of_strictIR s ds h⟩
  rw [getSprintKey_of_no_match _ hm, (testStrictIR_iff s).2 ⟨ds, h⟩]
  rfl

/-- C3 (witness): `ir5` gives `IR5`, not `IR05`. -/
theorem getSprintKey_strict_witness :
    (∀ j, ¬ IterationOccursAt "ir5".toList j) ∧
      getSprintKey (JSValue.string "ir5".toList) = some (toUpperCase "ir5".toList) ∧
      toUpperCase "ir5".toList = 'I' :: 'R' :: "5".toList :=
  getSprintKey_strict "ir5".toList "5".toList
    ⟨'i', 'r', by decide, by decide, by decide, by decide, by decide⟩

/-- C4: a text with no `Iteration` occurrence that is not, as a whole, `IR` followed by one or
more digits gives `null`. -/
theorem getSprintKey_null (s : JSString)
    (hno : ∀ j, ¬ IterationOccursAt s j) (hstrict : ∀ ds, ¬ StrictIR s ds) :
    getSprintKey (JSValue.string s) = none := by
  rw [getSprintKey_of_no_match _ ((matchIteration_eq_none_iff s).2 hno)]
  cases ht : testStrictIR s with
  | false => rfl
  | true =>
    obtain ⟨ds, hds⟩ := (testStrictIR_iff s).1 ht
    exact absurd hds (hstrict ds)

theorem not_strictIR_of_test (s : JSString) (h : testStrictIR s = false) (ds : JSString) :
    ¬ StrictIR s ds := by
  intro hs
  rw [(testStrictIR_iff s).2 ⟨ds, hs⟩] at h
  cases h

/-- C4 (witness): `Sprint Review`, `Iteration7` and `IR5` with a trailing blank give `null`. -/
theorem getSprintKey_null_witness :
    getSprintKey (JSValue.string "Sprint Review".toList) = none ∧
      getSprintKey (JSValue.string "Iteration7".toList) = none ∧
      getSprintKey (JSValue.string "IR5 ".toList) = none :=
  ⟨getSprintKey_null "Sprint Review".toList
      ((matchIteration_eq_none_iff _).1 (by decide)) (not_strictIR_of_test _ (by decide)),
    getSprintKey_null "Iteration7".toList
      ((matchIteration_eq_none_iff _).1 (by decide)) (not_strictIR_of_test _ (by decide)),
    getSprintKey_null "IR5 ".toList
      ((matchIteration_eq_none_iff _).1 (by decide)) (not_strictIR_of_test _ (by decide))⟩

/-- C5: `getSprintKey` never raises.  Its result is the result of the `try` body when the body
returns, and `null` when the body raises; on a string the body returns; on every other value
(`undefined`, `null`, a boolean, a number, an array or an object) the body raises a TypeError and
the function returns `null`. -/
theorem getSprintKey_never_raises (v : JSValue) :
    (getSprintKeyBody v = Except.ok (getSprintKey v) ∨
      (getSprintKey v = none ∧ ∃ e, getSprintKeyBody v = Except.error e)) ∧
    (∀ s, v = JSValue.string s → getSprintKeyBody v = Except.ok (getSprintKey v)) ∧
    ((∀ s, v ≠ JSValue.string s) →
      getSprintKeyBody v = Except.error JSError.typeError ∧ getSprintKey v = none) := by
  have hstr : ∀ s, getSprintKeyBody (JSValue.string s)
      = Except.ok (getSprintKey (JSValue.string s)) := by
    intro s
    unfold getSprintKey
    cases hb : getSprintKeyBody (JSValue.string s) with
    | ok r => rfl
    | error e =>
      exfalso
      simp only [getSprintKeyBody] at hb
      split at hb
      · split at hb
        · cases hb
        · split at hb <;> cases hb
      · split at hb <;> cases hb
  cases v with
  | string s =>
    exact ⟨Or.inl (hstr s), fun _ _ => hstr s, fun h => absurd rfl (h s)⟩
  | undefined =>
    exact ⟨Or.inr ⟨rfl, _, rfl⟩, (fun s h => by cases h), fun _ => ⟨rfl, rfl⟩⟩
  | null =>
    exact ⟨Or.inr ⟨rfl, _, rfl⟩, (fun s h => by cases h), fun _ => ⟨rfl, rfl⟩⟩
  | boolean b =>
    exact ⟨Or.inr ⟨rfl, _, rfl⟩, (fun s h => by cases h), fun _ => ⟨rfl, rfl⟩⟩
  | number q =>
    exact ⟨Or.inr ⟨rfl, _, rfl⟩, (fun s h => by cases h), fun _ => ⟨rfl, rfl⟩⟩
  | object p =>
    exact ⟨Or.inr ⟨rfl, _, rfl⟩, (fun s h => by cases h), fun _ => ⟨rfl, rfl⟩⟩

/-- C5 (witness): `undefined`, `null`, a number, a boolean and an object all give `null`. -/
theorem getSprintKey_never_raises_witness :
    getSprintKey JSValue.undefined = none ∧ getSprintKey JSValue.null = none ∧
      getSprintKey (JSValue.number 7) = none ∧ getSprintKey (JSValue.boolean true) = none ∧
      getSprintKey (JSValue.object "[object Object]".toList) = none :=
  ⟨((getSprintKey_never_raises JSValue.undefined).2.2 (fun s h => by cases h)).2,
    ((getSprintKey_never_raises JSValue.null).2.2 (fun s h => by cases h)).2,
    ((getSprintKey_never_raises (JSValue.number 7)).2.2 (fun s h => by cases h)).2,
    ((getSprintKey_never_raises (JSValue.boolean true)).2.2 (fun s h => by cases h)).2,
    ((getSprintKey_never_raises (JSValue.object "[object Object]".toList)).2.2
      (fun s h => by cases h)).2⟩

/-! ## The region locator -/

theorem getRangeA1_numRows_pos (a1 : JSString) : 1 ≤ (getRangeA1 a1).numRows := by
  unfold getRangeA1
  split <;> simp

theorem getRangeA1_numCols_pos (a1 : JSString) : 1 ≤ (getRangeA1 a1).numCols := by
  unfold getRangeA1
  split <;> simp

theorem horizontalLoop_eq {σ : Type} (key : JSValue) (base : Nat) (cb : Nat → σ → σ) (st : σ) :
    ∀ (cells : List JSValue) (i : Nat),
      updateHorizontalRange.loop key base cb cells i st =
        match firstMatch key cells with
        | some k => cb (base + (i + k)) st
        | none => st := by
  intro cells
  induction cells with
  | nil => intro i; rfl
  | cons c cs ih =>
    intro i
    rw [updateHorizontalRange.loop, firstMatch]
    by_cases hc : looseEq c key = true
    · simp [hc]
    · simp only [hc, Bool.false_eq_true, if_false]
      rw [ih (i + 1)]
      cases firstMatch key cs with
      | none => rfl
      | some k => simp only [Option.map_some']; congr 1; omega

theorem verticalLoop_eq {σ : Type} (key : JSValue) (base : Nat) (cb : Nat → σ → σ) (st : σ) :
    ∀ (rows : List (List JSValue)) (i : Nat),
      updateVerticalRange.loop key base cb rows i st =
        updateHorizontalRange.loop key base cb
          (rows.map (fun row => row.headD JSValue.undefined)) i st := by
  intro rows
  induction rows with
  | nil => intro i; rfl
  | cons r rs ih =>
    intro i
    rw [updateVerticalRange.loop, List.map_cons, updateHorizontalRange.loop, ih]

theorem getValues_column (sheet : Sheet) (rg : Range) (h : 1 ≤ rg.numCols) :
    (getValues sheet rg).map (fun row => row.headD JSValue.undefined) = columnWindow sheet rg := by
  unfold getValues columnWindow
  rw [List.map_map]
  apply List.map_congr_left
  intro i _
  obtain ⟨m, hm⟩ : ∃ m, rg.numCols = m + 1 := ⟨rg.numCols - 1, by omega⟩
  simp [hm, List.range_succ_eq_map]

theorem getValues_row (sheet : Sheet) (rg : Range) (h : 1 ≤ rg.numRows) :
    (getValues sheet rg).headD [] = rowWindow sheet rg := by
  unfold getValues rowWindow
  obtain ⟨m, hm⟩ : ∃ m, rg.numRows = m + 1 := ⟨rg.numRows - 1, by omega⟩
  simp [hm, List.range_succ_eq_map]

/-- The vertical locator, by the first match of its window. -/
theorem updateVerticalRange_eq {σ : Type} (sheet : Sheet) (addr : JSString) (key : JSValue)
    (base : Nat) (cb : Nat → σ → σ) (st : σ) :
    updateVerticalRange sheet addr key base cb st =
      match firstMatch key (columnWindow sheet (getRangeA1 addr)) with
      | some k => cb (base + k) st
      | none => st := by
  unfold updateVerticalRange
  simp only
  rw [verticalLoop_eq, getValues_column _ _ (getRangeA1_numCols_pos addr), horizontalLoop_eq]
  simp

/-- The horizontal locator, by the first match of its window. -/
theorem updateHorizontalRange_eq {σ : Type} (sheet : Sheet) (addr : JSString) (key : JSValue)
    (base : Nat) (cb : Nat → σ → σ) (st : σ) :
    updateHorizontalRange sheet addr key base cb st =
      match firstMatch key (rowWindow sheet (getRangeA1 addr)) with
      | some k => cb (base + k) st
      | none => st := by
  unfold updateHorizontalRange
  simp only
  rw [getValues_row _ _ (getRangeA1_numRows_pos addr), horizontalLoop_eq]
  simp

theorem firstMatch_eq_some (key : JSValue) : ∀ (cells : List JSValue) (i : Nat) (c : JSValue),
    cells[i]? = some c → looseEq c key = true →
    (∀ j c1, j < i → cells[j]? = some c1 → looseEq c1 key = false) →
    firstMatch key cells = some i := by
  intro cells
  induction cells with
  | nil => intro i c h; simp at h
  | cons x xs ih =>
    intro i c h hc hmiss
    cases i with
    | zero =>
      simp only [List.getElem?_cons_zero, Option.some.injEq] at h
      subst h
      simp [firstMatch, hc]
    | succ k =>
      have hx : looseEq x key = false := hmiss 0 x (by omega) (by simp)
      simp only [List.getElem?_cons_succ] at h
      have := ih k c h hc (fun j c1 hj hj1 => hmiss (j + 1) c1 (by omega) (by simpa using hj1))
      simp [firstMatch, hx, this]

theorem firstMatch_eq_none (key : JSValue) : ∀ (cells : List JSValue),
    (∀ c ∈ cells, looseEq c key = false) → firstMatch key cells = none := by
  intro cells
  induction cells with
  | nil => intro _; rfl
  | cons x xs ih =>
    intro h
    have hx : looseEq x key = false := h x (by simp)
    simp [firstMatch, hx, ih (fun c hc => h c (List.mem_cons_of_mem _ hc))]

theorem firstMatch_some_iff (key : JSValue) : ∀ (cells : List JSValue) (i : Nat),
    firstMatch key cells = some i →
    ∃ c, cells[i]? = some c ∧ looseEq c key = true ∧
      ∀ j c1, j < i → cells[j]? = some c1 → looseEq c1 key = false := by
  intro cells
  induction cells with
  | nil => intro i h; simp [firstMatch] at h
  | cons x xs ih =>
    intro i h
    rw [firstMatch] at h
    by_cases hx : looseEq x key = true
    · simp only [hx, if_true, Option.some.injEq] at h
      subst h
      exact ⟨x, by simp, hx, fun j c1 hj => by omega⟩
    · simp only [hx, Bool.false_eq_true, if_false, Option.map_eq_some'] at h
      obtain ⟨k, hk, rfl⟩ := h
      obtain ⟨c, hc, hc1, hmiss⟩ := ih k hk
      refine ⟨c, by simpa using hc, hc1, ?_⟩
      intro j c1 hj hj1
      cases j with
      | zero =>
        simp only [List.getElem?_cons_zero, Option.some.injEq] at hj1
        subst hj1
        simpa using hx
      | succ m => exact hmiss m c1 (by omega) (by simpa using hj1)

theorem looseEq_toJS_null (v : CellValue) : looseEq v.toJS JSValue.null = false := by
  cases v <;> rfl

/-- C6: the window being the list of cell values read from the range, `updateVerticalRange`
(resp. `updateHorizontalRange`) returns the state produced by exactly one invocation of the
callback, with argument `base + i`, when cell `i` of the window loosely equals the key and no
earlier cell does; it returns the state untouched, invoking nothing, when no cell of the window
loosely equals the key. -/
theorem locator_first_match {σ : Type} (sheet : Sheet) (addr : JSString) (key : JSValue)
    (base : Nat) (cb : Nat → σ → σ) (st : σ) :
    (∀ i c, (columnWindow sheet (getRangeA1 addr))[i]? = some c → looseEq c key = true →
        (∀ j c1, j < i → (columnWindow sheet (getRangeA1 addr))[j]? = some c1 →
          looseEq c1 key = false) →
        updateVerticalRange sheet addr key base cb st = cb (base + i) st) ∧
      ((∀ c ∈ columnWindow sheet (getRangeA1 addr), looseEq c key = false) →
        updateVerticalRange sheet addr key base cb st = st) ∧
      (∀ i c, (rowWindow sheet (getRangeA1 addr))[i]? = some c → looseEq c key = true →
        (∀ j c1, j < i → (rowWindow sheet (getRangeA1 addr))[j]? = some c1 →
          looseEq c1 key = false) →
        updateHorizontalRange sheet addr key base cb st = cb (base + i) st) ∧
      ((∀ c ∈ rowWindow sheet (getRangeA1 addr), looseEq c key = false) →
        updateHorizontalRange sheet addr key base cb st = st) := by
  refine ⟨?_, ?_, ?_, ?_⟩
  · intro i c hi hc hmiss
    rw [updateVerticalRange_eq, firstMatch_eq_some key _ i c hi hc hmiss]
  · intro h
    rw [updateVerticalRange_eq, firstMatch_eq_none key _ h]
  · intro i c hi hc hmiss
    rw [updateHorizontalRange_eq, firstMatch_eq_some key _ i c hi hc hmiss]
  · intro h
    rw [updateHorizontalRange_eq, firstMatch_eq_none key _ h]

/-- C7: with the key `null` neither locator invokes its callback, whatever the cells hold: the
state is returned untouched. -/
theorem locator_null_key {σ : Type} (sheet : Sheet) (addr : JSString) (base : Nat)
    (cb : Nat → σ → σ) (st : σ) :
    updateVerticalRange sheet addr JSValue.null base cb st = st ∧
      updateHorizontalRange sheet addr JSValue.null base cb st = st := by
  constructor
  · rw [updateVerticalRange_eq, firstMatch_eq_none]
    intro c hc
    simp only [columnWindow, List.mem_map] at hc
    obtain ⟨i, _, rfl⟩ := hc
    exact looseEq_toJS_null _
  · rw [updateHorizontalRange_eq, firstMatch_eq_none]
    intro c hc
    simp only [rowWindow, List.mem_map] at hc
    obtain ⟨i, _, rfl⟩ := hc
    exact looseEq_toJS_null _

theorem stringToNumber_above_two_pow_53 :
    stringToNumber "9007199254740993".toList = some (doubleValue 4503599627370496 1) := by
  rfl

/-- The comparison `9007199254740992 == '9007199254740993'` is true: the string is converted to
the nearest double, which is `2^53`. -/
theorem looseEq_rounds_string :
    looseEq (JSValue.number 9007199254740992) (JSValue.string "9007199254740993".toList)
      = true := by
  simp only [looseEq, stringToNumber_above_two_pow_53, numberEq]
  norm_num [doubleValue]

/-- C6 (witness): on the example sheet the key `IR07` stands at rows 10 and 12 of `A4:A26`; the
callback is invoked once, with row 10.  In `G3:AC3` it is invoked once with column 9, and in
`A34:A56`, which does not hold the key, it is not invoked.  On the numeric sheet, whose cell A5
holds the number 9007199254740992, the key `'9007199254740993'` is found at row 5: `==` converts
the string to the nearest double. -/
theorem locator_first_match_witness :
    updateVerticalRange exampleSheet "A4:A26".toList (JSValue.string "IR07".toList) 4
        recordCall [] = recordCall (4 + 6) [] ∧
      updateHorizontalRange exampleSheet "G3:AC3".toList (JSValue.string "IR07".toList) 7
        recordCall [] = recordCall (7 + 2) [] ∧
      updateVerticalRange exampleSheet "A34:A56".toList (JSValue.string "IR07".toList) 34
        recordCall [] = [] ∧
      updateVerticalRange numericSheet "A4:A26".toList
        (JSValue.string "9007199254740993".toList) 4 recordCall [] = recordCall (4 + 1) [] := by
  refine ⟨?_, ?_, ?_, ?_⟩
  · refine (locator_first_match exampleSheet "A4:A26".toList (JSValue.string "IR07".toList) 4
      recordCall []).1 6 (JSValue.string "IR07".toList) (by decide) (by decide) ?_
    intro j c1 hj h
    have hall : ∀ j, j < 6 → (columnWindow exampleSheet (getRangeA1 "A4:A26".toList))[j]?
        = some (JSValue.string []) := by decide
    rw [hall j hj] at h
    injection h with h
    subst h
    rfl
  · refine (locator_first_match exampleSheet "G3:AC3".toList (JSValue.string "IR07".toList) 7
      recordCall []).2.2.1 2 (JSValue.string "IR07".toList) (by decide) (by decide) ?_
    intro j c1 hj h
    have hall : ∀ j, j < 2 → (rowWindow exampleSheet (getRangeA1 "G3:AC3".toList))[j]?
        = some (JSValue.string []) := by decide
    rw [hall j hj] at h
    injection h with h
    subst h
    rfl
  · exact (locator_first_match exampleSheet "A34:A56".toList (JSValue.string "IR07".toList) 34
      recordCall []).2.1 (by decide)
  · refine (locator_first_match numericSheet "A4:A26".toList
      (JSValue.string "9007199254740993".toList) 4 recordCall []).1 1
      (JSValue.number 9007199254740992) (by rfl) looseEq_rounds_string ?_
    intro j c1 hj h
    have hj0 : j = 0 := by omega
    subst hj0
    have h0 : (columnWindow numericSheet (getRangeA1 "A4:A26".toList))[0]?
        = some (JSValue.string []) := by rfl
    rw [h0] at h
    injection h with h
    subst h
    rfl

/-! ## The upsert dispatcher -/

theorem keyOfDigits_ne_nil (m1 : JSString) : keyOfDigits m1 ≠ [] := by
  simp [keyOfDigits, String.toList]

theorem getSprintKey_ne_nil (v : JSValue) (k : JSString) (h : getSprintKey v = some k) :
    k ≠ [] := by
  cases v with
  | string s =>
    cases hm : matchIteration s with
    | some m1 =>
      rw [getSprintKey_of_match _ _ hm] at h
      injection h with h
      rw [← h]
      exact keyOfDigits_ne_nil m1
    | none =>
      rw [getSprintKey_of_no_match _ hm] at h
      cases ht : testStrictIR s with
      | false => rw [ht] at h; cases h
      | true =>
        rw [ht] at h
        simp only [if_true, Option.some.injEq] at h
        obtain ⟨ds, hds⟩ := (testStrictIR_iff s).1 ht
        rw [← h, toUpperCase_of_strictIR s ds hds]
        simp
  | undefined => cases h
  | null => cases h
  | boolean b => cases h
  | number q => cases h
  | object p => cases h

theorem isFalsy_of_getSprintKey (v : JSValue) (k : JSString) (h : getSprintKey v = some k) :
    isFalsy (some k) = false := by
  have := getSprintKey_ne_nil v k h
  cases k with
  | nil => exact absurd rfl this
  | cons a as => rfl

/-- The error path of `processData` for an unparsable sprint name. -/
theorem processData_of_null (store : Store) (data : SprintRecord)
    (h : getSprintKey data.sprintNameValue = none) :
    processData store data =
      (createResponse "error"
        ("Could not parse sprint key (e.g. IR21) from name: ".toList ++ data.sprintNameText),
       store) := by
  simp [processData, h, isFalsy]

/-- The error path of `processData` for a missing sheet. -/
theorem processData_of_no_sheet (store : Store) (data : SprintRecord) (k : JSString)
    (h : getSprintKey data.sprintNameValue = some k)
    (hs : store.getSheetByName "Team Stats" = none) :
    processData store data =
      (createResponse "error" "Sheet 'Team Stats' not found.".toList, store) := by
  simp [processData, h, isFalsy_of_getSprintKey _ _ h, hs]

/-- The success path of `processData`: the five rules in order, then the static writes. -/
theorem processData_of_sheet (store : Store) (data : SprintRecord) (k : JSString)
    (sheet : Sheet) (h : getSprintKey data.sprintNameValue = some k)
    (hs : store.getSheetByName "Team Stats" = some sheet) :
    processData store data =
      (createResponse "success" ("Updated stats for ".toList ++ k),
       store.withSheet "Team Stats"
         (staticWrites data (rule5 data (JSValue.string k) (rule4 data (JSValue.string k)
           (rule3 data (JSValue.string k) (rule2 data (JSValue.string k)
             (rule1 data (JSValue.string k) sheet))))))) := by
  simp [processData, h, isFalsy_of_getSprintKey _ _ h, hs]

/-- C8: when `getSprintKey` returns `null` for the record's sprint name, `processData` returns
the error response whose message ends with the sprint name as given, and the store after the
call is the store before it: no value and no background is written. -/
theorem processData_invalid_key (store : Store) (data : SprintRecord)
    (h : getSprintKey data.sprintNameValue = none) :
    (processData store data).1.status = "error" ∧
      (processData store data).1.updated =
        "Could not parse sprint key (e.g. IR21) from name: ".toList ++ data.sprintNameText ∧
      (∀ s, data.sprintName = some s → data.sprintNameText = s) ∧
      (processData store data).2 = store := by
  rw [processData_of_null store data h]
  refine ⟨rfl, rfl, ?_, rfl⟩
  intro s hs
  simp [SprintRecord.sprintNameText, hs]

/-- C8 (witness): the example record renamed `Sprint Review`, on an empty spreadsheet. -/
theorem processData_invalid_key_witness :
    (processData (fun _ => none)
        { exampleRecord with sprintName := some "Sprint Review".toList }).1.status = "error" ∧
      (processData (fun _ => none)
        { exampleRecord with sprintName := some "Sprint Review".toList }).1.updated =
        "Could not parse sprint key (e.g. IR21) from name: ".toList ++
          SprintRecord.sprintNameText
            { exampleRecord with sprintName := some "Sprint Review".toList } ∧
      (∀ s, SprintRecord.sprintName
          { exampleRecord with sprintName := some "Sprint Review".toList } = some s →
        SprintRecord.sprintNameText
          { exampleRecord with sprintName := some "Sprint Review".toList } = s) ∧
      (processData (fun _ => none)
        { exampleRecord with sprintName := some "Sprint Review".toList }).2 = (fun _ => none) :=
  processData_invalid_key (fun _ => none)
    { exampleRecord with sprintName := some "Sprint Review".toList } (by decide)

/-- C9: `processData` answers with status `success` exactly when `getSprintKey` returns a key and
the sheet `Team Stats` exists, whatever the sheet holds; with a key and no such sheet the answer
is the sheet-not-found error; the success message is `Updated stats for ` followed by the key. -/
theorem processData_success_iff (store : Store) (data : SprintRecord) :
    ((processData store data).1.status = "success" ↔
        (getSprintKey data.sprintNameValue ≠ none ∧
          store.getSheetByName "Team Stats" ≠ none)) ∧
      (getSprintKey data.sprintNameValue ≠ none → store.getSheetByName "Team Stats" = none →
        (processData store data).1 =
          createResponse "error" "Sheet 'Team Stats' not found.".toList) ∧
      (∀ k, getSprintKey data.sprintNameValue = some k →
        store.getSheetByName "Team Stats" ≠ none →
        (processData store data).1 =
          createResponse "success" ("Updated stats for ".toList ++ k)) := by
  cases hk : getSprintKey data.sprintNameValue with
  | none =>
    rw [processData_of_null store data hk]
    refine ⟨⟨fun h => ?_, fun h => absurd rfl h.1⟩, fun h => absurd rfl h, fun k h => by cases h⟩
    simp [createResponse] at h
  | some k =>
    cases hs : store.getSheetByName "Team Stats" with
    | none =>
      rw [processData_of_no_sheet store data k hk hs]
      refine ⟨⟨fun h => ?_, fun h => absurd rfl h.2⟩, fun _ _ => rfl, fun _ _ h => absurd rfl h⟩
      simp [createResponse] at h
    | some sheet =>
      rw [processData_of_sheet store data k sheet hk hs]
      refine ⟨⟨fun _ => ⟨by simp, by simp⟩, fun _ => rfl⟩, (fun _ h => by cases h), ?_⟩
      intro k1 hk1 _
      injection hk1 with hk1
      rw [hk1]

/-- C9 (witness): the example record on a spreadsheet whose only sheet is `Team Stats`: the
answer is `Updated stats for IR07`. -/
theorem processData_success_iff_witness :
    (processData (fun n => if n = "Team Stats" then some exampleSheet else none)
        exampleRecord).1 = createResponse "success" ("Updated stats for ".toList ++ "IR07".toList) :=
  (processData_success_iff (fun n => if n = "Team Stats" then some exampleSheet else none)
    exampleRecord).2.2 "IR07".toList (by decide) (by simp [Store.getSheetByName])

theorem columnWindow_getElem? (sheet : Sheet) (rg : Range) (i : Nat) (h : i < rg.numRows) :
    (columnWindow sheet rg)[i]? = some (sheet.value (rg.row + i) rg.col).toJS := by
  simp [columnWindow, List.getElem?_map, List.getElem?_range, h]

theorem rowWindow_getElem? (sheet : Sheet) (rg : Range) (j : Nat) (h : j < rg.numCols) :
    (rowWindow sheet rg)[j]? = some (sheet.value rg.row (rg.col + j)).toJS := by
  simp [rowWindow, List.getElem?_map, List.getElem?_range, h]

theorem columnWindow_getElem?_lt (sheet : Sheet) (rg : Range) (i : Nat) (c : JSValue)
    (h : (columnWindow sheet rg)[i]? = some c) :
    i < rg.numRows ∧ c = (sheet.value (rg.row + i) rg.col).toJS := by
  have hi : i < rg.numRows := by
    have := (List.getElem?_eq_some_iff.1 h).1
    simpa [columnWindow] using this
  rw [columnWindow_getElem? sheet rg i hi] at h
  injection h with h
  exact ⟨hi, h.symm⟩

theorem rowWindow_getElem?_lt (sheet : Sheet) (rg : Range) (j : Nat) (c : JSValue)
    (h : (rowWindow sheet rg)[j]? = some c) :
    j < rg.numCols ∧ c = (sheet.value rg.row (rg.col + j)).toJS := by
  have hj : j < rg.numCols := by
    have := (List.getElem?_eq_some_iff.1 h).1
    simpa [rowWindow] using this
  rw [rowWindow_getElem? sheet rg j hj] at h
  injection h with h
  exact ⟨hj, h.symm⟩

theorem getRangeA1_A4_A26 : getRangeA1 "A4:A26".toList = ⟨4, 1, 23, 1⟩ := by decide

/-- A vertical lookup whose window has the key first at row `r`: the callback runs at `r`. -/
theorem updateVerticalRange_hit {σ : Type} (sheet : Sheet) (addr : JSString) (key : JSValue)
    (cb : Nat → σ → σ) (st : σ) (r : Nat)
    (hlo : (getRangeA1 addr).row ≤ r) (hhi : r < (getRangeA1 addr).row + (getRangeA1 addr).numRows)
    (hhit : looseEq (sheet.value r (getRangeA1 addr).col).toJS key = true)
    (hfirst : ∀ r1, (getRangeA1 addr).row ≤ r1 → r1 < r →
      looseEq (sheet.value r1 (getRangeA1 addr).col).toJS key = false) :
    updateVerticalRange sheet addr key (getRangeA1 addr).row cb st = cb r st := by
  rw [updateVerticalRange_eq,
    firstMatch_eq_some key _ (r - (getRangeA1 addr).row) (sheet.value r (getRangeA1 addr).col).toJS
      (by rw [columnWindow_getElem? _ _ _ (by omega)]; congr 3; omega) hhit (by
        intro j c1 hj hc1
        obtain ⟨hj1, rfl⟩ := columnWindow_getElem?_lt _ _ _ _ hc1
        exact hfirst _ (by omega) (by omega))]
  simp only
  congr 1
  omega

theorem rule1_hit (data : SprintRecord) (key : JSValue) (sheet : Sheet) (r : Nat)
    (hlo : 4 ≤ r) (hhi : r ≤ 26)
    (hhit : looseEq (sheet.value r 1).toJS key = true)
    (hfirst : ∀ r1, 4 ≤ r1 → r1 < r → looseEq (sheet.value r1 1).toJS key = false) :
    rule1 data key sheet =
      setBackground
        (setValue
          (setValue
            (setValue sheet (getRange r 2) (CellValue.number data.completedUnplanned))
            (getRange r 3) (CellValue.number data.completedPlanned))
          (getRange r 4) (CellValue.number data.velocity))
        (getRangeRect r 2 1 3) highlight := by
  have h := updateVerticalRange_hit (σ := Sheet) sheet "A4:A26".toList key
    (fun row sh =>
      setBackground
        (setValue
          (setValue
            (setValue sh (getRange row 2) (CellValue.number data.completedUnplanned))
            (getRange row 3) (CellValue.number data.completedPlanned))
          (getRange row 4) (CellValue.number data.velocity))
        (getRangeRect row 2 1 3) highlight) sheet r
    (by rw [getRangeA1_A4_A26]; exact hlo) (by rw [getRangeA1_A4_A26]; simp only; omega)
    (by rw [getRangeA1_A4_A26]; exact hhit) (by rw [getRangeA1_A4_A26]; exact hfirst)
  rw [getRangeA1_A4_A26] at h
  exact h

/-- C10: when the key stands in `A4:A26` first at row `r`, rule 1 writes `completedUnplanned`,
`completedPlanned` and `velocity` to columns 2, 3 and 4 of row `r`, sets the background of these
three cells to the highlight colour, and leaves the value and the background of every other cell
as they were. -/
theorem rule1_writes_exactly (data : SprintRecord) (key : JSValue) (sheet : Sheet) (r : Nat)
    (hlo : 4 ≤ r) (hhi : r ≤ 26)
    (hhit : looseEq (sheet.value r 1).toJS key = true)
    (hfirst : ∀ r1, 4 ≤ r1 → r1 < r → looseEq (sheet.value r1 1).toJS key = false) :
    (rule1 data key sheet).value r 2 = CellValue.number data.completedUnplanned ∧
      (rule1 data key sheet).value r 3 = CellValue.number data.completedPlanned ∧
      (rule1 data key sheet).value r 4 = CellValue.number data.velocity ∧
      (∀ c, 2 ≤ c → c ≤ 4 → (rule1 data key sheet).background r c = highlight) ∧
      (∀ r1 c1, ¬ (r1 = r ∧ 2 ≤ c1 ∧ c1 ≤ 4) →
        (rule1 data key sheet).value r1 c1 = sheet.value r1 c1 ∧
        (rule1 data key sheet).background r1 c1 = sheet.background r1 c1) := by
  rw [rule1_hit data key sheet r hlo hhi hhit hfirst]
  refine ⟨?_, ?_, ?_, ?_, ?_⟩
  · simp [setBackground, setValue, getRange, getRangeRect, Range.contains]
  · simp [setBackground, setValue, getRange, getRangeRect, Range.contains]
  · simp [setBackground, setValue, getRange, getRangeRect, Range.contains]
  · intro c h2 h4
    simp only [setBackground, setValue, getRange, getRangeRect, Range.contains]
    rw [if_pos (by simp; omega)]
  · intro r1 c1 hne
    simp only [setBackground, setValue, getRange, getRangeRect, Range.contains,
      decide_eq_true_eq]
    refine ⟨?_, ?_⟩
    · rw [if_neg (by omega), if_neg (by omega), if_neg (by omega)]
    · rw [if_neg (by omega)]

/-- C10 (witness): the example sheet has `IR07` in column A first at row 10; rule 1 with the
example record (3 unplanned, 5 planned, velocity 8) writes (10,2) = 3, (10,3) = 5, (10,4) = 8. -/
theorem rule1_writes_exactly_witness :
    (rule1 exampleRecord (JSValue.string "IR07".toList) exampleSheet).value 10 2
        = CellValue.number 3 ∧
      (rule1 exampleRecord (JSValue.string "IR07".toList) exampleSheet).value 10 3
        = CellValue.number 5 ∧
      (rule1 exampleRecord (JSValue.string "IR07".toList) exampleSheet).value 10 4
        = CellValue.number 8 ∧
      (∀ c, 2 ≤ c → c ≤ 4 →
        (rule1 exampleRecord (JSValue.string "IR07".toList) exampleSheet).background 10 c
          = highlight) ∧
      (∀ r1 c1, ¬ (r1 = 10 ∧ 2 ≤ c1 ∧ c1 ≤ 4) →
        (rule1 exampleRecord (JSValue.string "IR07".toList) exampleSheet).value r1 c1
          = exampleSheet.value r1 c1 ∧
        (rule1 exampleRecord (JSValue.string "IR07".toList) exampleSheet).background r1 c1
          = exampleSheet.background r1 c1) :=
  rule1_writes_exactly exampleRecord (JSValue.string "IR07".toList) exampleSheet 10
    (by decide) (by decide) (by decide) (by
      intro r1 h4 h10
      interval_cases r1 <;> decide)

/-! ## Batches of writes -/

theorem Sheet.ext_iff' (a b : Sheet) (hv : a.value = b.value) (hb : a.background = b.background) :
    a = b := by
  cases a; cases b; simp only [Sheet.mk.injEq]; exact ⟨hv, hb⟩

theorem setValue_eq_apply (sheet : Sheet) (rg : Range) (v : CellValue) :
    setValue sheet rg v = (Overwrite.ofValue rg v).apply sheet := by
  apply Sheet.ext_iff'
  · funext r c
    simp only [setValue, Overwrite.apply, Overwrite.ofValue]
    split <;> rfl
  · rfl

theorem setBackground_eq_apply (sheet : Sheet) (rg : Range) (colour : JSString) :
    setBackground sheet rg colour = (Overwrite.ofBackground rg colour).apply sheet := by
  apply Sheet.ext_iff'
  · rfl
  · funext r c
    simp only [setBackground, Overwrite.apply, Overwrite.ofBackground]
    split <;> rfl

theorem apply_andThen (w1 w2 : Overwrite) (sheet : Sheet) :
    (w1.andThen w2).apply sheet = w2.apply (w1.apply sheet) := by
  apply Sheet.ext_iff'
  · funext r c
    simp only [Overwrite.apply, Overwrite.andThen]
    cases w2.cells r c <;> rfl
  · funext r c
    simp only [Overwrite.apply, Overwrite.andThen]
    cases w2.colours r c <;> rfl

theorem apply_empty (sheet : Sheet) : Overwrite.empty.apply sheet = sheet := by
  apply Sheet.ext_iff' <;> rfl

theorem apply_apply (w : Overwrite) (sheet : Sheet) :
    w.apply (w.apply sheet) = w.apply sheet := by
  apply Sheet.ext_iff'
  · funext r c
    simp only [Overwrite.apply]
    cases w.cells r c <;> rfl
  · funext r c
    simp only [Overwrite.apply]
    cases w.colours r c <;> rfl

theorem apply_value_of_none (w : Overwrite) (sheet : Sheet) (r c : Nat)
    (h : w.cells r c = none) : (w.apply sheet).value r c = sheet.value r c := by
  simp only [Overwrite.apply, h]

theorem apply_background_of_none (w : Overwrite) (sheet : Sheet) (r c : Nat)
    (h : w.colours r c = none) : (w.apply sheet).background r c = sheet.background r c := by
  simp only [Overwrite.apply, h]

theorem apply_value_of_some (w : Overwrite) (sheet : Sheet) (r c : Nat) (v : CellValue)
    (h : w.cells r c = some v) : (w.apply sheet).value r c = v := by
  simp only [Overwrite.apply, h]

theorem apply_background_of_some (w : Overwrite) (sheet : Sheet) (r c : Nat) (x : JSString)
    (h : w.colours r c = some x) : (w.apply sheet).background r c = x := by
  simp only [Overwrite.apply, h]

theorem within_empty (P : Nat → Nat → Prop) : Overwrite.empty.within P :=
  fun _ _ _ => ⟨rfl, rfl⟩

theorem within_mono (w : Overwrite) (P Q : Nat → Nat → Prop) (h : w.within P)
    (hPQ : ∀ r c, P r c → Q r c) : w.within Q :=
  fun r c hq => h r c (fun hp => hq (hPQ r c hp))

theorem within_andThen (w1 w2 : Overwrite) (P : Nat → Nat → Prop) (h1 : w1.within P)
    (h2 : w2.within P) : (w1.andThen w2).within P := by
  intro r c hp
  simp only [Overwrite.andThen, (h1 r c hp).1, (h1 r c hp).2, (h2 r c hp).1, (h2 r c hp).2,
    and_self]

theorem within_ofValue (rg : Range) (v : CellValue) :
    (Overwrite.ofValue rg v).within (fun r c => rg.contains r c = true) := by
  intro r c hp
  simp [Overwrite.ofValue, hp]

theorem within_ofBackground (rg : Range) (x : JSString) :
    (Overwrite.ofBackground rg x).within (fun r c => rg.contains r c = true) := by
  intro r c hp
  simp [Overwrite.ofBackground, hp]

/-- Batches that write to disjoint sets of cells can be applied in either order. -/
theorem apply_comm (w1 w2 : Overwrite) (P1 P2 : Nat → Nat → Prop) (h1 : w1.within P1)
    (h2 : w2.within P2) (hdisj : ∀ r c, ¬ (P1 r c ∧ P2 r c)) (sheet : Sheet) :
    w1.apply (w2.apply sheet) = w2.apply (w1.apply sheet) := by
  apply Sheet.ext_iff'
  · funext r c
    by_cases hp : P1 r c
    · have := (h2 r c (fun hq => hdisj r c ⟨hp, hq⟩)).1
      simp only [Overwrite.apply, this]
    · have := (h1 r c hp).1
      simp only [Overwrite.apply, this]
  · funext r c
    by_cases hp : P1 r c
    · have := (h2 r c (fun hq => hdisj r c ⟨hp, hq⟩)).2
      simp only [Overwrite.apply, this]
    · have := (h1 r c hp).2
      simp only [Overwrite.apply, this]

theorem columnWindow_apply (w : Overwrite) (sheet : Sheet) (rg : Range)
    (h : ∀ i, i < rg.numRows → w.cells (rg.row + i) rg.col = none) :
    columnWindow (w.apply sheet) rg = columnWindow sheet rg := by
  unfold columnWindow
  apply List.map_congr_left
  intro i hi
  rw [apply_value_of_none w sheet _ _ (h i (List.mem_range.1 hi))]

theorem rowWindow_apply (w : Overwrite) (sheet : Sheet) (rg : Range)
    (h : ∀ j, j < rg.numCols → w.cells rg.row (rg.col + j) = none) :
    rowWindow (w.apply sheet) rg = rowWindow sheet rg := by
  unfold rowWindow
  apply List.map_congr_left
  intro j hj
  rw [apply_value_of_none w sheet _ _ (h j (List.mem_range.1 hj))]

theorem firstMatch_lt (key : JSValue) : ∀ (cells : List JSValue) (k : Nat),
    firstMatch key cells = some k → k < cells.length := by
  intro cells k h
  obtain ⟨c, hc, _⟩ := firstMatch_some_iff key cells k h
  exact (List.getElem?_eq_some_iff.1 hc).1

/-! ## The ranges of the table layout -/

theorem getRangeA1_A34_A56 : getRangeA1 "A34:A56".toList = ⟨34, 1, 23, 1⟩ := by decide
theorem getRangeA1_G3_AC3 : getRangeA1 "G3:AC3".toList = ⟨3, 7, 1, 23⟩ := by decide
theorem getRangeA1_G24_AC24 : getRangeA1 "G24:AC24".toList = ⟨24, 7, 1, 23⟩ := by decide
theorem getRangeA1_G39_AC39 : getRangeA1 "G39:AC39".toList = ⟨39, 7, 1, 23⟩ := by decide
theorem getRangeA1_B62 : getRangeA1 "B62".toList = ⟨62, 2, 1, 1⟩ := by decide
theorem getRangeA1_C62 : getRangeA1 "C62".toList = ⟨62, 3, 1, 1⟩ := by decide
theorem getRangeA1_E62 : getRangeA1 "E62".toList = ⟨62, 5, 1, 1⟩ := by decide
theorem getRangeA1_F62 : getRangeA1 "F62".toList = ⟨62, 6, 1, 1⟩ := by decide
theorem getRangeA1_L62 : getRangeA1 "L62".toList = ⟨62, 12, 1, 1⟩ := by decide
theorem getRangeA1_M62 : getRangeA1 "M62".toList = ⟨62, 13, 1, 1⟩ := by decide

theorem contains_iff (rg : Range) (r c : Nat) :
    rg.contains r c = true ↔
      (rg.row ≤ r ∧ r < rg.row + rg.numRows ∧ rg.col ≤ c ∧ c < rg.col + rg.numCols) := by
  simp [Range.contains]

theorem inA1_B4_D26 (r c : Nat) : inA1 "B4:D26" r c ↔ (4 ≤ r ∧ r ≤ 26 ∧ 2 ≤ c ∧ c ≤ 4) := by
  have h : getRangeA1 "B4:D26".toList = ⟨4, 2, 23, 3⟩ := by decide
  rw [inA1, h, contains_iff]; simp only; omega

theorem inA1_B34_D56 (r c : Nat) : inA1 "B34:D56" r c ↔ (34 ≤ r ∧ r ≤ 56 ∧ 2 ≤ c ∧ c ≤ 4) := by
  have h : getRangeA1 "B34:D56".toList = ⟨34, 2, 23, 3⟩ := by decide
  rw [inA1, h, contains_iff]; simp only; omega

theorem inA1_G6_AC9 (r c : Nat) : inA1 "G6:AC9" r c ↔ (6 ≤ r ∧ r ≤ 9 ∧ 7 ≤ c ∧ c ≤ 29) := by
  have h : getRangeA1 "G6:AC9".toList = ⟨6, 7, 4, 23⟩ := by decide
  rw [inA1, h, contains_iff]; simp only; omega

theorem inA1_G25_AC26 (r c : Nat) :
    inA1 "G25:AC26" r c ↔ (25 ≤ r ∧ r ≤ 26 ∧ 7 ≤ c ∧ c ≤ 29) := by
  have h : getRangeA1 "G25:AC26".toList = ⟨25, 7, 2, 23⟩ := by decide
  rw [inA1, h, contains_iff]; simp only; omega

theorem inA1_G40_AC41 (r c : Nat) :
    inA1 "G40:AC41" r c ↔ (40 ≤ r ∧ r ≤ 41 ∧ 7 ≤ c ∧ c ≤ 29) := by
  have h : getRangeA1 "G40:AC41".toList = ⟨40, 7, 2, 23⟩ := by decide
  rw [inA1, h, contains_iff]; simp only; omega

theorem inA1_A4_A26 (r c : Nat) : inA1 "A4:A26" r c ↔ (4 ≤ r ∧ r ≤ 26 ∧ c = 1) := by
  rw [inA1, getRangeA1_A4_A26, contains_iff]; simp only; omega

theorem inA1_A34_A56 (r c : Nat) : inA1 "A34:A56" r c ↔ (34 ≤ r ∧ r ≤ 56 ∧ c = 1) := by
  rw [inA1, getRangeA1_A34_A56, contains_iff]; simp only; omega

theorem inA1_G3_AC3 (r c : Nat) : inA1 "G3:AC3" r c ↔ (r = 3 ∧ 7 ≤ c ∧ c ≤ 29) := by
  rw [inA1, getRangeA1_G3_AC3, contains_iff]; simp only; omega

theorem inA1_G24_AC24 (r c : Nat) : inA1 "G24:AC24" r c ↔ (r = 24 ∧ 7 ≤ c ∧ c ≤ 29) := by
  rw [inA1, getRangeA1_G24_AC24, contains_iff]; simp only; omega

theorem inA1_G39_AC39 (r c : Nat) : inA1 "G39:AC39" r c ↔ (r = 39 ∧ 7 ≤ c ∧ c ≤ 29) := by
  rw [inA1, getRangeA1_G39_AC39, contains_iff]; simp only; omega

theorem inA1_B62 (r c : Nat) : inA1 "B62" r c ↔ (r = 62 ∧ c = 2) := by
  rw [inA1, getRangeA1_B62, contains_iff]; simp only; omega

theorem inA1_C62 (r c : Nat) : inA1 "C62" r c ↔ (r = 62 ∧ c = 3) := by
  rw [inA1, getRangeA1_C62, contains_iff]; simp only; omega

theorem inA1_E62 (r c : Nat) : inA1 "E62" r c ↔ (r = 62 ∧ c = 5) := by
  rw [inA1, getRangeA1_E62, contains_iff]; simp only; omega

theorem inA1_F62 (r c : Nat) : inA1 "F62" r c ↔ (r = 62 ∧ c = 6) := by
  rw [inA1, getRangeA1_F62, contains_iff]; simp only; omega

theorem inA1_L62 (r c : Nat) : inA1 "L62" r c ↔ (r = 62 ∧ c = 12) := by
  rw [inA1, getRangeA1_L62, contains_iff]; simp only; omega

theorem inA1_M62 (r c : Nat) : inA1 "M62" r c ↔ (r = 62 ∧ c = 13) := by
  rw [inA1, getRangeA1_M62, contains_iff]; simp only; omega

/-! ## The rules as located batches -/

theorem updateVerticalRange_located (sheet : Sheet) (addr : JSString) (key : JSValue)
    (base : Nat) (cb : Nat → Sheet → Sheet) (writes : Nat → Overwrite)
    (hcb : ∀ row sh, cb row sh = (writes row).apply sh) :
    updateVerticalRange sheet addr key base cb sheet =
      (locatedInColumn sheet addr key base writes).apply sheet := by
  rw [updateVerticalRange_eq, locatedInColumn]
  cases firstMatch key (columnWindow sheet (getRangeA1 addr)) with
  | none => exact (apply_empty sheet).symm
  | some k => exact hcb _ _

theorem updateHorizontalRange_located (sheet : Sheet) (addr : JSString) (key : JSValue)
    (base : Nat) (cb : Nat → Sheet → Sheet) (writes : Nat → Overwrite)
    (hcb : ∀ col sh, cb col sh = (writes col).apply sh) :
    updateHorizontalRange sheet addr key base cb sheet =
      (locatedInRow sheet addr key base writes).apply sheet := by
  rw [updateHorizontalRange_eq, locatedInRow]
  cases firstMatch key (rowWindow sheet (getRangeA1 addr)) with
  | none => exact (apply_empty sheet).symm
  | some k => exact hcb _ _

theorem rule1_eq_apply (data : SprintRecord) (key : JSValue) (sheet : Sheet) :
    rule1 data key sheet =
      (locatedInColumn sheet "A4:A26".toList key 4 (rule1Writes data)).apply sheet := by
  unfold rule1
  apply updateVerticalRange_located
  intro row sh
  simp only [rule1Writes, apply_andThen, setValue_eq_apply, setBackground_eq_apply]

theorem rule2_eq_apply (data : SprintRecord) (key : JSValue) (sheet : Sheet) :
    rule2 data key sheet =
      (locatedInColumn sheet "A34:A56".toList key 34 (rule2Writes data)).apply sheet := by
  unfold rule2
  apply updateVerticalRange_located
  intro row sh
  simp only [rule2Writes, apply_andThen, setValue_eq_apply, setBackground_eq_apply]

theorem rule3_eq_apply (data : SprintRecord) (key : JSValue) (sheet : Sheet) :
    rule3 data key sheet =
      (locatedInRow sheet "G3:AC3".toList key 7 (rule3Writes data)).apply sheet := by
  unfold rule3
  apply updateHorizontalRange_located
  intro col sh
  simp only [rule3Writes, apply_andThen, setValue_eq_apply, setBackground_eq_apply]

theorem rule4_eq_apply (data : SprintRecord) (key : JSValue) (sheet : Sheet) :
    rule4 data key sheet =
      (locatedInRow sheet "G24:AC24".toList key 7 (rule4Writes data)).apply sheet := by
  unfold rule4
  apply updateHorizontalRange_located
  intro col sh
  simp only [rule4Writes, apply_andThen, setValue_eq_apply, setBackground_eq_apply]

theorem rule5_eq_apply (data : SprintRecord) (key : JSValue) (sheet : Sheet) :
    rule5 data key sheet =
      (locatedInRow sheet "G39:AC39".toList key 7 (rule5Writes data)).apply sheet := by
  unfold rule5
  apply updateHorizontalRange_located
  intro col sh
  simp only [rule5Writes, apply_andThen, setValue_eq_apply, setBackground_eq_apply]

theorem staticWrites_eq_apply (data : SprintRecord) (sheet : Sheet) :
    staticWrites data sheet = (staticOverwrite data).apply sheet := by
  simp only [staticWrites, staticOverwrite, apply_andThen, setValue_eq_apply]

/-! ## Where the rules write -/

theorem within_ofValue_cell (row col : Nat) (v : CellValue) (P : Nat → Nat → Prop)
    (h : P row col) : (Overwrite.ofValue (getRange row col) v).within P := by
  apply within_mono _ _ _ (within_ofValue _ _)
  intro r c hc
  rw [contains_iff] at hc
  simp only [getRange] at hc
  have hr : r = row := by omega
  have hc1 : c = col := by omega
  rw [hr, hc1]
  exact h

theorem rule1Writes_within (data : SprintRecord) (row : Nat) :
    (rule1Writes data row).within (fun r c => r = row ∧ 2 ≤ c ∧ c ≤ 4) := by
  unfold rule1Writes
  refine within_andThen _ _ _ (within_andThen _ _ _ (within_andThen _ _ _ ?_ ?_) ?_) ?_
  · exact within_ofValue_cell _ _ _ _ ⟨rfl, by omega, by omega⟩
  · exact within_ofValue_cell _ _ _ _ ⟨rfl, by omega, by omega⟩
  · exact within_ofValue_cell _ _ _ _ ⟨rfl, by omega, by omega⟩
  · apply within_mono _ _ _ (within_ofBackground _ _)
    intro r c hc
    rw [contains_iff] at hc
    simp only [getRangeRect] at hc
    omega

theorem rule2Writes_within (data : SprintRecord) (row : Nat) :
    (rule2Writes data row).within (fun r c => r = row ∧ 2 ≤ c ∧ c ≤ 4) := by
  unfold rule2Writes
  refine within_andThen _ _ _ (within_andThen _ _ _ (within_andThen _ _ _ ?_ ?_) ?_) ?_
  · exact within_ofValue_cell _ _ _ _ ⟨rfl, by omega, by omega⟩
  · exact within_ofValue_cell _ _ _ _ ⟨rfl, by omega, by omega⟩
  · exact within_ofValue_cell _ _ _ _ ⟨rfl, by omega, by omega⟩
  · apply within_mono _ _ _ (within_ofBackground _ _)
    intro r c hc
    rw [contains_iff] at hc
    simp only [getRangeRect] at hc
    omega

theorem rule3Writes_within (data : SprintRecord) (col : Nat) :
    (rule3Writes data col).within (fun r c => c = col ∧ 6 ≤ r ∧ r ≤ 9) := by
  unfold rule3Writes
  refine within_andThen _ _ _ (within_andThen _ _ _ (within_andThen _ _ _
    (within_andThen _ _ _ ?_ ?_) ?_) ?_) ?_
  · exact within_ofValue_cell _ _ _ _ ⟨rfl, by omega, by omega⟩
  · exact within_ofValue_cell _ _ _ _ ⟨rfl, by omega, by omega⟩
  · exact within_ofValue_cell _ _ _ _ ⟨rfl, by omega, by omega⟩
  · exact within_ofValue_cell _ _ _ _ ⟨rfl, by omega, by omega⟩
  · apply within_mono _ _ _ (within_ofBackground _ _)
    intro r c hc
    rw [contains_iff] at hc
    simp only [getRangeRect] at hc
    omega

theorem rule4Writes_within (data : SprintRecord) (col : Nat) :
    (rule4Writes data col).within (fun r c => c = col ∧ 25 ≤ r ∧ r ≤ 26) := by
  unfold rule4Writes
  refine within_andThen _ _ _ (within_andThen _ _ _ ?_ ?_) ?_
  · exact within_ofValue_cell _ _ _ _ ⟨rfl, by omega, by omega⟩
  · exact within_ofValue_cell _ _ _ _ ⟨rfl, by omega, by omega⟩
  · apply within_mono _ _ _ (within_ofBackground _ _)
    intro r c hc
    rw [contains_iff] at hc
    simp only [getRangeRect] at hc
    omega

theorem rule5Writes_within (data : SprintRecord) (col : Nat) :
    (rule5Writes data col).within (fun r c => c = col ∧ 40 ≤ r ∧ r ≤ 41) := by
  unfold rule5Writes
  refine within_andThen _ _ _ (within_andThen _ _ _ ?_ ?_) ?_
  · exact within_ofValue_cell _ _ _ _ ⟨rfl, by omega, by omega⟩
  · exact within_ofValue_cell _ _ _ _ ⟨rfl, by omega, by omega⟩
  · apply within_mono _ _ _ (within_ofBackground _ _)
    intro r c hc
    rw [contains_iff] at hc
    simp only [getRangeRect] at hc
    omega

theorem within_ofValue_A1 (a1 : String) (v : CellValue) :
    (Overwrite.ofValue (getRangeA1 a1.toList) v).within (inA1 a1) :=
  within_ofValue _ _

theorem staticOverwrite_within (data : SprintRecord) :
    (staticOverwrite data).within StaticCell := by
  unfold staticOverwrite
  refine within_andThen _ _ _ (within_andThen _ _ _ (within_andThen _ _ _
    (within_andThen _ _ _ (within_andThen _ _ _ ?_ ?_) ?_) ?_) ?_) ?_
  · exact within_mono _ _ _ (within_ofValue_A1 "B62" _) (fun r c h => by simp [StaticCell, h])
  · exact within_mono _ _ _ (within_ofValue_A1 "C62" _) (fun r c h => by simp [StaticCell, h])
  · exact within_mono _ _ _ (within_ofValue_A1 "E62" _) (fun r c h => by simp [StaticCell, h])
  · exact within_mono _ _ _ (within_ofValue_A1 "F62" _) (fun r c h => by simp [StaticCell, h])
  · exact within_mono _ _ _ (within_ofValue_A1 "L62" _) (fun r c h => by simp [StaticCell, h])
  · exact within_mono _ _ _ (within_ofValue_A1 "M62" _) (fun r c h => by simp [StaticCell, h])

theorem length_columnWindow (sheet : Sheet) (rg : Range) :
    (columnWindow sheet rg).length = rg.numRows := by
  simp [columnWindow]

theorem length_rowWindow (sheet : Sheet) (rg : Range) :
    (rowWindow sheet rg).length = rg.numCols := by
  simp [rowWindow]

theorem locatedInColumn_within (sheet : Sheet) (addr : JSString) (key : JSValue) (base : Nat)
    (writes : Nat → Overwrite) (P : Nat → Nat → Prop)
    (h : ∀ k, k < (getRangeA1 addr).numRows → (writes (base + k)).within P) :
    (locatedInColumn sheet addr key base writes).within P := by
  unfold locatedInColumn
  cases hm : firstMatch key (columnWindow sheet (getRangeA1 addr)) with
  | none => exact within_empty P
  | some k =>
    have := firstMatch_lt key _ k hm
    rw [length_columnWindow] at this
    exact h k this

theorem locatedInRow_within (sheet : Sheet) (addr : JSString) (key : JSValue) (base : Nat)
    (writes : Nat → Overwrite) (P : Nat → Nat → Prop)
    (h : ∀ k, k < (getRangeA1 addr).numCols → (writes (base + k)).within P) :
    (locatedInRow sheet addr key base writes).within P := by
  unfold locatedInRow
  cases hm : firstMatch key (rowWindow sheet (getRangeA1 addr)) with
  | none => exact within_empty P
  | some k =>
    have := firstMatch_lt key _ k hm
    rw [length_rowWindow] at this
    exact h k this

theorem located1_within (data : SprintRecord) (key : JSValue) (sheet : Sheet) :
    (locatedInColumn sheet "A4:A26".toList key 4 (rule1Writes data)).within (inA1 "B4:D26") := by
  apply locatedInColumn_within
  intro k hk
  rw [getRangeA1_A4_A26] at hk
  simp only at hk
  apply within_mono _ _ _ (rule1Writes_within data (4 + k))
  intro r c h
  rw [inA1_B4_D26]
  omega

theorem located2_within (data : SprintRecord) (key : JSValue) (sheet : Sheet) :
    (locatedInColumn sheet "A34:A56".toList key 34 (rule2Writes data)).within
      (inA1 "B34:D56") := by
  apply locatedInColumn_within
  intro k hk
  rw [getRangeA1_A34_A56] at hk
  simp only at hk
  apply within_mono _ _ _ (rule2Writes_within data (34 + k))
  intro r c h
  rw [inA1_B34_D56]
  omega

theorem located3_within (data : SprintRecord) (key : JSValue) (sheet : Sheet) :
    (locatedInRow sheet "G3:AC3".toList key 7 (rule3Writes data)).within (inA1 "G6:AC9") := by
  apply locatedInRow_within
  intro k hk
  rw [getRangeA1_G3_AC3] at hk
  simp only at hk
  apply within_mono _ _ _ (rule3Writes_within data (7 + k))
  intro r c h
  rw [inA1_G6_AC9]
  omega

theorem located4_within (data : SprintRecord) (key : JSValue) (sheet : Sheet) :
    (locatedInRow sheet "G24:AC24".toList key 7 (rule4Writes data)).within
      (inA1 "G25:AC26") := by
  apply locatedInRow_within
  intro k hk
  rw [getRangeA1_G24_AC24] at hk
  simp only at hk
  apply within_mono _ _ _ (rule4Writes_within data (7 + k))
  intro r c h
  rw [inA1_G25_AC26]
  omega

theorem located5_within (data : SprintRecord) (key : JSValue) (sheet : Sheet) :
    (locatedInRow sheet "G39:AC39".toList key 7 (rule5Writes data)).within
      (inA1 "G40:AC41") := by
  apply locatedInRow_within
  intro k hk
  rw [getRangeA1_G39_AC39] at hk
  simp only at hk
  apply within_mono _ _ _ (rule5Writes_within data (7 + k))
  intro r c h
  rw [inA1_G40_AC41]
  omega

/-- No writable cell belongs to a lookup window. -/
theorem not_inWindow_of_writable (r c : Nat) (h : Writable r c) : ¬ InWindow r c := by
  unfold Writable RuleRegion StaticCell at h
  unfold InWindow
  rw [inA1_B4_D26, inA1_B34_D56, inA1_G6_AC9, inA1_G25_AC26, inA1_G40_AC41, inA1_B62, inA1_C62,
    inA1_E62, inA1_F62, inA1_L62, inA1_M62] at h
  rw [inA1_A4_A26, inA1_A34_A56, inA1_G3_AC3, inA1_G24_AC24, inA1_G39_AC39]
  omega

theorem cells_none_of_within (w : Overwrite) (h : w.within Writable) (r c : Nat)
    (hw : InWindow r c) : w.cells r c = none :=
  (h r c (fun hwr => not_inWindow_of_writable r c hwr hw)).1

theorem locatedInColumn_apply (w : Overwrite) (sheet : Sheet) (addr : JSString) (key : JSValue)
    (base : Nat) (writes : Nat → Overwrite)
    (h : ∀ i, i < (getRangeA1 addr).numRows →
      w.cells ((getRangeA1 addr).row + i) (getRangeA1 addr).col = none) :
    locatedInColumn (w.apply sheet) addr key base writes =
      locatedInColumn sheet addr key base writes := by
  unfold locatedInColumn
  rw [columnWindow_apply w sheet _ h]

theorem locatedInRow_apply (w : Overwrite) (sheet : Sheet) (addr : JSString) (key : JSValue)
    (base : Nat) (writes : Nat → Overwrite)
    (h : ∀ j, j < (getRangeA1 addr).numCols →
      w.cells (getRangeA1 addr).row ((getRangeA1 addr).col + j) = none) :
    locatedInRow (w.apply sheet) addr key base writes =
      locatedInRow sheet addr key base writes := by
  unfold locatedInRow
  rw [rowWindow_apply w sheet _ h]

theorem located1_apply (w : Overwrite) (h : w.within Writable) (data : SprintRecord)
    (key : JSValue) (sheet : Sheet) :
    locatedInColumn (w.apply sheet) "A4:A26".toList key 4 (rule1Writes data) =
      locatedInColumn sheet "A4:A26".toList key 4 (rule1Writes data) := by
  apply locatedInColumn_apply
  intro i hi
  rw [getRangeA1_A4_A26] at hi ⊢
  simp only at hi ⊢
  exact cells_none_of_within w h _ _ (Or.inl ((inA1_A4_A26 _ _).2 (by omega)))

theorem located2_apply (w : Overwrite) (h : w.within Writable) (data : SprintRecord)
    (key : JSValue) (sheet : Sheet) :
    locatedInColumn (w.apply sheet) "A34:A56".toList key 34 (rule2Writes data) =
      locatedInColumn sheet "A34:A56".toList key 34 (rule2Writes data) := by
  apply locatedInColumn_apply
  intro i hi
  rw [getRangeA1_A34_A56] at hi ⊢
  simp only at hi ⊢
  exact cells_none_of_within w h _ _ (Or.inr (Or.inl ((inA1_A34_A56 _ _).2 (by omega))))

theorem located3_apply (w : Overwrite) (h : w.within Writable) (data : SprintRecord)
    (key : JSValue) (sheet : Sheet) :
    locatedInRow (w.apply sheet) "G3:AC3".toList key 7 (rule3Writes data) =
      locatedInRow sheet "G3:AC3".toList key 7 (rule3Writes data) := by
  apply locatedInRow_apply
  intro i hi
  rw [getRangeA1_G3_AC3] at hi ⊢
  simp only at hi ⊢
  exact cells_none_of_within w h _ _
    (Or.inr (Or.inr (Or.inl ((inA1_G3_AC3 _ _).2 (by omega)))))

theorem located4_apply (w : Overwrite) (h : w.within Writable) (data : SprintRecord)
    (key : JSValue) (sheet : Sheet) :
    locatedInRow (w.apply sheet) "G24:AC24".toList key 7 (rule4Writes data) =
      locatedInRow sheet "G24:AC24".toList key 7 (rule4Writes data) := by
  apply locatedInRow_apply
  intro i hi
  rw [getRangeA1_G24_AC24] at hi ⊢
  simp only at hi ⊢
  exact cells_none_of_within w h _ _
    (Or.inr (Or.inr (Or.inr (Or.inl ((inA1_G24_AC24 _ _).2 (by omega))))))

theorem located5_apply (w : Overwrite) (h : w.within Writable) (data : SprintRecord)
    (key : JSValue) (sheet : Sheet) :
    locatedInRow (w.apply sheet) "G39:AC39".toList key 7 (rule5Writes data) =
      locatedInRow sheet "G39:AC39".toList key 7 (rule5Writes data) := by
  apply locatedInRow_apply
  intro i hi
  rw [getRangeA1_G39_AC39] at hi ⊢
  simp only at hi ⊢
  exact cells_none_of_within w h _ _
    (Or.inr (Or.inr (Or.inr (Or.inr ((inA1_G39_AC39 _ _).2 (by omega))))))

/-! ## `processData` as one batch of writes -/

theorem ruleRegion_writable (r c : Nat) (h : RuleRegion r c) : Writable r c := Or.inl h

theorem located1_ruleRegion (data : SprintRecord) (key : JSValue) (sheet : Sheet) :
    (locatedInColumn sheet "A4:A26".toList key 4 (rule1Writes data)).within RuleRegion :=
  within_mono _ _ _ (located1_within data key sheet) (fun _ _ h => Or.inl h)

theorem located2_ruleRegion (data : SprintRecord) (key : JSValue) (sheet : Sheet) :
    (locatedInColumn sheet "A34:A56".toList key 34 (rule2Writes data)).within RuleRegion :=
  within_mono _ _ _ (located2_within data key sheet) (fun _ _ h => Or.inr (Or.inl h))

theorem located3_ruleRegion (data : SprintRecord) (key : JSValue) (sheet : Sheet) :
    (locatedInRow sheet "G3:AC3".toList key 7 (rule3Writes data)).within RuleRegion :=
  within_mono _ _ _ (located3_within data key sheet) (fun _ _ h => Or.inr (Or.inr (Or.inl h)))

theorem located4_ruleRegion (data : SprintRecord) (key : JSValue) (sheet : Sheet) :
    (locatedInRow sheet "G24:AC24".toList key 7 (rule4Writes data)).within RuleRegion :=
  within_mono _ _ _ (located4_within data key sheet)
    (fun _ _ h => Or.inr (Or.inr (Or.inr (Or.inl h))))

theorem located5_ruleRegion (data : SprintRecord) (key : JSValue) (sheet : Sheet) :
    (locatedInRow sheet "G39:AC39".toList key 7 (rule5Writes data)).within RuleRegion :=
  within_mono _ _ _ (located5_within data key sheet)
    (fun _ _ h => Or.inr (Or.inr (Or.inr (Or.inr h))))

theorem rulesPlan_within (data : SprintRecord) (key : JSValue) (sheet : Sheet) :
    (rulesPlan data key sheet).within RuleRegion := by
  unfold rulesPlan
  exact within_andThen _ _ _ (within_andThen _ _ _ (within_andThen _ _ _ (within_andThen _ _ _
    (located1_ruleRegion data key sheet) (located2_ruleRegion data key sheet))
    (located3_ruleRegion data key sheet)) (located4_ruleRegion data key sheet))
    (located5_ruleRegion data key sheet)

theorem plan_within (data : SprintRecord) (key : JSValue) (sheet : Sheet) :
    (plan data key sheet).within Writable := by
  unfold plan
  exact within_andThen _ _ _
    (within_mono _ _ _ (rulesPlan_within data key sheet) (fun _ _ h => Or.inl h))
    (within_mono _ _ _ (staticOverwrite_within data) (fun _ _ h => Or.inr h))

/-- The five rules in declaration order perform the batch `rulesPlan`. -/
theorem rules_eq_apply (data : SprintRecord) (key : JSValue) (sheet : Sheet) :
    rule5 data key (rule4 data key (rule3 data key (rule2 data key (rule1 data key sheet)))) =
      (rulesPlan data key sheet).apply sheet := by
  have w1 := within_mono _ _ _ (located1_ruleRegion data key sheet) ruleRegion_writable
  have w2 := within_mono _ _ _ (located2_ruleRegion data key sheet) ruleRegion_writable
  have w3 := within_mono _ _ _ (located3_ruleRegion data key sheet) ruleRegion_writable
  have w4 := within_mono _ _ _ (located4_ruleRegion data key sheet) ruleRegion_writable
  have w12 := within_andThen _ _ _ w1 w2
  have w123 := within_andThen _ _ _ w12 w3
  have w1234 := within_andThen _ _ _ w123 w4
  rw [rule1_eq_apply, rule2_eq_apply, located2_apply _ w1, ← apply_andThen,
    rule3_eq_apply, located3_apply _ w12, ← apply_andThen,
    rule4_eq_apply, located4_apply _ w123, ← apply_andThen,
    rule5_eq_apply, located5_apply _ w1234, ← apply_andThen]
  rfl

/-- The writes of a successful `processData` perform the batch `plan`. -/
theorem allWrites_eq_apply (data : SprintRecord) (key : JSValue) (sheet : Sheet) :
    staticWrites data (rule5 data key (rule4 data key (rule3 data key (rule2 data key
      (rule1 data key sheet))))) = (plan data key sheet).apply sheet := by
  rw [rules_eq_apply, staticWrites_eq_apply, ← apply_andThen]
  rfl

/-- The batch of a sheet does not change when writable cells of the sheet are overwritten. -/
theorem plan_apply (w : Overwrite) (h : w.within Writable) (data : SprintRecord)
    (key : JSValue) (sheet : Sheet) :
    plan data key (w.apply sheet) = plan data key sheet := by
  unfold plan rulesPlan
  rw [located1_apply w h, located2_apply w h, located3_apply w h, located4_apply w h,
    located5_apply w h]

theorem processData_eq_plan (store : Store) (data : SprintRecord) (k : JSString)
    (sheet : Sheet) (h : getSprintKey data.sprintNameValue = some k)
    (hs : store.getSheetByName "Team Stats" = some sheet) :
    processData store data =
      (createResponse "success" ("Updated stats for ".toList ++ k),
       store.withSheet "Team Stats" ((plan data (JSValue.string k) sheet).apply sheet)) := by
  rw [processData_of_sheet store data k sheet h hs, allWrites_eq_apply]

/-- C13: `processData` is idempotent on the store: running it a second time with the same record
on the store left by the first run leaves that store as it is, values and backgrounds. -/
theorem processData_idempotent (store : Store) (data : SprintRecord) :
    (processData (processData store data).2 data).2 = (processData store data).2 := by
  cases hk : getSprintKey data.sprintNameValue with
  | none =>
    rw [processData_of_null store data hk]
    simp only
    rw [processData_of_null store data hk]
  | some k =>
    cases hs : store.getSheetByName "Team Stats" with
    | none =>
      rw [processData_of_no_sheet store data k hk hs]
      simp only
      rw [processData_of_no_sheet store data k hk hs]
    | some sheet =>
      rw [processData_eq_plan store data k sheet hk hs]
      simp only
      rw [processData_eq_plan (store.withSheet "Team Stats"
        ((plan data (JSValue.string k) sheet).apply sheet)) data k
        ((plan data (JSValue.string k) sheet).apply sheet) hk (by
          simp [Store.getSheetByName, Store.withSheet])]
      simp only
      rw [plan_apply _ (plan_within data _ sheet), apply_apply]
      funext n
      simp only [Store.withSheet]
      split <;> rfl

/-! ## Hits and misses of the rules -/

theorem locatedInColumn_hit (sheet : Sheet) (addr : JSString) (key : JSValue)
    (writes : Nat → Overwrite) (r : Nat)
    (hlo : (getRangeA1 addr).row ≤ r) (hhi : r < (getRangeA1 addr).row + (getRangeA1 addr).numRows)
    (hhit : looseEq (sheet.value r (getRangeA1 addr).col).toJS key = true)
    (hfirst : ∀ r1, (getRangeA1 addr).row ≤ r1 → r1 < r →
      looseEq (sheet.value r1 (getRangeA1 addr).col).toJS key = false) :
    locatedInColumn sheet addr key (getRangeA1 addr).row writes = writes r := by
  unfold locatedInColumn
  rw [firstMatch_eq_some key _ (r - (getRangeA1 addr).row)
    (sheet.value r (getRangeA1 addr).col).toJS
      (by rw [columnWindow_getElem? _ _ _ (by omega)]; congr 3; omega) hhit (by
        intro j c1 hj hc1
        obtain ⟨hj1, rfl⟩ := columnWindow_getElem?_lt _ _ _ _ hc1
        exact hfirst _ (by omega) (by omega))]
  simp only
  congr 1
  omega

theorem locatedInRow_hit (sheet : Sheet) (addr : JSString) (key : JSValue)
    (writes : Nat → Overwrite) (c : Nat)
    (hlo : (getRangeA1 addr).col ≤ c) (hhi : c < (getRangeA1 addr).col + (getRangeA1 addr).numCols)
    (hhit : looseEq (sheet.value (getRangeA1 addr).row c).toJS key = true)
    (hfirst : ∀ c1, (getRangeA1 addr).col ≤ c1 → c1 < c →
      looseEq (sheet.value (getRangeA1 addr).row c1).toJS key = false) :
    locatedInRow sheet addr key (getRangeA1 addr).col writes = writes c := by
  unfold locatedInRow
  rw [firstMatch_eq_some key _ (c - (getRangeA1 addr).col)
    (sheet.value (getRangeA1 addr).row c).toJS
      (by rw [rowWindow_getElem? _ _ _ (by omega)]; congr 3; omega) hhit (by
        intro j c1 hj hc1
        obtain ⟨hj1, rfl⟩ := rowWindow_getElem?_lt _ _ _ _ hc1
        exact hfirst _ (by omega) (by omega))]
  simp only
  congr 1
  omega

theorem locatedInColumn_miss (sheet : Sheet) (addr : JSString) (key : JSValue) (base : Nat)
    (writes : Nat → Overwrite)
    (h : ∀ r, (getRangeA1 addr).row ≤ r → r < (getRangeA1 addr).row + (getRangeA1 addr).numRows →
      looseEq (sheet.value r (getRangeA1 addr).col).toJS key = false) :
    locatedInColumn sheet addr key base writes = Overwrite.empty := by
  unfold locatedInColumn
  rw [firstMatch_eq_none]
  intro c hc
  simp only [columnWindow, List.mem_map, List.mem_range] at hc
  obtain ⟨i, hi, rfl⟩ := hc
  exact h _ (by omega) (by omega)

theorem locatedInRow_miss (sheet : Sheet) (addr : JSString) (key : JSValue) (base : Nat)
    (writes : Nat → Overwrite)
    (h : ∀ c, (getRangeA1 addr).col ≤ c → c < (getRangeA1 addr).col + (getRangeA1 addr).numCols →
      looseEq (sheet.value (getRangeA1 addr).row c).toJS key = false) :
    locatedInRow sheet addr key base writes = Overwrite.empty := by
  unfold locatedInRow
  rw [firstMatch_eq_none]
  intro c hc
  simp only [rowWindow, List.mem_map, List.mem_range] at hc
  obtain ⟨i, hi, rfl⟩ := hc
  exact h _ (by omega) (by omega)

theorem rule1_of_first (data : SprintRecord) (key : JSValue) (sheet : Sheet) (r : Nat)
    (h : FirstInColumn sheet key 4 26 r) :
    rule1 data key sheet = (rule1Writes data r).apply sheet := by
  obtain ⟨hlo, hhi, hhit, hfirst⟩ := h
  have := locatedInColumn_hit sheet "A4:A26".toList key (rule1Writes data) r
    (by rw [getRangeA1_A4_A26]; exact hlo) (by rw [getRangeA1_A4_A26]; simp only; omega)
    (by rw [getRangeA1_A4_A26]; exact hhit) (by rw [getRangeA1_A4_A26]; exact hfirst)
  rw [getRangeA1_A4_A26] at this
  rw [rule1_eq_apply, this]

theorem rule2_of_first (data : SprintRecord) (key : JSValue) (sheet : Sheet) (r : Nat)
    (h : FirstInColumn sheet key 34 56 r) :
    rule2 data key sheet = (rule2Writes data r).apply sheet := by
  obtain ⟨hlo, hhi, hhit, hfirst⟩ := h
  have := locatedInColumn_hit sheet "A34:A56".toList key (rule2Writes data) r
    (by rw [getRangeA1_A34_A56]; exact hlo) (by rw [getRangeA1_A34_A56]; simp only; omega)
    (by rw [getRangeA1_A34_A56]; exact hhit) (by rw [getRangeA1_A34_A56]; exact hfirst)
  rw [getRangeA1_A34_A56] at this
  rw [rule2_eq_apply, this]

theorem rule3_of_first (data : SprintRecord) (key : JSValue) (sheet : Sheet) (c : Nat)
    (h : FirstInRow sheet key 3 c) :
    rule3 data key sheet = (rule3Writes data c).apply sheet := by
  obtain ⟨hlo, hhi, hhit, hfirst⟩ := h
  have := locatedInRow_hit sheet "G3:AC3".toList key (rule3Writes data) c
    (by rw [getRangeA1_G3_AC3]; exact hlo) (by rw [getRangeA1_G3_AC3]; simp only; omega)
    (by rw [getRangeA1_G3_AC3]; exact hhit) (by rw [getRangeA1_G3_AC3]; exact hfirst)
  rw [getRangeA1_G3_AC3] at this
  rw [rule3_eq_apply, this]

theorem rule4_of_first (data : SprintRecord) (key : JSValue) (sheet : Sheet) (c : Nat)
    (h : FirstInRow sheet key 24 c) :
    rule4 data key sheet = (rule4Writes data c).apply sheet := by
  obtain ⟨hlo, hhi, hhit, hfirst⟩ := h
  have := locatedInRow_hit sheet "G24:AC24".toList key (rule4Writes data) c
    (by rw [getRangeA1_G24_AC24]; exact hlo) (by rw [getRangeA1_G24_AC24]; simp only; omega)
    (by rw [getRangeA1_G24_AC24]; exact hhit) (by rw [getRangeA1_G24_AC24]; exact hfirst)
  rw [getRangeA1_G24_AC24] at this
  rw [rule4_eq_apply, this]

theorem rule5_of_first (data : SprintRecord) (key : JSValue) (sheet : Sheet) (c : Nat)
    (h : FirstInRow sheet key 39 c) :
    rule5 data key sheet = (rule5Writes data c).apply sheet := by
  obtain ⟨hlo, hhi, hhit, hfirst⟩ := h
  have := locatedInRow_hit sheet "G39:AC39".toList key (rule5Writes data) c
    (by rw [getRangeA1_G39_AC39]; exact hlo) (by rw [getRangeA1_G39_AC39]; simp only; omega)
    (by rw [getRangeA1_G39_AC39]; exact hhit) (by rw [getRangeA1_G39_AC39]; exact hfirst)
  rw [getRangeA1_G39_AC39] at this
  rw [rule5_eq_apply, this]

/-! ## What the batches of the rules hold -/

theorem rule1Writes_cells (data : SprintRecord) (row : Nat) :
    (rule1Writes data row).cells row 2 = some (CellValue.number data.completedUnplanned) ∧
      (rule1Writes data row).cells row 3 = some (CellValue.number data.completedPlanned) ∧
      (rule1Writes data row).cells row 4 = some (CellValue.number data.velocity) := by
  simp [rule1Writes, Overwrite.andThen, Overwrite.ofValue, Overwrite.ofBackground, getRange,
    Range.contains]

theorem rule2Writes_cells (data : SprintRecord) (row : Nat) :
    (rule2Writes data row).cells row 2 = some (CellValue.number data.completedTasks) ∧
      (rule2Writes data row).cells row 3 = some (CellValue.number data.incompleteTasks) ∧
      (rule2Writes data row).cells row 4 = some (CellValue.number (divideBy data.carryover 100)) := by
  simp [rule2Writes, Overwrite.andThen, Overwrite.ofValue, Overwrite.ofBackground, getRange,
    Range.contains]

theorem rule3Writes_cells (data : SprintRecord) (col : Nat) :
    (rule3Writes data col).cells 6 col = some (CellValue.number (divideBy data.plannedPct 100)) ∧
      (rule3Writes data col).cells 7 col
        = some (CellValue.number (divideBy data.plannedCompletionPct 100)) ∧
      (rule3Writes data col).cells 8 col
        = some (CellValue.number (divideBy data.unplannedCompletionPct 100)) ∧
      (rule3Writes data col).cells 9 col
        = some (CellValue.number (divideBy data.totalCompletionPct 100)) := by
  simp [rule3Writes, Overwrite.andThen, Overwrite.ofValue, Overwrite.ofBackground, getRange,
    Range.contains]

theorem rule4Writes_cells (data : SprintRecord) (col : Nat) :
    (rule4Writes data col).cells 25 col
        = some (CellValue.number (divideBy data.taskCompletionPct 100)) ∧
      (rule4Writes data col).cells 26 col
        = some (CellValue.number (divideBy data.totalCompletionPct 100)) := by
  simp [rule4Writes, Overwrite.andThen, Overwrite.ofValue, Overwrite.ofBackground, getRange,
    Range.contains]

theorem rule5Writes_cells (data : SprintRecord) (col : Nat) :
    (rule5Writes data col).cells 40 col = some (CellValue.number data.bugsIn) ∧
      (rule5Writes data col).cells 41 col = some (CellValue.number data.bugsOut) := by
  simp [rule5Writes, Overwrite.andThen, Overwrite.ofValue, Overwrite.ofBackground, getRange,
    Range.contains]

theorem staticOverwrite_cells (data : SprintRecord) :
    (staticOverwrite data).cells 62 2 = some (CellValue.number data.plannedSP) ∧
      (staticOverwrite data).cells 62 3 = some (CellValue.number data.completedPlanned) ∧
      (staticOverwrite data).cells 62 5 = some (CellValue.number data.unplannedSP) ∧
      (staticOverwrite data).cells 62 6 = some (CellValue.number data.completedUnplanned) ∧
      (staticOverwrite data).cells 62 12 = some (CellValue.number data.bugsIn) ∧
      (staticOverwrite data).cells 62 13 = some (CellValue.number data.bugsOut) := by
  simp only [staticOverwrite, getRangeA1_B62, getRangeA1_C62, getRangeA1_E62, getRangeA1_F62,
    getRangeA1_L62, getRangeA1_M62]
  simp [Overwrite.andThen, Overwrite.ofValue, Range.contains]

theorem staticOverwrite_colours (data : SprintRecord) (r c : Nat) :
    (staticOverwrite data).colours r c = none := by
  simp [staticOverwrite, Overwrite.andThen, Overwrite.ofValue]

theorem rule1Writes_colours (data : SprintRecord) (row c : Nat) (h2 : 2 ≤ c) (h4 : c ≤ 4) :
    (rule1Writes data row).colours row c = some highlight := by
  have : (getRangeRect row 2 1 3).contains row c = true := by
    rw [contains_iff]; simp only [getRangeRect]; omega
  simp [rule1Writes, Overwrite.andThen, Overwrite.ofValue, Overwrite.ofBackground, this]

theorem rule2Writes_colours (data : SprintRecord) (row c : Nat) (h2 : 2 ≤ c) (h4 : c ≤ 4) :
    (rule2Writes data row).colours row c = some highlight := by
  have : (getRangeRect row 2 1 3).contains row c = true := by
    rw [contains_iff]; simp only [getRangeRect]; omega
  simp [rule2Writes, Overwrite.andThen, Overwrite.ofValue, Overwrite.ofBackground, this]

theorem rule3Writes_colours (data : SprintRecord) (col r : Nat) (h6 : 6 ≤ r) (h9 : r ≤ 9) :
    (rule3Writes data col).colours r col = some highlight := by
  have : (getRangeRect 6 col 4 1).contains r col = true := by
    rw [contains_iff]; simp only [getRangeRect]; omega
  simp [rule3Writes, Overwrite.andThen, Overwrite.ofValue, Overwrite.ofBackground, this]

theorem rule4Writes_colours (data : SprintRecord) (col r : Nat) (h1 : 25 ≤ r) (h2 : r ≤ 26) :
    (rule4Writes data col).colours r col = some highlight := by
  have : (getRangeRect 25 col 2 1).contains r col = true := by
    rw [contains_iff]; simp only [getRangeRect]; omega
  simp [rule4Writes, Overwrite.andThen, Overwrite.ofValue, Overwrite.ofBackground, this]

theorem rule5Writes_colours (data : SprintRecord) (col r : Nat) (h1 : 40 ≤ r) (h2 : r ≤ 41) :
    (rule5Writes data col).colours r col = some highlight := by
  have : (getRangeRect 40 col 2 1).contains r col = true := by
    rw [contains_iff]; simp only [getRangeRect]; omega
  simp [rule5Writes, Overwrite.andThen, Overwrite.ofValue, Overwrite.ofBackground, this]

/-! ## Claims about the values written -/

theorem num_fractional :
    ((2343279181116211 : ℚ) / 70368744177664).num = 2343279181116211 := by
  have h := Rat.num_div_eq_of_coprime (a := 2343279181116211) (b := 70368744177664)
    (by norm_num) (by norm_num)
  simpa using h

theorem den_fractional :
    ((2343279181116211 : ℚ) / 70368744177664).den = 70368744177664 := by
  have h := Rat.den_div_eq_of_coprime (a := 2343279181116211) (b := 70368744177664)
    (by norm_num) (by norm_num)
  have h2 : (((2343279181116211 : ℚ) / 70368744177664).den : ℤ) = 70368744177664 := by
    simpa using h
  exact_mod_cast h2

/-- The Number 33.3 divided by 100 is the double `1499698675914375 / 2^52`, which prints as
0.33299999999999996. -/
theorem divideBy_fractional :
    divideBy ((2343279181116211 : ℚ) / 70368744177664) 100
      = 1499698675914375 / 4503599627370496 := by
  have h : roundRatio (Int.natAbs 2343279181116211) (70368744177664 * 100)
      = some (5998794703657500, -54) := by decide
  unfold divideBy
  rw [num_fractional, den_fractional, h]
  norm_num [doubleValue]

/-- The Number 50 divided by 100 is one half. -/
theorem divideBy_fifty : divideBy (50 : ℚ) 100 = 1 / 2 := by
  have h : roundRatio (Int.natAbs 50) (1 * 100) = some (4503599627370496, -53) := by decide
  unfold divideBy
  rw [Rat.num_ofNat, Rat.den_ofNat, h]
  norm_num [doubleValue]

theorem layoutSheet_first_40 :
    FirstInColumn layoutSheet (JSValue.string "IR07".toList) 34 56 40 :=
  ⟨by decide, by decide, by decide, fun r1 h1 h2 => by interval_cases r1 <;> decide⟩

/-- C11 (counterexample): with `carryover` the Number 33.3 (what the text `33.3` denotes), rule
2 stores at (40, 4) the double `1499698675914375 / 2^52` (0.33299999999999996).  That is not the
exact quotient of the supplied number by 100, and it is not even the Number 0.333, the double
nearest to 333/1000. -/
theorem stored_quotient_rounded :
    stringToNumber "33.3".toList = some fractionalRecord.carryover ∧
      (rule2 fractionalRecord (JSValue.string "IR07".toList) layoutSheet).value 40 4
        = CellValue.number (1499698675914375 / 4503599627370496) ∧
      (1499698675914375 / 4503599627370496 : ℚ) ≠ fractionalRecord.carryover / 100 ∧
      stringToNumber "0.333".toList = some (5998794703657501 / 18014398509481984) ∧
      (1499698675914375 / 4503599627370496 : ℚ) ≠ 5998794703657501 / 18014398509481984 := by
  have h1 : stringToNumber "33.3".toList = some (doubleValue 4686558362232422 (-47)) := by rfl
  have h2 : stringToNumber "0.333".toList = some (doubleValue 5998794703657501 (-54)) := by rfl
  have hc : fractionalRecord.carryover = 2343279181116211 / 70368744177664 := rfl
  refine ⟨?_, ?_, ?_, ?_, ?_⟩
  · rw [h1, hc]
    norm_num [doubleValue]
  · rw [rule2_of_first fractionalRecord _ layoutSheet 40 layoutSheet_first_40,
      apply_value_of_some _ _ _ _ _ (rule2Writes_cells fractionalRecord 40).2.2, hc,
      divideBy_fractional]
  · rw [hc]
    norm_num
  · rw [h2]
    norm_num [doubleValue]
  · norm_num

/-- C11 (amended): when the rules hit, each stored percentage is the supplied number divided by
100 in double arithmetic (`divideBy`: the exact quotient rounded to the nearest double, ties to
even) and every other field is stored as supplied.  Rule 1 stores `completedUnplanned`,
`completedPlanned`, `velocity`; rule 2 stores `completedTasks`, `incompleteTasks` and the
quotient of `carryover`; rule 3 stores the quotients of the four percentages at rows 6 to 9;
rule 4 stores the quotients of `taskCompletionPct` and `totalCompletionPct` at rows 25 and 26;
rule 5 stores `bugsIn`, `bugsOut`; the static writes store their six fields undivided. -/
theorem stored_values (data : SprintRecord) (key : JSValue) (sheet : Sheet) :
    (∀ r, FirstInColumn sheet key 4 26 r →
        (rule1 data key sheet).value r 2 = CellValue.number data.completedUnplanned ∧
        (rule1 data key sheet).value r 3 = CellValue.number data.completedPlanned ∧
        (rule1 data key sheet).value r 4 = CellValue.number data.velocity) ∧
      (∀ r, FirstInColumn sheet key 34 56 r →
        (rule2 data key sheet).value r 2 = CellValue.number data.completedTasks ∧
        (rule2 data key sheet).value r 3 = CellValue.number data.incompleteTasks ∧
        (rule2 data key sheet).value r 4 = CellValue.number (divideBy data.carryover 100)) ∧
      (∀ c, FirstInRow sheet key 3 c →
        (rule3 data key sheet).value 6 c = CellValue.number (divideBy data.plannedPct 100) ∧
        (rule3 data key sheet).value 7 c = CellValue.number (divideBy data.plannedCompletionPct 100) ∧
        (rule3 data key sheet).value 8 c = CellValue.number (divideBy data.unplannedCompletionPct 100) ∧
        (rule3 data key sheet).value 9 c = CellValue.number (divideBy data.totalCompletionPct 100)) ∧
      (∀ c, FirstInRow sheet key 24 c →
        (rule4 data key sheet).value 25 c = CellValue.number (divideBy data.taskCompletionPct 100) ∧
        (rule4 data key sheet).value 26 c = CellValue.number (divideBy data.totalCompletionPct 100)) ∧
      (∀ c, FirstInRow sheet key 39 c →
        (rule5 data key sheet).value 40 c = CellValue.number data.bugsIn ∧
        (rule5 data key sheet).value 41 c = CellValue.number data.bugsOut) ∧
      ((staticWrites data sheet).value 62 2 = CellValue.number data.plannedSP ∧
        (staticWrites data sheet).value 62 3 = CellValue.number data.completedPlanned ∧
        (staticWrites data sheet).value 62 5 = CellValue.number data.unplannedSP ∧
        (staticWrites data sheet).value 62 6 = CellValue.number data.completedUnplanned ∧
        (staticWrites data sheet).value 62 12 = CellValue.number data.bugsIn ∧
        (staticWrites data sheet).value 62 13 = CellValue.number data.bugsOut) := by
  refine ⟨?_, ?_, ?_, ?_, ?_, ?_⟩
  · intro r h
    rw [rule1_of_first data key sheet r h]
    obtain ⟨h2, h3, h4⟩ := rule1Writes_cells data r
    exact ⟨apply_value_of_some _ _ _ _ _ h2, apply_value_of_some _ _ _ _ _ h3,
      apply_value_of_some _ _ _ _ _ h4⟩
  · intro r h
    rw [rule2_of_first data key sheet r h]
    obtain ⟨h2, h3, h4⟩ := rule2Writes_cells data r
    exact ⟨apply_value_of_some _ _ _ _ _ h2, apply_value_of_some _ _ _ _ _ h3,
      apply_value_of_some _ _ _ _ _ h4⟩
  · intro c h
    rw [rule3_of_first data key sheet c h]
    obtain ⟨h6, h7, h8, h9⟩ := rule3Writes_cells data c
    exact ⟨apply_value_of_some _ _ _ _ _ h6, apply_value_of_some _ _ _ _ _ h7,
      apply_value_of_some _ _ _ _ _ h8, apply_value_of_some _ _ _ _ _ h9⟩
  · intro c h
    rw [rule4_of_first data key sheet c h]
    obtain ⟨h25, h26⟩ := rule4Writes_cells data c
    exact ⟨apply_value_of_some _ _ _ _ _ h25, apply_value_of_some _ _ _ _ _ h26⟩
  · intro c h
    rw [rule5_of_first data key sheet c h]
    obtain ⟨h40, h41⟩ := rule5Writes_cells data c
    exact ⟨apply_value_of_some _ _ _ _ _ h40, apply_value_of_some _ _ _ _ _ h41⟩
  · rw [staticWrites_eq_apply]
    obtain ⟨h2, h3, h5, h6, h12, h13⟩ := staticOverwrite_cells data
    exact ⟨apply_value_of_some _ _ _ _ _ h2, apply_value_of_some _ _ _ _ _ h3,
      apply_value_of_some _ _ _ _ _ h5, apply_value_of_some _ _ _ _ _ h6,
      apply_value_of_some _ _ _ _ _ h12, apply_value_of_some _ _ _ _ _ h13⟩

/-- C11 (witness): on the layout sheet the key `IR07` is found at row 40 of `A34:A56`; with
`carryover = 50` rule 2 stores the quotient of 50 by 100, which is one half, at (40, 4), and the
task counts 20 and 4 undivided. -/
theorem stored_values_witness :
    ((rule2 exampleRecord (JSValue.string "IR07".toList) layoutSheet).value 40 2
        = CellValue.number exampleRecord.completedTasks ∧
      (rule2 exampleRecord (JSValue.string "IR07".toList) layoutSheet).value 40 3
        = CellValue.number exampleRecord.incompleteTasks ∧
      (rule2 exampleRecord (JSValue.string "IR07".toList) layoutSheet).value 40 4
        = CellValue.number (divideBy exampleRecord.carryover 100)) ∧
      divideBy exampleRecord.carryover 100 = 1 / 2 ∧ exampleRecord.completedTasks = 20 ∧
      exampleRecord.incompleteTasks = 4 :=
  ⟨(stored_values exampleRecord (JSValue.string "IR07".toList) layoutSheet).2.1 40
      layoutSheet_first_40, divideBy_fifty, rfl, rfl⟩

/-- C12: a keyed rule whose search window holds no cell loosely equal to the key leaves the sheet
exactly as it was: no value and no background is written. -/
theorem rule_miss_writes_nothing (data : SprintRecord) (key : JSValue) (sheet : Sheet) :
    ((∀ r, 4 ≤ r → r ≤ 26 → looseEq (sheet.value r 1).toJS key = false) →
        rule1 data key sheet = sheet) ∧
      ((∀ r, 34 ≤ r → r ≤ 56 → looseEq (sheet.value r 1).toJS key = false) →
        rule2 data key sheet = sheet) ∧
      ((∀ c, 7 ≤ c → c ≤ 29 → looseEq (sheet.value 3 c).toJS key = false) →
        rule3 data key sheet = sheet) ∧
      ((∀ c, 7 ≤ c → c ≤ 29 → looseEq (sheet.value 24 c).toJS key = false) →
        rule4 data key sheet = sheet) ∧
      ((∀ c, 7 ≤ c → c ≤ 29 → looseEq (sheet.value 39 c).toJS key = false) →
        rule5 data key sheet = sheet) := by
  refine ⟨?_, ?_, ?_, ?_, ?_⟩
  · intro h
    rw [rule1_eq_apply, locatedInColumn_miss, apply_empty]
    rw [getRangeA1_A4_A26]
    intro r h1 h2
    simp only at h1 h2
    exact h r h1 (by omega)
  · intro h
    rw [rule2_eq_apply, locatedInColumn_miss, apply_empty]
    rw [getRangeA1_A34_A56]
    intro r h1 h2
    simp only at h1 h2
    exact h r h1 (by omega)
  · intro h
    rw [rule3_eq_apply, locatedInRow_miss, apply_empty]
    rw [getRangeA1_G3_AC3]
    intro c h1 h2
    simp only at h1 h2
    exact h c h1 (by omega)
  · intro h
    rw [rule4_eq_apply, locatedInRow_miss, apply_empty]
    rw [getRangeA1_G24_AC24]
    intro c h1 h2
    simp only at h1 h2
    exact h c h1 (by omega)
  · intro h
    rw [rule5_eq_apply, locatedInRow_miss, apply_empty]
    rw [getRangeA1_G39_AC39]
    intro c h1 h2
    simp only at h1 h2
    exact h c h1 (by omega)

/-- C12 (witness): the layout sheet holds `IR07` only; with the key `IR08` rule 1 finds nothing
in `A4:A26` and returns the sheet as it was. -/
theorem rule_miss_writes_nothing_witness :
    rule1 exampleRecord (JSValue.string "IR08".toList) layoutSheet = layoutSheet :=
  (rule_miss_writes_nothing exampleRecord (JSValue.string "IR08".toList) layoutSheet).1
    (fun r h1 h2 => by interval_cases r <;> decide)

theorem not_ruleRegion_row_62 (c : Nat) : ¬ RuleRegion 62 c := by
  unfold RuleRegion
  rw [inA1_B4_D26, inA1_B34_D56, inA1_G6_AC9, inA1_G25_AC26, inA1_G40_AC41]
  omega

theorem plan_cells_of_static (data : SprintRecord) (key : JSValue) (sheet : Sheet) (r c : Nat)
    (v : CellValue) (h : (staticOverwrite data).cells r c = some v) :
    (plan data key sheet).cells r c = some v := by
  simp only [plan, Overwrite.andThen, h]

theorem plan_colours_row_62 (data : SprintRecord) (key : JSValue) (sheet : Sheet) (c : Nat) :
    (plan data key sheet).colours 62 c = none := by
  simp only [plan, Overwrite.andThen, staticOverwrite_colours]
  exact (rulesPlan_within data key sheet 62 c (not_ruleRegion_row_62 c)).2

/-- C14: with a valid sprint key and the sheet `Team Stats` present, `processData` succeeds and
leaves B62 = `plannedSP`, C62 = `completedPlanned`, E62 = `unplannedSP`,
F62 = `completedUnplanned`, L62 = `bugsIn` and M62 = `bugsOut`, whatever the sheet holds (so
also when every keyed rule misses), and the background of every cell of row 62 is as before. -/
theorem static_writes_always (store : Store) (data : SprintRecord) (k : JSString)
    (sheet : Sheet) (hk : getSprintKey data.sprintNameValue = some k)
    (hs : store.getSheetByName "Team Stats" = some sheet) :
    ∃ after, (processData store data).2.getSheetByName "Team Stats" = some after ∧
      (processData store data).1.status = "success" ∧
      after.value 62 2 = CellValue.number data.plannedSP ∧
      after.value 62 3 = CellValue.number data.completedPlanned ∧
      after.value 62 5 = CellValue.number data.unplannedSP ∧
      after.value 62 6 = CellValue.number data.completedUnplanned ∧
      after.value 62 12 = CellValue.number data.bugsIn ∧
      after.value 62 13 = CellValue.number data.bugsOut ∧
      ∀ c, after.background 62 c = sheet.background 62 c := by
  rw [processData_eq_plan store data k sheet hk hs]
  obtain ⟨h2, h3, h5, h6, h12, h13⟩ := staticOverwrite_cells data
  refine ⟨(plan data (JSValue.string k) sheet).apply sheet, by
    simp [Store.getSheetByName, Store.withSheet], rfl, ?_, ?_, ?_, ?_, ?_, ?_, ?_⟩
  · exact apply_value_of_some _ _ _ _ _ (plan_cells_of_static _ _ _ _ _ _ h2)
  · exact apply_value_of_some _ _ _ _ _ (plan_cells_of_static _ _ _ _ _ _ h3)
  · exact apply_value_of_some _ _ _ _ _ (plan_cells_of_static _ _ _ _ _ _ h5)
  · exact apply_value_of_some _ _ _ _ _ (plan_cells_of_static _ _ _ _ _ _ h6)
  · exact apply_value_of_some _ _ _ _ _ (plan_cells_of_static _ _ _ _ _ _ h12)
  · exact apply_value_of_some _ _ _ _ _ (plan_cells_of_static _ _ _ _ _ _ h13)
  · intro c
    exact apply_background_of_none _ _ _ _ (plan_colours_row_62 _ _ _ c)

/-- C14 (witness): the example record renamed `Iteration 8` on the layout sheet, which holds the
key `IR07` only: every keyed rule misses and row 62 still receives the six totals. -/
theorem static_writes_always_witness :
    ∃ after, (processData (fun n => if n = "Team Stats" then some layoutSheet else none)
        { exampleRecord with sprintName := some "Iteration 8".toList }).2.getSheetByName
          "Team Stats" = some after ∧
      (processData (fun n => if n = "Team Stats" then some layoutSheet else none)
        { exampleRecord with sprintName := some "Iteration 8".toList }).1.status = "success" ∧
      after.value 62 2 = CellValue.number 10 ∧ after.value 62 3 = CellValue.number 5 ∧
      after.value 62 5 = CellValue.number 4 ∧ after.value 62 6 = CellValue.number 3 ∧
      after.value 62 12 = CellValue.number 2 ∧ after.value 62 13 = CellValue.number 1 ∧
      ∀ c, after.background 62 c = layoutSheet.background 62 c :=
  static_writes_always (fun n => if n = "Team Stats" then some layoutSheet else none)
    { exampleRecord with sprintName := some "Iteration 8".toList } "IR08".toList layoutSheet
    (by decide) (by simp [Store.getSheetByName])

/-- C15 (counterexample): the bug totals and the story-point totals are written at one and the
same row: the ranges `L62`, `M62` have the row of `B62`, `C62`, `E62`, `F62`, and on the layout
sheet the example record puts `bugsIn` = 2 at (62, 12) and `plannedSP` = 10 at (62, 2). -/
theorem static_groups_same_row :
    (getRangeA1 "L62".toList).row = (getRangeA1 "B62".toList).row ∧
      (getRangeA1 "M62".toList).row = (getRangeA1 "B62".toList).row ∧
      (getRangeA1 "C62".toList).row = (getRangeA1 "B62".toList).row ∧
      (getRangeA1 "E62".toList).row = (getRangeA1 "B62".toList).row ∧
      (getRangeA1 "F62".toList).row = (getRangeA1 "B62".toList).row ∧
      (staticWrites exampleRecord layoutSheet).value 62 12 = CellValue.number 2 ∧
      (staticWrites exampleRecord layoutSheet).value 62 2 = CellValue.number 10 := by
  refine ⟨by decide, by decide, by decide, by decide, by decide, ?_, ?_⟩
  · rw [staticWrites_eq_apply]
    exact apply_value_of_some _ _ _ _ _ (staticOverwrite_cells exampleRecord).2.2.2.2.1
  · rw [staticWrites_eq_apply]
    exact apply_value_of_some _ _ _ _ _ (staticOverwrite_cells exampleRecord).1

/-- C15 (amended): the two unconditional static write groups go to the same fixed row 62, in
different columns: the story-point totals to columns 2, 3, 5, 6 (B62, C62, E62, F62) and the bug
totals to columns 12, 13 (L62, M62); every static cell is in row 62, no other value is changed
and no background is changed. -/
theorem static_writes_row_62 (data : SprintRecord) (sheet : Sheet) :
    ((staticWrites data sheet).value 62 2 = CellValue.number data.plannedSP ∧
        (staticWrites data sheet).value 62 3 = CellValue.number data.completedPlanned ∧
        (staticWrites data sheet).value 62 5 = CellValue.number data.unplannedSP ∧
        (staticWrites data sheet).value 62 6 = CellValue.number data.completedUnplanned) ∧
      ((staticWrites data sheet).value 62 12 = CellValue.number data.bugsIn ∧
        (staticWrites data sheet).value 62 13 = CellValue.number data.bugsOut) ∧
      (∀ r c, StaticCell r c ↔
        (r = 62 ∧ (c = 2 ∨ c = 3 ∨ c = 5 ∨ c = 6 ∨ c = 12 ∨ c = 13))) ∧
      (∀ r c, ¬ StaticCell r c → (staticWrites data sheet).value r c = sheet.value r c) ∧
      (∀ r c, (staticWrites data sheet).background r c = sheet.background r c) := by
  rw [staticWrites_eq_apply]
  obtain ⟨h2, h3, h5, h6, h12, h13⟩ := staticOverwrite_cells data
  refine ⟨⟨apply_value_of_some _ _ _ _ _ h2, apply_value_of_some _ _ _ _ _ h3,
    apply_value_of_some _ _ _ _ _ h5, apply_value_of_some _ _ _ _ _ h6⟩,
    ⟨apply_value_of_some _ _ _ _ _ h12, apply_value_of_some _ _ _ _ _ h13⟩, ?_, ?_, ?_⟩
  · intro r c
    unfold StaticCell
    rw [inA1_B62, inA1_C62, inA1_E62, inA1_F62, inA1_L62, inA1_M62]
    omega
  · intro r c h
    exact apply_value_of_none _ _ _ _ (staticOverwrite_within data r c h).1
  · intro r c
    exact apply_background_of_none _ _ _ _ (staticOverwrite_colours data r c)

/-! ## Highlighting -/

theorem highlightsExactly_apply (sheet : Sheet) (w : Overwrite) (P : Nat → Nat → Prop)
    (hw : w.within P)
    (hin : ∀ r c, P r c → (w.cells r c).isSome = true ∧ w.colours r c = some highlight) :
    HighlightsExactly sheet (w.apply sheet) w P := by
  refine ⟨rfl, ?_, ?_⟩
  · intro r c hp
    exact ⟨(hin r c hp).1, (hin r c hp).2, apply_background_of_some _ _ _ _ _ (hin r c hp).2⟩
  · intro r c hp
    exact ⟨(hw r c hp).1, (hw r c hp).2, apply_value_of_none _ _ _ _ (hw r c hp).1,
      apply_background_of_none _ _ _ _ (hw r c hp).2⟩

/-- C17: for each of the five keyed rules, when the rule hits, the cells whose background it sets
to the highlight colour are exactly the cells it writes a value to: columns 2 to 4 of the found
row for rules 1 and 2, rows 6 to 9 of the found column for rule 3, rows 25 and 26 for rule 4,
rows 40 and 41 for rule 5; every other cell keeps its value and its background. -/
theorem highlight_exactly_written (data : SprintRecord) (key : JSValue) (sheet : Sheet) :
    (∀ r, FirstInColumn sheet key 4 26 r →
        HighlightsExactly sheet (rule1 data key sheet) (rule1Writes data r)
          (fun r1 c1 => r1 = r ∧ 2 ≤ c1 ∧ c1 ≤ 4)) ∧
      (∀ r, FirstInColumn sheet key 34 56 r →
        HighlightsExactly sheet (rule2 data key sheet) (rule2Writes data r)
          (fun r1 c1 => r1 = r ∧ 2 ≤ c1 ∧ c1 ≤ 4)) ∧
      (∀ c, FirstInRow sheet key 3 c →
        HighlightsExactly sheet (rule3 data key sheet) (rule3Writes data c)
          (fun r1 c1 => c1 = c ∧ 6 ≤ r1 ∧ r1 ≤ 9)) ∧
      (∀ c, FirstInRow sheet key 24 c →
        HighlightsExactly sheet (rule4 data key sheet) (rule4Writes data c)
          (fun r1 c1 => c1 = c ∧ 25 ≤ r1 ∧ r1 ≤ 26)) ∧
      (∀ c, FirstInRow sheet key 39 c →
        HighlightsExactly sheet (rule5 data key sheet) (rule5Writes data c)
          (fun r1 c1 => c1 = c ∧ 40 ≤ r1 ∧ r1 ≤ 41)) := by
  refine ⟨?_, ?_, ?_, ?_, ?_⟩
  · intro r h
    rw [rule1_of_first data key sheet r h]
    apply highlightsExactly_apply _ _ _ (rule1Writes_within data r)
    rintro r1 c1 ⟨rfl, h2, h4⟩
    refine ⟨?_, rule1Writes_colours data r1 c1 h2 h4⟩
    obtain ⟨e2, e3, e4⟩ := rule1Writes_cells data r1
    interval_cases c1
    · rw [e2]; rfl
    · rw [e3]; rfl
    · rw [e4]; rfl
  · intro r h
    rw [rule2_of_first data key sheet r h]
    apply highlightsExactly_apply _ _ _ (rule2Writes_within data r)
    rintro r1 c1 ⟨rfl, h2, h4⟩
    refine ⟨?_, rule2Writes_colours data r1 c1 h2 h4⟩
    obtain ⟨e2, e3, e4⟩ := rule2Writes_cells data r1
    interval_cases c1
    · rw [e2]; rfl
    · rw [e3]; rfl
    · rw [e4]; rfl
  · intro c h
    rw [rule3_of_first data key sheet c h]
    apply highlightsExactly_apply _ _ _ (rule3Writes_within data c)
    rintro r1 c1 ⟨rfl, h6, h9⟩
    refine ⟨?_, rule3Writes_colours data c1 r1 h6 h9⟩
    obtain ⟨e6, e7, e8, e9⟩ := rule3Writes_cells data c1
    interval_cases r1
    · rw [e6]; rfl
    · rw [e7]; rfl
    · rw [e8]; rfl
    · rw [e9]; rfl
  · intro c h
    rw [rule4_of_first data key sheet c h]
    apply highlightsExactly_apply _ _ _ (rule4Writes_within data c)
    rintro r1 c1 ⟨rfl, h1, h2⟩
    refine ⟨?_, rule4Writes_colours data c1 r1 h1 h2⟩
    obtain ⟨e1, e2⟩ := rule4Writes_cells data c1
    interval_cases r1
    · rw [e1]; rfl
    · rw [e2]; rfl
  · intro c h
    rw [rule5_of_first data key sheet c h]
    apply highlightsExactly_apply _ _ _ (rule5Writes_within data c)
    rintro r1 c1 ⟨rfl, h1, h2⟩
    refine ⟨?_, rule5Writes_colours data c1 r1 h1 h2⟩
    obtain ⟨e1, e2⟩ := rule5Writes_cells data c1
    interval_cases r1
    · rw [e1]; rfl
    · rw [e2]; rfl

theorem layoutSheet_first_row3 : FirstInRow layoutSheet (JSValue.string "IR07".toList) 3 9 :=
  ⟨by decide, by decide, by decide, fun c1 h1 h2 => by interval_cases c1 <;> decide⟩

/-- C17 (witness): on the layout sheet the key `IR07` stands in row 3 first at column 9; rule 3
writes and highlights exactly rows 6 to 9 of column 9. -/
theorem highlight_exactly_written_witness :
    HighlightsExactly layoutSheet (rule3 exampleRecord (JSValue.string "IR07".toList) layoutSheet)
      (rule3Writes exampleRecord 9) (fun r1 c1 => c1 = 9 ∧ 6 ≤ r1 ∧ r1 ≤ 9) :=
  (highlight_exactly_written exampleRecord (JSValue.string "IR07".toList) layoutSheet).2.2.1 9
    layoutSheet_first_row3

/-! ## Order of the rules -/

/-- Two rules that each perform a located batch within disjoint regions commute. -/
theorem comm_of_located (f g : Sheet → Sheet) (Lf Lg : Sheet → Overwrite)
    (Pf Pg : Nat → Nat → Prop)
    (hf : ∀ sh, f sh = (Lf sh).apply sh) (hg : ∀ sh, g sh = (Lg sh).apply sh)
    (hfw : ∀ sh, (Lf sh).within Pf) (hgw : ∀ sh, (Lg sh).within Pg)
    (hPf : ∀ r c, Pf r c → Writable r c) (hPg : ∀ r c, Pg r c → Writable r c)
    (hdisj : ∀ r c, ¬ (Pf r c ∧ Pg r c))
    (hfi : ∀ (w : Overwrite) (sh : Sheet), w.within Writable → Lf (w.apply sh) = Lf sh)
    (hgi : ∀ (w : Overwrite) (sh : Sheet), w.within Writable → Lg (w.apply sh) = Lg sh)
    (sh : Sheet) :
    f (g sh) = g (f sh) := by
  rw [hg sh, hf ((Lg sh).apply sh), hfi _ _ (within_mono _ _ _ (hgw sh) hPg),
    hf sh, hg ((Lf sh).apply sh), hgi _ _ (within_mono _ _ _ (hfw sh) hPf)]
  exact apply_comm _ _ Pf Pg (hfw sh) (hgw sh) hdisj _

theorem writable_B4_D26 (r c : Nat) (h : inA1 "B4:D26" r c) : Writable r c :=
  Or.inl (Or.inl h)

theorem writable_B34_D56 (r c : Nat) (h : inA1 "B34:D56" r c) : Writable r c :=
  Or.inl (Or.inr (Or.inl h))

theorem writable_G6_AC9 (r c : Nat) (h : inA1 "G6:AC9" r c) : Writable r c :=
  Or.inl (Or.inr (Or.inr (Or.inl h)))

theorem writable_G25_AC26 (r c : Nat) (h : inA1 "G25:AC26" r c) : Writable r c :=
  Or.inl (Or.inr (Or.inr (Or.inr (Or.inl h))))

theorem writable_G40_AC41 (r c : Nat) (h : inA1 "G40:AC41" r c) : Writable r c :=
  Or.inl (Or.inr (Or.inr (Or.inr (Or.inr h))))

theorem rule1_rule2_comm (data : SprintRecord) (key : JSValue) (sh : Sheet) :
    rule1 data key (rule2 data key sh) = rule2 data key (rule1 data key sh) :=
  comm_of_located _ _ _ _ _ _ (rule1_eq_apply data key) (rule2_eq_apply data key)
    (located1_within data key) (located2_within data key) writable_B4_D26 writable_B34_D56
    (fun r c => by rw [inA1_B4_D26, inA1_B34_D56]; omega)
    (fun w sh1 hw => located1_apply w hw data key sh1)
    (fun w sh1 hw => located2_apply w hw data key sh1) sh

theorem rule1_rule3_comm (data : SprintRecord) (key : JSValue) (sh : Sheet) :
    rule1 data key (rule3 data key sh) = rule3 data key (rule1 data key sh) :=
  comm_of_located _ _ _ _ _ _ (rule1_eq_apply data key) (rule3_eq_apply data key)
    (located1_within data key) (located3_within data key) writable_B4_D26 writable_G6_AC9
    (fun r c => by rw [inA1_B4_D26, inA1_G6_AC9]; omega)
    (fun w sh1 hw => located1_apply w hw data key sh1)
    (fun w sh1 hw => located3_apply w hw data key sh1) sh

theorem rule1_rule4_comm (data : SprintRecord) (key : JSValue) (sh : Sheet) :
    rule1 data key (rule4 data key sh) = rule4 data key (rule1 data key sh) :=
  comm_of_located _ _ _ _ _ _ (rule1_eq_apply data key) (rule4_eq_apply data key)
    (located1_within data key) (located4_within data key) writable_B4_D26 writable_G25_AC26
    (fun r c => by rw [inA1_B4_D26, inA1_G25_AC26]; omega)
    (fun w sh1 hw => located1_apply w hw data key sh1)
    (fun w sh1 hw => located4_apply w hw data key sh1) sh

theorem rule1_rule5_comm (data : SprintRecord) (key : JSValue) (sh : Sheet) :
    rule1 data key (rule5 data key sh) = rule5 data key (rule1 data key sh) :=
  comm_of_located _ _ _ _ _ _ (rule1_eq_apply data key) (rule5_eq_apply data key)
    (located1_within data key) (located5_within data key) writable_B4_D26 writable_G40_AC41
    (fun r c => by rw [inA1_B4_D26, inA1_G40_AC41]; omega)
    (fun w sh1 hw => located1_apply w hw data key sh1)
    (fun w sh1 hw => located5_apply w hw data key sh1) sh

theorem rule2_rule3_comm (data : SprintRecord) (key : JSValue) (sh : Sheet) :
    rule2 data key (rule3 data key sh) = rule3 data key (rule2 data key sh) :=
  comm_of_located _ _ _ _ _ _ (rule2_eq_apply data key) (rule3_eq_apply data key)
    (located2_within data key) (located3_within data key) writable_B34_D56 writable_G6_AC9
    (fun r c => by rw [inA1_B34_D56, inA1_G6_AC9]; omega)
    (fun w sh1 hw => located2_apply w hw data key sh1)
    (fun w sh1 hw => located3_apply w hw data key sh1) sh

theorem rule2_rule4_comm (data : SprintRecord) (key : JSValue) (sh : Sheet) :
    rule2 data key (rule4 data key sh) = rule4 data key (rule2 data key sh) :=
  comm_of_located _ _ _ _ _ _ (rule2_eq_apply data key) (rule4_eq_apply data key)
    (located2_within data key) (located4_within data key) writable_B34_D56 writable_G25_AC26
    (fun r c => by rw [inA1_B34_D56, inA1_G25_AC26]; omega)
    (fun w sh1 hw => located2_apply w hw data key sh1)
    (fun w sh1 hw => located4_apply w hw data key sh1) sh

theorem rule2_rule5_comm (data : SprintRecord) (key : JSValue) (sh : Sheet) :
    rule2 data key (rule5 data key sh) = rule5 data key (rule2 data key sh) :=
  comm_of_located _ _ _ _ _ _ (rule2_eq_apply data key) (rule5_eq_apply data key)
    (located2_within data key) (located5_within data key) writable_B34_D56 writable_G40_AC41
    (fun r c => by rw [inA1_B34_D56, inA1_G40_AC41]; omega)
    (fun w sh1 hw => located2_apply w hw data key sh1)
    (fun w sh1 hw => located5_apply w hw data key sh1) sh

theorem rule3_rule4_comm (data : SprintRecord) (key : JSValue) (sh : Sheet) :
    rule3 data key (rule4 data key sh) = rule4 data key (rule3 data key sh) :=
  comm_of_located _ _ _ _ _ _ (rule3_eq_apply data key) (rule4_eq_apply data key)
    (located3_within data key) (located4_within data key) writable_G6_AC9 writable_G25_AC26
    (fun r c => by rw [inA1_G6_AC9, inA1_G25_AC26]; omega)
    (fun w sh1 hw => located3_apply w hw data key sh1)
    (fun w sh1 hw => located4_apply w hw data key sh1) sh

theorem rule3_rule5_comm (data : SprintRecord) (key : JSValue) (sh : Sheet) :
    rule3 data key (rule5 data key sh) = rule5 data key (rule3 data key sh) :=
  comm_of_located _ _ _ _ _ _ (rule3_eq_apply data key) (rule5_eq_apply data key)
    (located3_within data key) (located5_within data key) writable_G6_AC9 writable_G40_AC41
    (fun r c => by rw [inA1_G6_AC9, inA1_G40_AC41]; omega)
    (fun w sh1 hw => located3_apply w hw data key sh1)
    (fun w sh1 hw => located5_apply w hw data key sh1) sh

theorem rule4_rule5_comm (data : SprintRecord) (key : JSValue) (sh : Sheet) :
    rule4 data key (rule5 data key sh) = rule5 data key (rule4 data key sh) :=
  comm_of_located _ _ _ _ _ _ (rule4_eq_apply data key) (rule5_eq_apply data key)
    (located4_within data key) (located5_within data key) writable_G25_AC26 writable_G40_AC41
    (fun r c => by rw [inA1_G25_AC26, inA1_G40_AC41]; omega)
    (fun w sh1 hw => located4_apply w hw data key sh1)
    (fun w sh1 hw => located5_apply w hw data key sh1) sh

theorem keyedRules_comm (data : SprintRecord) (key : JSValue) :
    ∀ x ∈ keyedRules data key, ∀ y ∈ keyedRules data key, ∀ z : Sheet, y (x z) = x (y z) := by
  intro x hx y hy z
  simp only [keyedRules, List.mem_cons, List.mem_singleton, List.not_mem_nil, or_false] at hx hy
  rcases hx with rfl | rfl | rfl | rfl | rfl
  · rcases hy with rfl | rfl | rfl | rfl | rfl
    · rfl
    · exact (rule1_rule2_comm data key z).symm
    · exact (rule1_rule3_comm data key z).symm
    · exact (rule1_rule4_comm data key z).symm
    · exact (rule1_rule5_comm data key z).symm
  · rcases hy with rfl | rfl | rfl | rfl | rfl
    · exact rule1_rule2_comm data key z
    · rfl
    · exact (rule2_rule3_comm data key z).symm
    · exact (rule2_rule4_comm data key z).symm
    · exact (rule2_rule5_comm data key z).symm
  · rcases hy with rfl | rfl | rfl | rfl | rfl
    · exact rule1_rule3_comm data key z
    · exact rule2_rule3_comm data key z
    · rfl
    · exact (rule3_rule4_comm data key z).symm
    · exact (rule3_rule5_comm data key z).symm
  · rcases hy with rfl | rfl | rfl | rfl | rfl
    · exact rule1_rule4_comm data key z
    · exact rule2_rule4_comm data key z
    · exact rule3_rule4_comm data key z
    · rfl
    · exact (rule4_rule5_comm data key z).symm
  · rcases hy with rfl | rfl | rfl | rfl | rfl
    · exact rule1_rule5_comm data key z
    · exact rule2_rule5_comm data key z
    · exact rule3_rule5_comm data key z
    · exact rule4_rule5_comm data key z
    · rfl

theorem rule_frame (f : Sheet → Sheet) (L : Sheet → Overwrite) (P : Nat → Nat → Prop)
    (hf : ∀ sh, f sh = (L sh).apply sh) (hw : ∀ sh, (L sh).within P) (sheet : Sheet)
    (r c : Nat) (h : ¬ P r c) :
    (f sheet).value r c = sheet.value r c ∧ (f sheet).background r c = sheet.background r c := by
  rw [hf sheet]
  exact ⟨apply_value_of_none _ _ _ _ (hw sheet r c h).1,
    apply_background_of_none _ _ _ _ (hw sheet r c h).2⟩

/-- C16: the order of the five keyed rules has no effect.  Their write regions are pairwise
disjoint and disjoint from every lookup window, each rule changes cells of its own region only,
and running the five rules in any permutation of the declaration order gives the sheet that the
declaration order gives, values and backgrounds. -/
theorem rules_order_irrelevant (data : SprintRecord) (key : JSValue) (sheet : Sheet) :
    List.Pairwise (fun a b => ∀ r c, ¬ (inA1 a r c ∧ inA1 b r c)) ruleRegions ∧
      (∀ a ∈ ruleRegions, ∀ b ∈ lookupWindows, ∀ r c, ¬ (inA1 a r c ∧ inA1 b r c)) ∧
      (∀ r c, (¬ inA1 "B4:D26" r c → (rule1 data key sheet).value r c = sheet.value r c ∧
          (rule1 data key sheet).background r c = sheet.background r c) ∧
        (¬ inA1 "B34:D56" r c → (rule2 data key sheet).value r c = sheet.value r c ∧
          (rule2 data key sheet).background r c = sheet.background r c) ∧
        (¬ inA1 "G6:AC9" r c → (rule3 data key sheet).value r c = sheet.value r c ∧
          (rule3 data key sheet).background r c = sheet.background r c) ∧
        (¬ inA1 "G25:AC26" r c → (rule4 data key sheet).value r c = sheet.value r c ∧
          (rule4 data key sheet).background r c = sheet.background r c) ∧
        (¬ inA1 "G40:AC41" r c → (rule5 data key sheet).value r c = sheet.value r c ∧
          (rule5 data key sheet).background r c = sheet.background r c)) ∧
      runRules (keyedRules data key) sheet =
        rule5 data key (rule4 data key (rule3 data key (rule2 data key
          (rule1 data key sheet)))) ∧
      (∀ order, List.Perm order (keyedRules data key) →
        runRules order sheet = runRules (keyedRules data key) sheet) := by
  refine ⟨?_, ?_, ?_, rfl, ?_⟩
  · simp only [ruleRegions, List.pairwise_cons, List.mem_cons, List.mem_singleton,
      List.not_mem_nil, or_false, forall_eq_or_imp, forall_eq, List.Pairwise.nil, and_true,
      false_implies, implies_true, inA1_B4_D26, inA1_B34_D56, inA1_G6_AC9, inA1_G25_AC26,
      inA1_G40_AC41]
    refine ⟨⟨?_, ?_, ?_, ?_⟩, ⟨?_, ?_, ?_⟩, ⟨?_, ?_⟩, ?_⟩ <;> intro r c <;> omega
  · simp only [ruleRegions, lookupWindows, List.mem_cons, List.mem_singleton,
      List.not_mem_nil, or_false, forall_eq_or_imp, forall_eq, inA1_B4_D26, inA1_B34_D56,
      inA1_G6_AC9, inA1_G25_AC26, inA1_G40_AC41, inA1_A4_A26, inA1_A34_A56, inA1_G3_AC3,
      inA1_G24_AC24, inA1_G39_AC39]
    refine ⟨⟨?_, ?_, ?_, ?_, ?_⟩, ⟨?_, ?_, ?_, ?_, ?_⟩, ⟨?_, ?_, ?_, ?_, ?_⟩,
      ⟨?_, ?_, ?_, ?_, ?_⟩, ⟨?_, ?_, ?_, ?_, ?_⟩⟩ <;> intro r c <;> omega
  · intro r c
    exact ⟨rule_frame _ _ _ (rule1_eq_apply data key) (located1_within data key) sheet r c,
      rule_frame _ _ _ (rule2_eq_apply data key) (located2_within data key) sheet r c,
      rule_frame _ _ _ (rule3_eq_apply data key) (located3_within data key) sheet r c,
      rule_frame _ _ _ (rule4_eq_apply data key) (located4_within data key) sheet r c,
      rule_frame _ _ _ (rule5_eq_apply data key) (located5_within data key) sheet r c⟩
  · intro order hperm
    unfold runRules
    exact (List.Perm.foldl_eq' hperm.symm (fun x hx y hy z => keyedRules_comm data key x hx y hy z)
      sheet).symm

/-- C16 (witness): on the layout sheet, where every rule hits, the reversed order gives the same
sheet as the declaration order. -/
theorem rules_order_irrelevant_witness :
    runRules [rule5 exampleRecord (JSValue.string "IR07".toList),
        rule4 exampleRecord (JSValue.string "IR07".toList),
        rule3 exampleRecord (JSValue.string "IR07".toList),
        rule2 exampleRecord (JSValue.string "IR07".toList),
        rule1 exampleRecord (JSValue.string "IR07".toList)] layoutSheet =
      runRules (keyedRules exampleRecord (JSValue.string "IR07".toList)) layoutSheet :=
  (rules_order_irrelevant exampleRecord (JSValue.string "IR07".toList) layoutSheet).2.2.2.2 _
    (List.reverse_perm (keyedRules exampleRecord (JSValue.string "IR07".toList)))

/-! ## The request handler -/

/-- The result of `doGet` does not depend on what `tryLock` returned. -/
theorem doGet_lock_irrelevant (lockAcquired : Bool) (jsonString : Option JSString)
    (decode : JSString → Except JSString SprintRecord) (store : Store) :
    doGet lockAcquired jsonString decode store = doGet true jsonString decode store := by
  rfl

/-- C18 (the code at the failing input): with the lock not acquired (`tryLock` returned `false`)
and a well-formed payload, `doGet` still runs `processData`: the answer is
`Updated stats for IR07` and the cell B62, empty before, holds `plannedSP` = 10 afterwards. -/
theorem doGet_writes_without_lock :
    (doGet false (some examplePayload) (fun _ => Except.ok exampleRecord) exampleStore).1 =
        createResponse "success" "Updated stats for IR07".toList ∧
      (doGet false (some examplePayload) (fun _ => Except.ok exampleRecord) exampleStore) =
        processData exampleStore exampleRecord ∧
      layoutSheet.value 62 2 = CellValue.empty ∧
      ∃ after,
        (doGet false (some examplePayload) (fun _ => Except.ok exampleRecord)
          exampleStore).2.getSheetByName "Team Stats" = some after ∧
        after.value 62 2 = CellValue.number 10 := by
  have hd : doGet false (some examplePayload) (fun _ => Except.ok exampleRecord) exampleStore =
      processData exampleStore exampleRecord := by
    have he : examplePayload.isEmpty = false := by rfl
    simp only [doGet, he]
    rfl
  have hk : getSprintKey exampleRecord.sprintNameValue = some "IR07".toList := by decide
  have hs : exampleStore.getSheetByName "Team Stats" = some layoutSheet := by
    simp [Store.getSheetByName, exampleStore]
  have hp := processData_eq_plan exampleStore exampleRecord _ layoutSheet hk hs
  refine ⟨?_, hd, by decide,
    (plan exampleRecord (JSValue.string "IR07".toList) layoutSheet).apply layoutSheet, ?_, ?_⟩
  · rw [hd, hp]
    rfl
  · rw [hd, hp]
    simp [Store.getSheetByName, Store.withSheet]
  · exact apply_value_of_some _ _ _ _ _
      (plan_cells_of_static _ _ _ _ _ _ (staticOverwrite_cells exampleRecord).1)

/-! ## The global frame -/

theorem recorded_vertical (sheet : Sheet) (addr : JSString) (key : JSValue) (base : Nat) :
    ∀ r ∈ updateVerticalRange sheet addr key base recordCall [],
      base ≤ r ∧ r < base + (getRangeA1 addr).numRows := by
  intro r hr
  rw [updateVerticalRange_eq] at hr
  cases hm : firstMatch key (columnWindow sheet (getRangeA1 addr)) with
  | none => rw [hm] at hr; simp at hr
  | some k =>
    rw [hm] at hr
    have hk := firstMatch_lt key _ k hm
    rw [length_columnWindow] at hk
    simp only [recordCall, List.nil_append, List.mem_singleton] at hr
    omega

theorem recorded_horizontal (sheet : Sheet) (addr : JSString) (key : JSValue) (base : Nat) :
    ∀ c ∈ updateHorizontalRange sheet addr key base recordCall [],
      base ≤ c ∧ c < base + (getRangeA1 addr).numCols := by
  intro c hc
  rw [updateHorizontalRange_eq] at hc
  cases hm : firstMatch key (rowWindow sheet (getRangeA1 addr)) with
  | none => rw [hm] at hc; simp at hc
  | some k =>
    rw [hm] at hc
    have hk := firstMatch_lt key _ k hm
    rw [length_rowWindow] at hk
    simp only [recordCall, List.nil_append, List.mem_singleton] at hc
    omega

theorem processData_other_sheets (store : Store) (data : SprintRecord) (n : String)
    (hn : n ≠ "Team Stats") : (processData store data).2 n = store n := by
  cases hk : getSprintKey data.sprintNameValue with
  | none => rw [processData_of_null store data hk]
  | some k =>
    cases hs : store.getSheetByName "Team Stats" with
    | none => rw [processData_of_no_sheet store data k hk hs]
    | some sheet =>
      rw [processData_of_sheet store data k sheet hk hs]
      simp [Store.withSheet, hn]

/-- The sheet `Team Stats` after `processData`: the sheet before, or the sheet before with the
batch `plan` applied. -/
theorem processData_sheet (store : Store) (data : SprintRecord) (sheet : Sheet)
    (hs : store.getSheetByName "Team Stats" = some sheet) :
    (processData store data).2.getSheetByName "Team Stats" = some sheet ∨
      ∃ k, (processData store data).2.getSheetByName "Team Stats" =
        some ((plan data (JSValue.string k) sheet).apply sheet) := by
  cases hk : getSprintKey data.sprintNameValue with
  | none =>
    left
    rw [processData_of_null store data hk]
    exact hs
  | some k =>
    right
    refine ⟨k, ?_⟩
    rw [processData_eq_plan store data k sheet hk hs]
    simp [Store.getSheetByName, Store.withSheet]

/-- C19: the global frame of `processData`.  Sheets other than `Team Stats` are untouched.  On the
sheet `Team Stats`, every cell whose value or background differs after the call lies in `B4:D26`,
`B34:D56`, `G6:AC9`, `G25:AC26`, `G40:AC41` or is one of B62, C62, E62, F62, L62, M62, and no cell
of the lookup windows `A4:A26`, `A34:A56`, `G3:AC3`, `G24:AC24`, `G39:AC39` is modified.  The row
handed to the callback lies in 4..26 for rule 1 and 34..56 for rule 2, the column in 7..29 for
rules 3 to 5. -/
theorem processData_frame (store : Store) (data : SprintRecord) :
    (∀ n, n ≠ "Team Stats" → (processData store data).2 n = store n) ∧
      (store.getSheetByName "Team Stats" = none →
        (processData store data).2.getSheetByName "Team Stats" = none) ∧
      (∀ sheet, store.getSheetByName "Team Stats" = some sheet →
        ∃ after, (processData store data).2.getSheetByName "Team Stats" = some after ∧
          (∀ r c, (after.value r c ≠ sheet.value r c ∨
              after.background r c ≠ sheet.background r c) → Writable r c) ∧
          (∀ r c, InWindow r c → after.value r c = sheet.value r c ∧
              after.background r c = sheet.background r c)) ∧
      (∀ (sheet : Sheet) (key : JSValue),
        (∀ r ∈ updateVerticalRange sheet "A4:A26".toList key 4 recordCall [], 4 ≤ r ∧ r ≤ 26) ∧
        (∀ r ∈ updateVerticalRange sheet "A34:A56".toList key 34 recordCall [],
          34 ≤ r ∧ r ≤ 56) ∧
        (∀ c ∈ updateHorizontalRange sheet "G3:AC3".toList key 7 recordCall [],
          7 ≤ c ∧ c ≤ 29) ∧
        (∀ c ∈ updateHorizontalRange sheet "G24:AC24".toList key 7 recordCall [],
          7 ≤ c ∧ c ≤ 29) ∧
        (∀ c ∈ updateHorizontalRange sheet "G39:AC39".toList key 7 recordCall [],
          7 ≤ c ∧ c ≤ 29)) := by
  refine ⟨processData_other_sheets store data, ?_, ?_, ?_⟩
  · intro hs
    have h := processData_other_sheets store data
    cases hk : getSprintKey data.sprintNameValue with
    | none => rw [processData_of_null store data hk]; exact hs
    | some k => rw [processData_of_no_sheet store data k hk hs]; exact hs
  · intro sheet hs
    have hframe : ∀ (w : Overwrite), w.within Writable →
        (∀ r c, ((w.apply sheet).value r c ≠ sheet.value r c ∨
            (w.apply sheet).background r c ≠ sheet.background r c) → Writable r c) ∧
        (∀ r c, InWindow r c → (w.apply sheet).value r c = sheet.value r c ∧
            (w.apply sheet).background r c = sheet.background r c) := by
      intro w hw
      constructor
      · intro r c hne
        by_contra hnot
        obtain ⟨h1, h2⟩ := hw r c hnot
        rcases hne with hne | hne
        · exact hne (apply_value_of_none _ _ _ _ h1)
        · exact hne (apply_background_of_none _ _ _ _ h2)
      · intro r c hin
        obtain ⟨h1, h2⟩ := hw r c (fun hwr => not_inWindow_of_writable r c hwr hin)
        exact ⟨apply_value_of_none _ _ _ _ h1, apply_background_of_none _ _ _ _ h2⟩
    rcases processData_sheet store data sheet hs with h | ⟨k, h⟩
    · refine ⟨sheet, h, ?_, ?_⟩
      · intro r c hne
        rcases hne with hne | hne <;> exact absurd rfl hne
      · intro r c _
        exact ⟨rfl, rfl⟩
    · exact ⟨_, h, hframe _ (plan_within data _ sheet)⟩
  · intro sheet key
    refine ⟨?_, ?_, ?_, ?_, ?_⟩
    · intro r hr
      have := recorded_vertical sheet _ key 4 r hr
      rw [getRangeA1_A4_A26] at this
      simp only at this
      omega
    · intro r hr
      have := recorded_vertical sheet _ key 34 r hr
      rw [getRangeA1_A34_A56] at this
      simp only at this
      omega
    · intro c hc
      have := recorded_horizontal sheet _ key 7 c hc
      rw [getRangeA1_G3_AC3] at this
      simp only at this
      omega
    · intro c hc
      have := recorded_horizontal sheet _ key 7 c hc
      rw [getRangeA1_G24_AC24] at this
      simp only at this
      omega
    · intro c hc
      have := recorded_horizontal sheet _ key 7 c hc
      rw [getRangeA1_G39_AC39] at this
      simp only at this
      omega

/-- C19 (witness): the example record on the example store: the sheet `Team Stats` after the
call differs from the layout sheet in writable cells only. -/
theorem processData_frame_witness :
    ∃ after, (processData exampleStore exampleRecord).2.getSheetByName "Team Stats" = some after ∧
      (∀ r c, (after.value r c ≠ layoutSheet.value r c ∨
          after.background r c ≠ layoutSheet.background r c) → Writable r c) ∧
      (∀ r c, InWindow r c → after.value r c = layoutSheet.value r c ∧
          after.background r c = layoutSheet.background r c) :=
  (processData_frame exampleStore exampleRecord).2.2.1 layoutSheet
    (by simp [Store.getSheetByName, exampleStore])

/-! ## `getSprintKey` as a normaliser -/

theorem getSprintKey_of_strictIR (s ds : JSString) (h : StrictIR s ds) :
    getSprintKey (JSValue.string s) = some ('I' :: 'R' :: ds) := by
  rw [getSprintKey_of_no_match _ (matchIteration_of_strictIR s ds h),
    (testStrictIR_iff s).2 ⟨ds, h⟩, ← toUpperCase_of_strictIR s ds h]
  rfl

theorem strictIR_keyOfDigits (m1 : JSString) (hne : m1 ≠ [])
    (hdig : ∀ c ∈ m1, isDigit c = true) (hb : digitsValue m1 < 999999999999999934464) :
    ∃ ds, keyOfDigits m1 = 'I' :: 'R' :: ds ∧ StrictIR (keyOfDigits m1) ds := by
  obtain ⟨body, hkey, hbody, hlen⟩ := keyOfDigits_digits m1 hne hdig hb
  refine ⟨body, hkey, 'I', 'R', hkey, by decide, by decide, ?_, hbody⟩
  intro hnil
  rw [hnil] at hlen
  simp at hlen

/-- C20 (counterexample): `Iteration 1000000000000000000000` gives the key `IR1e+21`, and
`getSprintKey` of that key is `null`, not the key. -/
theorem getSprintKey_not_idempotent :
    getSprintKey (JSValue.string "Iteration 1000000000000000000000".toList)
        = some "IR1e+21".toList ∧
      getSprintKey (JSValue.string "IR1e+21".toList) = none := by
  refine ⟨by rfl, by decide⟩

/-- C20 (amended): for every string whose `Iteration` digit run, if there is one, has a value
below `10^21 - 65536` (so that `parseInt` reads it as a Number below `10^21`), a key returned by
`getSprintKey` is returned unchanged when it is passed to `getSprintKey` again. -/
theorem getSprintKey_idempotent (s k : JSString)
    (hbound : ∀ ds, matchIteration s = some ds →
      Nat.ofDigits 10 ((ds.map digitValue).reverse) < 999999999999999934464)
    (h : getSprintKey (JSValue.string s) = some k) :
    getSprintKey (JSValue.string k) = some k := by
  cases hm : matchIteration s with
  | some m1 =>
    obtain ⟨hne, hdig, _⟩ := matchIteration_eq_some s m1 hm
    have hb : digitsValue m1 < 999999999999999934464 := by
      rw [digitsValue_eq_ofDigits]; exact hbound m1 hm
    rw [getSprintKey_of_match _ _ hm] at h
    injection h with h
    obtain ⟨ds, hds, hstrict⟩ := strictIR_keyOfDigits m1 hne hdig hb
    rw [← h, getSprintKey_of_strictIR _ ds hstrict, hds]
  | none =>
    rw [getSprintKey_of_no_match _ hm] at h
    cases ht : testStrictIR s with
    | false => rw [ht] at h; cases h
    | true =>
      rw [ht] at h
      simp only [if_true, Option.some.injEq] at h
      obtain ⟨ds, hds⟩ := (testStrictIR_iff s).1 ht
      have hup := toUpperCase_of_strictIR s ds hds
      obtain ⟨a, b, _, _, _, hne, hdig⟩ := hds
      have hk : k = 'I' :: 'R' :: ds := by rw [← h, hup]
      rw [hk]
      exact getSprintKey_of_strictIR _ ds ⟨'I', 'R', rfl, by decide, by decide, hne, hdig⟩

/-- C20 (witness): `Iteration 9007199254740993`, whose digit run is above `2^53`, gives
`IR9007199254740992`, and `IR9007199254740992` gives `IR9007199254740992`. -/
theorem getSprintKey_idempotent_witness :
    getSprintKey (JSValue.string "IR9007199254740992".toList)
      = some "IR9007199254740992".toList :=
  getSprintKey_idempotent "Iteration 9007199254740993".toList "IR9007199254740992".toList (by
    intro ds hm
    have h07 : matchIteration "Iteration 9007199254740993".toList
        = some "9007199254740993".toList := by decide
    rw [h07] at hm
    injection hm with h2
    subst h2
    decide) (by rfl)

end AgileStats
